import Mathlib

/-!
# Reduction operator strategy of CINN (`cinn/hlir/op/reduction.cc`)

A shallow embedding of the reduce strategy: axis validation in `StrategyForReduce`,
the `WithoutLastDimInReduce` test, the compute closure and the schedule closure with its
dispatch on the size of the argument pack, and the shape inference
`InferShapeForReduction`.  Further sections embed the clip operator
(`cinn/hlir/op/contrib/clip.cc`), the operator registration blocks and `lang::Lower`
(`cinn/lang/lower.cc`), and model the fusion passes and the lowering engine, whose code is
exercised by `op_lowering_test.cc`, from the specification.

Conventions of the embedding.

* A C++ `int` is an `Int`; arithmetic that can leave the 32-bit range is wrapped with
  `wrapInt32`.  A comparison of an `int` with a `size_t` converts the `int` with `toSizeT`.
* A shape (`std::vector<ir::Expr>` whose entries are read with `as_int32()`) is the list of
  its extents; the attribute store is restricted to its two well-typed entries `dim` and
  `keep_dim`.
* A fatal `CHECK` / `LOG(FATAL)` is `Except.error`; normal completion is `Except.ok`.
* Code that `reduction.cc` calls but that is declared in other files (conversions of a
  `CINNValue`, the `pe::` compute and schedule primitives, `ir::IRSchedule`, `Target`)
  is a field of the structure `Externals`, or a parameter of the closure.  These operations
  are total functions here: a fatal error raised inside one of them is not part of the
  model.  The schedule closures record which primitive they call, and with which arguments.
* An argument pack is the list of its values; reading a pack at an offset that is not below
  its size is fatal (`packAt`).
-/

namespace CINN

/-! ## Machine integers -/

/-- Value of a C++ `int` expression after wrapping to the signed 32-bit range. -/
def wrapInt32 (z : Int) : Int := (z + 2 ^ 31) % 2 ^ 32 - 2 ^ 31

/-- Conversion of an `int` to `size_t` (unsigned 64 bit), as done by the usual arithmetic
conversions when an `int` meets a `size_t` in a comparison or a subtraction. -/
def toSizeT (z : Int) : Int := z % 2 ^ 64

/-! ## Attributes and axis validation (`StrategyForReduce`, lines 74-96) -/

/-- The two attributes of a reduce node read by the strategy; `none` is an absent key. -/
structure NodeAttr where
  dim : Option (List Int)
  keep_dim : Option Bool
deriving DecidableEq, Repr

/-- Values captured by copy in the compute and schedule closures. -/
structure ReduceEnv where
  reduce_axes : List Int
  keep_dim : Bool
deriving DecidableEq, Repr

/-- The loop `for (int i = 0; i < inputs[0]->shape.size(); ++i) reduce_axes.push_back(i)`. -/
def allAxes (rank : Nat) : List Int := (List.range rank).map Int.ofNat

/-- The loop `for (idx = 1; idx < reduce_axes.size(); ++idx) CHECK_NE(reduce_axes[idx - 1],
reduce_axes[idx])`: true when every check passes. -/
def checkAdjacentNE : List Int → Bool
  | a :: b :: rest => (a != b) && checkAdjacentNE (b :: rest)
  | _ => true

/-- Axis handling of `StrategyForReduce`; `inshape` is `inputs[0]->shape`.  The result is the
environment of the two closures of the returned strategy. `std::sort` on integers is
insertion sort here (a sorted permutation of integers is unique). -/
def StrategyForReduce (attrs : NodeAttr) (inshape : List Int) : Except String ReduceEnv :=
  match attrs.dim with
  | some dim =>
    let reduce_axes := if dim.isEmpty then allAxes inshape.length else dim
    let reduce_axes := reduce_axes.insertionSort (· ≤ ·)
    if ¬ reduce_axes.length ≤ inshape.length then
      .error "Check failed: reduce_axes.size() <= inputs[0]->shape.size()"
    else
      match reduce_axes.getLast? with
      | none => .error "reduce_axes.back() on an empty vector"
      | some back =>
        if ¬ toSizeT back < inshape.length then
          .error "Check failed: reduce_axes.back() < inputs[0]->shape.size()"
        else if ¬ checkAdjacentNE reduce_axes then
          .error "Check failed: reduce_axes[idx - 1] != reduce_axes[idx]"
        else
          .ok { reduce_axes := reduce_axes, keep_dim := attrs.keep_dim.getD false }
  | none => .error "reduce dimension is not set!"

/-! ## `WithoutLastDimInReduce` (lines 98-115) -/

/-- The lambda `WithoutLastDimInReduce`.  `std::find` with the `size_t` value
`inshape.size() - 1` compares each axis after conversion to `size_t`; the loop starts at
`axes.back() + 1`, runs while `idx < inshape.size()` (an unsigned comparison) and multiplies
the `int` accumulator by every extent it visits.  (`back()` of an empty vector is undefined in
C++; `StrategyForReduce` never hands an empty list to the closures when the rank is positive.) -/
def WithoutLastDimInReduce (inshape : List Int) (axes : List Int) : Bool :=
  if axes.any (fun a => toSizeT a == toSizeT ((inshape.length : Int) - 1))
      || axes.any (fun a => a == -1) then
    false
  else
    let idx := wrapInt32 (axes.getLastD 0 + 1)
    let sum_last_axes : Int :=
      if toSizeT idx < inshape.length then
        (inshape.drop (toSizeT idx).toNat).foldl (fun acc e => wrapInt32 (acc * e)) 1
      else 1
    if sum_last_axes > 1 then true else false

/-! ## Code declared outside `reduction.cc` -/

/-- Schedule primitive of `cinn/hlir/pe` called by `reduction_schedule`, together with the
arguments of the call: tensors of type `T`, a stage map of type `S`, a target of type `Tg`.
The first five are the IR-schedule primitives (their `ir_sch` argument is the current
schedule state), the last five the legacy primitives acting on the stage map. -/
inductive ReduceSchedule (T S Tg : Type) where
  | IRCudaScheduleBlockReduceInternal (tmp_out out : T) (target : Tg)
  | IRCudaScheduleBlockReduce (reduce_tmp_out tmp_out out : T) (target : Tg)
  | IRCudaTwoStepReduceSchedule (reshape reduce_tmp_out tmp_out out : T) (target : Tg)
  | IRCudaScheduleReduce (out : T) (last_dimension_num : Int) (target : Tg)
  | IRCudaScheduleBlockShuffleReduce (reshape internal out : T) (target : Tg)
  | CudaBlockReduceInternalSchedule (stages : S) (tmp_out out : T) (target : Tg)
  | CudaBlockReduceSchedule (stages : S) (reduce_tmp_out tmp_out out : T) (target : Tg)
  | CudaTwoStepReduceSchedule (stages : S) (reshape reduce_tmp_out tmp_out out : T) (target : Tg)
  | CudaReduceSchedule (stages : S) (out : T) (last_dimension_num : Int) (target : Tg)
  | CudaBlockShuffleReduceSchedule (stages : S) (reshape internal out : T) (target : Tg)
deriving DecidableEq, Repr

/-- The five schedule families of the reduce strategy. -/
inductive Family where
  | ScheduleReduce
  | BlockShuffleReduce
  | BlockReduceInternal
  | BlockReduce
  | TwoStepBlockReduce
deriving DecidableEq, Repr

/-- Family a primitive belongs to. -/
def ReduceSchedule.family {T S Tg : Type} : ReduceSchedule T S Tg → Family
  | .IRCudaScheduleBlockReduceInternal .. => .BlockReduceInternal
  | .IRCudaScheduleBlockReduce .. => .BlockReduce
  | .IRCudaTwoStepReduceSchedule .. => .TwoStepBlockReduce
  | .IRCudaScheduleReduce .. => .ScheduleReduce
  | .IRCudaScheduleBlockShuffleReduce .. => .BlockShuffleReduce
  | .CudaBlockReduceInternalSchedule .. => .BlockReduceInternal
  | .CudaBlockReduceSchedule .. => .BlockReduce
  | .CudaTwoStepReduceSchedule .. => .TwoStepBlockReduce
  | .CudaReduceSchedule .. => .ScheduleReduce
  | .CudaBlockShuffleReduceSchedule .. => .BlockShuffleReduce

/-- Operations used by `reduction.cc` and declared in other files, over the types
`V` (`CINNValue`), `E` (`ir::Expr`), `T` (`ir::Tensor`), `S` (`poly::StageMap`),
`M` (`ir::IRSchedule`, the schedule state holding a `ModuleExpr`) and `Tg` (`Target`). -/
structure Externals (V E T S M Tg : Type) where
  /-- Conversion `CINNValue::operator ir::Expr()`. -/
  toExpr : V → E
  /-- Conversion `CINNValue::operator std::string()`. -/
  toStdString : V → String
  /-- Conversion `CINNValue::operator poly::StageMap()`. -/
  toStageMap : V → S
  /-- Constructor `CINNValue(ir::Expr)`. -/
  ofExpr : E → V
  /-- Constructor `CINNValue(ir::Tensor)`. -/
  ofTensor : T → V
  /-- Constructor `CINNValue(poly::StageMap)`. -/
  ofStageMap : S → V
  /-- Method `Expr::as_tensor()`: `none` is the null pointer returned for a non-tensor. -/
  as_tensor : E → Option T
  /-- Method `Expr::as_tensor_ref()`. -/
  as_tensor_ref : E → T
  /-- Function `UniqName`. -/
  UniqName : String → String
  /-- Function `CreateStages`. -/
  CreateStages : List T → S
  /-- Construction `ir::IRSchedule ir_sch(ir::ModuleExpr(vec_ast))`. -/
  IRSchedule : List E → M
  /-- Method `ir_sch.MergeExprs()`. -/
  MergeExprs : M → M
  /-- Effect of an IR-schedule primitive on `ir_sch`. -/
  applySchedule : ReduceSchedule T S Tg → M → M
  /-- Accessor `ir_sch.GetModule().GetExprs()`. -/
  GetExprs : M → List E
  /-- Modelled from the spec: a `ModuleExpr` is "a container of one-or-more function-body
  expressions", so `GetExprs().at(0)` exists. -/
  GetExprs_ne : ∀ m, GetExprs m ≠ []
  /-- Constant `common::DefaultNVGPUTarget()`. -/
  DefaultNVGPUTarget : Tg
  /-- Equality `operator==` of `Target`. -/
  target_eq : Tg → Tg → Bool
  /-- The test `target.arch == Target::Arch::NVGPU`. -/
  arch_is_NVGPU : Tg → Bool

/-- Read `arg_pack[i]`; the pack holds no element at an offset beyond its size, and a read
there is fatal. -/
def packAt {V : Type} (arg_pack : List V) (i : Nat) : Except String V :=
  match arg_pack[i]? with
  | some v => .ok v
  | none => .error "Check failed: offset < size()"

/-- Read `arg_pack.back()`. -/
def packBack {V : Type} (arg_pack : List V) : Except String V :=
  match arg_pack.getLast? with
  | some v => .ok v
  | none => .error "Check failed: size() > 0"

/-- True when a run ended without a fatal error. -/
def completes {α : Type} : Except String α → Bool
  | .ok _ => true
  | .error _ => false

/-! ## `reduction_compute` (lines 117-162) -/

section Compute
variable {V E T S M Tg : Type}

/-- Pack built at the end of each compute branch: the tensors in order, then the stages. -/
def packOfTensors (X : Externals V E T S M Tg) (res : List T) : List V :=
  res.map X.ofTensor ++ [X.ofStageMap (X.CreateStages res)]

/-- The closure `reduction_compute`; the result is the pack assigned to `*ret`. -/
def reduction_compute (X : Externals V E T S M Tg) (FLAGS_cinn_ir_schedule : Bool)
    (target : Tg) (op_name : String) (inshape : List Int) (env : ReduceEnv)
    (gpu_reduce_with_last_axis_func gpu_reduce_without_last_axis_func :
      T → List Int → Bool → String → List T)
    (cpu_reduce_func : T → List Int → Bool → String → T)
    (args : List (List V)) : Except String (List V) :=
  match args with
  | [] => .error ("The input argument of " ++ op_name ++ " compute is empty! Please check.")
  | arg_packs :: _ => do
    let tensor_name ←
      if FLAGS_cinn_ir_schedule then
        if arg_packs.length ≠ 2 then
          .error ("There should be 2 input args for " ++ op_name ++ " compute")
        else do
          let v ← packAt arg_packs 1
          pure (X.toStdString v)
      else
        if arg_packs.length ≠ 1 then
          .error ("There should be 1 input args for " ++ op_name ++ " compute")
        else pure (X.UniqName (op_name ++ "_out"))
    let x_expr := X.toExpr (← packAt arg_packs 0)
    match X.as_tensor x_expr with
    | none => .error "Check failed: x_expr.as_tensor()"
    | some _ =>
      let x := X.as_tensor_ref x_expr
      if X.target_eq target X.DefaultNVGPUTarget then
        if !WithoutLastDimInReduce inshape env.reduce_axes then
          let res := gpu_reduce_with_last_axis_func x env.reduce_axes env.keep_dim tensor_name
          pure (packOfTensors X res)
        else
          let res := gpu_reduce_without_last_axis_func x env.reduce_axes env.keep_dim tensor_name
          pure (packOfTensors X res)
      else
        let out := cpu_reduce_func x env.reduce_axes env.keep_dim tensor_name
        pure [X.ofTensor out, X.ofStageMap (X.CreateStages [out])]

end Compute

/-! ## `reduction_schedule` (lines 164-366) -/

/-- What a run of the schedule closure did: the expressions handed to the `ModuleExpr`
(IR-schedule mode), the schedule primitive it called, and the pack assigned to `*ret`
(`none` when `*ret` was not assigned). -/
structure ScheduleOutcome (V E T S Tg : Type) where
  vec_ast : Option (List E)
  call : Option (ReduceSchedule T S Tg)
  ret : Option (List V)

section Schedule
variable {V E T S M Tg : Type}

/-- Common tail of every IR-schedule branch: build the module from `vec_ast`, merge, run the
primitive, return the pack holding `ir_sch.GetModule().GetExprs().at(0)`. -/
def irScheduleBranch (X : Externals V E T S M Tg) (vec_ast : List E)
    (call : ReduceSchedule T S Tg) : ScheduleOutcome V E T S Tg :=
  let ir_sch := X.IRSchedule vec_ast
  let ir_sch := X.MergeExprs ir_sch
  let ir_sch := X.applySchedule call ir_sch
  let res := [X.ofExpr ((X.GetExprs ir_sch).head (X.GetExprs_ne ir_sch))]
  { vec_ast := some vec_ast, call := some call, ret := some res }

/-- The value `inputs[0]->shape.size() - reduce_axes.back() - 1`, computed in `size_t`. -/
def lastDimensionNum (inshape : List Int) (reduce_axes : List Int) : Int :=
  toSizeT (toSizeT ((inshape.length : Int) - toSizeT (reduce_axes.getLastD 0)) - 1)

/-- The closure `reduction_schedule`, IR-schedule mode on an NVGPU target (lines 173-303). -/
def reduction_schedule_ir_nvgpu (X : Externals V E T S M Tg) (target : Tg)
    (inshape : List Int) (env : ReduceEnv) (arg_pack : List V) :
    Except String (ScheduleOutcome V E T S Tg) :=
  if !WithoutLastDimInReduce inshape env.reduce_axes then
    if arg_pack.length = 4 then do
      let out := X.toExpr (← packAt arg_pack 0)
      let tmp_out := X.toExpr (← packAt arg_pack 1)
      let expr0 := X.toExpr (← packAt arg_pack 2)
      let expr1 := X.toExpr (← packAt arg_pack 3)
      pure (irScheduleBranch X [expr0, expr1]
        (.IRCudaScheduleBlockReduceInternal (X.as_tensor_ref tmp_out) (X.as_tensor_ref out) target))
    else if arg_pack.length = 6 then do
      let out := X.toExpr (← packAt arg_pack 0)
      let tmp_out := X.toExpr (← packAt arg_pack 1)
      let reduce_tmp_out := X.toExpr (← packAt arg_pack 2)
      let expr0 := X.toExpr (← packAt arg_pack 3)
      let expr1 := X.toExpr (← packAt arg_pack 4)
      let expr2 := X.toExpr (← packAt arg_pack 5)
      pure (irScheduleBranch X [expr0, expr1, expr2]
        (.IRCudaScheduleBlockReduce (X.as_tensor_ref reduce_tmp_out) (X.as_tensor_ref tmp_out)
          (X.as_tensor_ref out) target))
    else if arg_pack.length = 7 then do
      let out := X.toExpr (← packAt arg_pack 0)
      let tmp_out := X.toExpr (← packAt arg_pack 1)
      let reduce_tmp_out := X.toExpr (← packAt arg_pack 2)
      let reshape := X.toExpr (← packAt arg_pack 3)
      let expr0 := X.toExpr (← packAt arg_pack 4)
      let expr1 := X.toExpr (← packAt arg_pack 5)
      let expr2 := X.toExpr (← packAt arg_pack 6)
      pure (irScheduleBranch X [expr0, expr1, expr2]
        (.IRCudaTwoStepReduceSchedule (X.as_tensor_ref reshape) (X.as_tensor_ref reduce_tmp_out)
          (X.as_tensor_ref tmp_out) (X.as_tensor_ref out) X.DefaultNVGPUTarget))
    else if arg_pack.length = 5 then do
      let out := X.toExpr (← packAt arg_pack 0)
      let tmp_out := X.toExpr (← packAt arg_pack 1)
      let reduce_tmp_out := X.toExpr (← packAt arg_pack 2)
      let expr0 := X.toExpr (← packAt arg_pack 3)
      let expr1 := X.toExpr (← packAt arg_pack 4)
      pure (irScheduleBranch X [expr0, expr1]
        (.IRCudaScheduleBlockReduce (X.as_tensor_ref reduce_tmp_out) (X.as_tensor_ref tmp_out)
          (X.as_tensor_ref out) X.DefaultNVGPUTarget))
    else
      .error "Unkown Reduce Type!"
  else
    if arg_pack.length = 2 then do
      let reduce_out := X.toExpr (← packAt arg_pack 0)
      let expr0 := X.toExpr (← packAt arg_pack 1)
      pure (irScheduleBranch X [expr0]
        (.IRCudaScheduleReduce (X.as_tensor_ref reduce_out)
          (lastDimensionNum inshape env.reduce_axes) target))
    else if arg_pack.length = 5 then do
      let reduce_out := X.toExpr (← packAt arg_pack 0)
      let reduce_internal := X.toExpr (← packAt arg_pack 1)
      let reduce_reshape := X.toExpr (← packAt arg_pack 2)
      let expr0 := X.toExpr (← packAt arg_pack 3)
      let expr1 := X.toExpr (← packAt arg_pack 4)
      pure (irScheduleBranch X [expr0, expr1]
        (.IRCudaScheduleBlockShuffleReduce (X.as_tensor_ref reduce_reshape)
          (X.as_tensor_ref reduce_internal) (X.as_tensor_ref reduce_out) target))
    else
      .error "Unkown Reduce Type!"

/-- The closure `reduction_schedule`, legacy mode on an NVGPU target (lines 309-362): the
primitive called on the stage map, if the run reaches one. -/
def reduction_schedule_legacy_nvgpu (X : Externals V E T S M Tg) (target : Tg)
    (inshape : List Int) (env : ReduceEnv) (arg_pack : List V) :
    Except String (ReduceSchedule T S Tg) :=
  if !WithoutLastDimInReduce inshape env.reduce_axes then
    if arg_pack.length = 3 then do
      let out := X.toExpr (← packAt arg_pack 0)
      let tmp_out := X.toExpr (← packAt arg_pack 1)
      let stages := X.toStageMap (← packBack arg_pack)
      pure (.CudaBlockReduceInternalSchedule stages (X.as_tensor_ref tmp_out)
        (X.as_tensor_ref out) X.DefaultNVGPUTarget)
    else if arg_pack.length = 4 then do
      let out := X.toExpr (← packAt arg_pack 0)
      let tmp_out := X.toExpr (← packAt arg_pack 1)
      let reduce_tmp_out := X.toExpr (← packAt arg_pack 2)
      let stages := X.toStageMap (← packBack arg_pack)
      pure (.CudaBlockReduceSchedule stages (X.as_tensor_ref reduce_tmp_out)
        (X.as_tensor_ref tmp_out) (X.as_tensor_ref out) X.DefaultNVGPUTarget)
    else do
      let out := X.toExpr (← packAt arg_pack 0)
      let tmp_out := X.toExpr (← packAt arg_pack 1)
      let reduce_tmp_out := X.toExpr (← packAt arg_pack 2)
      let reshape := X.toExpr (← packAt arg_pack 3)
      let stages := X.toStageMap (← packBack arg_pack)
      pure (.CudaTwoStepReduceSchedule stages (X.as_tensor_ref reshape)
        (X.as_tensor_ref reduce_tmp_out) (X.as_tensor_ref tmp_out) (X.as_tensor_ref out)
        X.DefaultNVGPUTarget)
  else
    if arg_pack.length = 2 then do
      let reduce_out := X.toExpr (← packAt arg_pack 0)
      let stages := X.toStageMap (← packBack arg_pack)
      pure (.CudaReduceSchedule stages (X.as_tensor_ref reduce_out)
        (lastDimensionNum inshape env.reduce_axes) target)
    else if arg_pack.length ≠ 4 then
      .error "args is not equal 4!"
    else do
      let reduce_reshape := X.toExpr (← packAt arg_pack 2)
      let reduce_internal := X.toExpr (← packAt arg_pack 1)
      let reduce_out := X.toExpr (← packAt arg_pack 0)
      let stages := X.toStageMap (← packBack arg_pack)
      pure (.CudaBlockShuffleReduceSchedule stages (X.as_tensor_ref reduce_reshape)
        (X.as_tensor_ref reduce_internal) (X.as_tensor_ref reduce_out) target)

/-- The closure `reduction_schedule` (lines 164-366). -/
def reduction_schedule (X : Externals V E T S M Tg) (FLAGS_cinn_ir_schedule : Bool)
    (target : Tg) (op_name : String) (inshape : List Int) (env : ReduceEnv)
    (args : List (List V)) : Except String (ScheduleOutcome V E T S Tg) :=
  match args with
  | [] => .error ("The input argument of " ++ op_name ++ " schedule is empty! Please check.")
  | arg_pack :: _ =>
    if FLAGS_cinn_ir_schedule then
      if ¬ 2 ≤ arg_pack.length then .error "Check failed: arg_pack.size() >= 2UL"
      else if ¬ arg_pack.length ≤ 8 then .error "Check failed: arg_pack.size() <= 8UL"
      else if X.arch_is_NVGPU target then
        reduction_schedule_ir_nvgpu X target inshape env arg_pack
      else
        pure { vec_ast := none, call := none, ret := none }
    else
      if ¬ 2 ≤ arg_pack.length then .error "Check failed: arg_pack.size() >= 2UL"
      else if ¬ arg_pack.length ≤ 5 then .error "Check failed: arg_pack.size() <= 5UL"
      else if X.arch_is_NVGPU target then do
        let call ← reduction_schedule_legacy_nvgpu X target inshape env arg_pack
        pure { vec_ast := none, call := some call, ret := some arg_pack }
      else
        pure { vec_ast := none, call := none, ret := some arg_pack }

end Schedule

/-! ## Reading the result of a run -/

section Observations
variable {V E T S M Tg : Type}

/-- Family of the primitive a completed run called, if any. -/
def selectedFamily (r : Except String (ScheduleOutcome V E T S Tg)) : Option Family :=
  match r with
  | .ok o => o.call.map ReduceSchedule.family
  | .error _ => none

/-- Tensor arguments of a primitive call, in the order of the call. -/
def ReduceSchedule.tensorArgs : ReduceSchedule T S Tg → List T
  | .IRCudaScheduleBlockReduceInternal tmp_out out _ => [tmp_out, out]
  | .IRCudaScheduleBlockReduce reduce_tmp_out tmp_out out _ => [reduce_tmp_out, tmp_out, out]
  | .IRCudaTwoStepReduceSchedule reshape reduce_tmp_out tmp_out out _ =>
    [reshape, reduce_tmp_out, tmp_out, out]
  | .IRCudaScheduleReduce out _ _ => [out]
  | .IRCudaScheduleBlockShuffleReduce reshape internal out _ => [reshape, internal, out]
  | .CudaBlockReduceInternalSchedule _ tmp_out out _ => [tmp_out, out]
  | .CudaBlockReduceSchedule _ reduce_tmp_out tmp_out out _ => [reduce_tmp_out, tmp_out, out]
  | .CudaTwoStepReduceSchedule _ reshape reduce_tmp_out tmp_out out _ =>
    [reshape, reduce_tmp_out, tmp_out, out]
  | .CudaReduceSchedule _ out _ _ => [out]
  | .CudaBlockShuffleReduceSchedule _ reshape internal out _ => [reshape, internal, out]

/-- Tensor read from a pack element, as in `Expr e = v; e.as_tensor_ref()`. -/
def Externals.tensorRef (X : Externals V E T S M Tg) (v : V) : T := X.as_tensor_ref (X.toExpr v)

end Observations

/-- A small interpretation of the external operations, on which the closures can be
evaluated: values, expressions, tensors and stage maps are numbers, an expression below 100
is a tensor, the schedule state is the list of its expressions, a target is `true` when it
is the default NVGPU target. -/
def demoExternals : Externals Nat Nat Nat Nat (List Nat) Bool where
  toExpr := fun v => v
  toStdString := fun _ => "out"
  toStageMap := fun v => v
  ofExpr := fun e => e
  ofTensor := fun t => t
  ofStageMap := fun s => s
  as_tensor := fun e => if e < 100 then some e else none
  as_tensor_ref := fun e => e
  UniqName := fun n => n
  CreateStages := fun ts => ts.length
  IRSchedule := fun es => es
  MergeExprs := fun m => [m.sum]
  applySchedule := fun _ m => m
  GetExprs := fun m => m.sum :: m
  GetExprs_ne := fun _ => List.cons_ne_nil _ _
  DefaultNVGPUTarget := true
  target_eq := fun a b => a == b
  arch_is_NVGPU := fun t => t

/-! ## The clip operator (`cinn/hlir/op/contrib/clip.cc`) -/

/-- A tensor as built by `lang::Compute(shape, body, name)`: its shape, its name and the
value of its element at every index. -/
structure Tensor (α : Type) where
  shape : List Int
  name : String
  body : List Int → α

/-- The function `Clip` (lines 54-67).  `ir::Min::Make`, `ir::Max::Make` denote the minimum and
the maximum of the element type `α`; `cast` is `ir::Cast::Make(e->type(), Expr(...))` from
the `float` bounds (type `F`) to the element type. -/
def Clip {α F : Type} [LinearOrder α] (cast : F → α) (in_tensor : Tensor α)
    (max_val min_val : F) (output_name : String) : List (Tensor α) :=
  [{ shape := in_tensor.shape,
     name := output_name,
     body := fun indice => max (min (in_tensor.body indice) (cast max_val)) (cast min_val) }]

/-- The two attributes of a clip node read by `StrategyForClip`; `none` is an absent key. -/
structure ClipAttr (F : Type) where
  max_val : Option F
  min_val : Option F

/-- Values captured by the closures of `StrategyForClip`. -/
structure ClipEnv (F : Type) where
  max_val : F
  min_val : F

/-- Attribute handling of `StrategyForClip` (lines 94-97). -/
def StrategyForClip {F : Type} (attrs : ClipAttr F) : Except String (ClipEnv F) :=
  match attrs.max_val with
  | none => .error "find no attr of max_val"
  | some max_val =>
    match attrs.min_val with
    | none => .error "find no attr of min_val"
    | some min_val => .ok { max_val := max_val, min_val := min_val }

section ClipCompute
variable {V E S M Tg α F : Type}

/-- The closure `clip_compute` (lines 101-122).  `InsertLazily` is `stages->InsertLazily(t)`,
declared outside `clip.cc`. -/
def clip_compute [LinearOrder α] (X : Externals V E (Tensor α) S M Tg)
    (InsertLazily : S → Tensor α → S) (cast : F → α) (FLAGS_cinn_ir_schedule : Bool)
    (env : ClipEnv F) (args : List (List V)) : Except String (List V) :=
  match args with
  | [] => .error "The input argument of clip compute is empty! Please check."
  | pack_args :: _ =>
    if ¬ 1 ≤ pack_args.length then .error "1 input tensor for clip compute"
    else do
      let tensor_name ←
        if FLAGS_cinn_ir_schedule then
          if pack_args.length ≠ 2 then .error "Check failed: pack_args.size() == 2U"
          else do
            let v ← packAt pack_args 1
            pure (X.toStdString v)
        else pure (X.UniqName ("clip" ++ "_Out"))
      let A_expr := X.toExpr (← packAt pack_args 0)
      match X.as_tensor A_expr with
      | none => .error "Check failed: A_expr.as_tensor()"
      | some _ =>
        let A := X.as_tensor_ref A_expr
        let out := Clip cast A env.max_val env.min_val tensor_name
        let stages := X.CreateStages [A]
        let stages := out.foldl InsertLazily stages
        pure (out.map X.ofTensor ++ [X.ofStageMap stages])

end ClipCompute

/-! ## Operator registration (`CINN_REGISTER_HELPER` blocks) -/

/-- Modelled from the spec: the fixed, totally ordered set of pattern kinds
`ElementWise < Broadcast < Injective < Reduce < Opaque` (the enum `OpPatternKind` is declared
outside the source files at hand; `kCommReduce` is the name the source uses for `Reduce`). -/
inductive OpPatternKind where
  | kElementWise
  | kBroadcast
  | kInjective
  | kCommReduce
  | kOpaque
deriving DecidableEq, Repr

/-- Position of a pattern kind in the order of the spec. -/
def OpPatternKind.toNat : OpPatternKind → Nat
  | .kElementWise => 0
  | .kBroadcast => 1
  | .kInjective => 2
  | .kCommReduce => 3
  | .kOpaque => 4

/-- Value given to `set_attr`: a strategy function, an inference function wrapped by
`MakeOpFunction`, or a pattern kind. -/
inductive OpAttr where
  | strategy (fn : String)
  | opFunction (fn : String)
  | pattern (kind : OpPatternKind)
deriving DecidableEq, Repr

/-- One `CINN_REGISTER_OP(...)` chain: `none` for a setter the chain does not call. -/
structure OpRegistration where
  name : String
  describe : String
  num_inputs : Option Nat
  num_outputs : Option Nat
  attrs : List (String × OpAttr)
  support_level : Nat
deriving DecidableEq, Repr

/-- The macro `CINN_REGISTER_REDUCTION(op__, op_stragegy__)` of `reduction.cc`
(lines 460-470). -/
def CINN_REGISTER_REDUCTION (op__ op_stragegy__ : String) : OpRegistration :=
  { name := op__,
    describe := op__ ++ " function",
    num_inputs := some 1,
    num_outputs := some 1,
    attrs := [("CINNStrategy", .strategy ("StrategyFor" ++ op_stragegy__)),
              ("infershape", .opFunction "InferShapeForReduction"),
              ("inferdtype", .opFunction "InferDtypeForReduction"),
              ("inferlayout", .opFunction "InferLayoutForReduction"),
              ("OpPattern", .pattern .kCommReduce)],
    support_level := 4 }

/-- The helper `reduce_ops` of `reduction.cc` (lines 472-475). -/
def reduce_ops : List OpRegistration :=
  [CINN_REGISTER_REDUCTION "reduce_sum" "ReduceSum",
   CINN_REGISTER_REDUCTION "reduce_prod" "ReduceProd",
   CINN_REGISTER_REDUCTION "reduce_max" "ReduceMax",
   CINN_REGISTER_REDUCTION "reduce_min" "ReduceMin"]

/-- The helper `clip_ops` of `clip.cc` (lines 166-179); `inferlayout` is set only when
`CINN_WITH_CUDA` is not defined. -/
def clip_ops (CINN_WITH_CUDA : Bool) : List OpRegistration :=
  [{ name := "clip",
     describe := "Clip the input tensors.",
     num_inputs := none,
     num_outputs := some 1,
     attrs := [("CINNStrategy", .strategy "StrategyForClip"),
               ("infershape", .opFunction "InferShapeForClip"),
               ("inferdtype", .opFunction "InferDtypeForClip")] ++
              (if CINN_WITH_CUDA then [] else [("inferlayout", .opFunction "InferLayoutForClip")]),
     support_level := 4 }]

/-- The helper `nn_ops` of `nn.cc` (lines 45-52). -/
def nn_ops : List OpRegistration :=
  [{ name := "add",
     describe := "Add two tensors",
     num_inputs := some 2,
     num_outputs := some 1,
     attrs := [("CINNStrategy", .strategy "StrategyForAdd")],
     support_level := 4 }]

/-- Every operator registered by the source files at hand. -/
def registeredOps (CINN_WITH_CUDA : Bool) : List OpRegistration :=
  reduce_ops ++ clip_ops CINN_WITH_CUDA ++ nn_ops

/-- Attribute `key` registered for the operator `op`, if any. -/
def getOpAttr (ops : List OpRegistration) (op key : String) : Option OpAttr :=
  match ops.find? (fun r => r.name == op) with
  | none => none
  | some r => (r.attrs.find? (fun kv => kv.1 == key)).map (fun kv => kv.2)

/-- Pattern kind registered for the operator `op` under the key `OpPattern`, if any. -/
def opPatternOf (ops : List OpRegistration) (op : String) : Option OpPatternKind :=
  match getOpAttr ops op "OpPattern" with
  | some (.pattern kind) => some kind
  | _ => none

/-! ## Graph, fusion groups and lowering (modelled from the spec)

The fusion pass, the fusion-merge pass and the lowering engine are exercised by
`op_lowering_test.cc`, but their code is not among the source files at hand.  The
definitions of this section follow sections 3, 4.2, 4.3 and 4.4 of the specification. -/

/-- Modelled from the spec: a node of the graph (section 3), one operator instance with its
operator kind, its pattern kind, its ordered input and output tensor names and the two
attributes of a reduction (axes and keep-dims flag).  Missing: the `Node` class of
`cinn/hlir/framework`. -/
structure Node where
  op : String
  pattern : OpPatternKind
  inputs : List String
  outputs : List String
  dim : List Int
  keep_dim : Bool
deriving DecidableEq, Repr

/-- Modelled from the spec: the graph (section 3).  It owns the nodes, listed in the order in
which the passes traverse them topologically, and the side table from tensor name to
inferred shape; an edge runs from the node producing a tensor to every node reading it.
Missing: the `Graph` class of `cinn/hlir/framework`. -/
structure Graph where
  nodes : List Node
  shape_dict : List (String × List Int)
deriving DecidableEq, Repr

/-- A fusion group: the indices (positions in `Graph.nodes`) of its member nodes. -/
abbrev FusionGroup := List Nat

namespace Graph

/-- Edge of the graph: a tensor produced by node `u` is read by node `w`. -/
def feeds (G : Graph) (u w : Nat) : Bool :=
  match G.nodes[u]?, G.nodes[w]? with
  | some a, some b => a.outputs.any (fun t => b.inputs.contains t)
  | _, _ => false

/-- Consumers of node `v`, in traversal order. -/
def consumers (G : Graph) (v : Nat) : List Nat :=
  (List.range G.nodes.length).filter (fun w => G.feeds v w)

/-- Pattern kind of node `v`. -/
def patternOf (G : Graph) (v : Nat) : Option OpPatternKind :=
  (G.nodes[v]?).map (fun nd => nd.pattern)

/-- Inferred shape of the first output tensor of node `v`, read from the side table. -/
def shapeOf (G : Graph) (v : Nat) : Option (List Int) :=
  match G.nodes[v]? with
  | some nd => (nd.outputs.head?).bind (fun t => G.shape_dict.lookup t)
  | none => none

/-- Modelled from the spec: the node/edge structure is a DAG (section 3); every edge runs
forward in the order of `nodes`, which is then a topological order. -/
def acyclic (G : Graph) : Bool :=
  (List.range G.nodes.length).all (fun w =>
    (List.range G.nodes.length).all (fun u => !G.feeds u w || decide (u < w)))

/-- Modelled from the spec: the shape side table is populated (section 6), every node has an
output tensor and every tensor a node reads or writes has an inferred shape. -/
def shapesPopulated (G : Graph) : Bool :=
  G.nodes.all (fun nd =>
    !nd.outputs.isEmpty && (nd.inputs ++ nd.outputs).all (fun t => (G.shape_dict.lookup t).isSome))

/-- Inferred shape of the first input tensor of node `v`, read from the side table. -/
def inputShapeOf (G : Graph) (v : Nat) : Option (List Int) :=
  match G.nodes[v]? with
  | some nd => (nd.inputs.head?).bind (fun t => G.shape_dict.lookup t)
  | none => none

end Graph

/-- Modelled from the spec: two shapes agree on a common loop shape when they are
broadcastable, that is, aligned at the last dimension every pair of extents is equal or has
an extent 1 (section 4.2, shape compatibility). -/
def broadcastable (s t : List Int) : Bool :=
  (s.reverse.zip t.reverse).all (fun p => p.1 == p.2 || p.1 == 1 || p.2 == 1)

/-- Modelled from the spec: the reduction `v` leaves the last dimension alone, the case of
the single parallel reduction schedule (section 4.4, step 3): its axes pass the validation
of `StrategyForReduce` and `WithoutLastDimInReduce` holds for its input shape. -/
def reduceWithoutLastDim (G : Graph) (v : Nat) : Bool :=
  match G.nodes[v]?, G.inputShapeOf v with
  | some nd, some inshape =>
    match StrategyForReduce ⟨some nd.dim, some nd.keep_dim⟩ inshape with
    | .ok env => WithoutLastDimInReduce inshape env.reduce_axes
    | .error _ => false
  | _, _ => false

/-- Modelled from the spec: pattern and shape rule along an edge from the producer `u` to
the consumer `w` inside one group.  A reduction absorbs elementwise and broadcast producers
(section 4.2), whatever their extents, for their output is the input of its loop nest; any
other consumer takes a producer whose output shape, for a reduction the shape after
reduction (section 4.3 (b)), is broadcastable with its own. -/
def edgeCompatible (G : Graph) (u w : Nat) : Bool :=
  if G.patternOf w == some .kCommReduce then
    G.patternOf u == some .kElementWise || G.patternOf u == some .kBroadcast
  else
    match G.shapeOf u, G.shapeOf w with
    | some s, some t => broadcastable s t
    | _, _ => false

/-- Modelled from the spec: pattern and shape rules of section 4.2 for the members of two
groups `c` and `p` that are to form one group (at group granularity in section 4.3): no
member is opaque, all reductions share one axis set (a second reduction along a different
axis set is not absorbed), and every edge from a member of `c` to a member of `p` passes
`edgeCompatible`. -/
def groupsCompatible (G : Graph) (c p : FusionGroup) : Bool :=
  (c ++ p).all (fun m => G.patternOf m != some .kOpaque) &&
  (c ++ p).all (fun m1 => (c ++ p).all (fun m2 =>
    G.patternOf m1 != some .kCommReduce || G.patternOf m2 != some .kCommReduce ||
      (G.nodes[m1]?).map (fun nd => nd.dim) == (G.nodes[m2]?).map (fun nd => nd.dim))) &&
  c.all (fun u => p.all (fun w => !G.feeds u w || edgeCompatible G u w))

/-- Modelled from the spec: conditions under which the fusion pass lets node `v` join a
group with the given members (section 4.2): the pattern and shape rules of
`groupsCompatible`, and a reduction joins the group of its consumers only when it leaves
the last dimension alone.  A reduction over the last dimension needs the staged
block-reduce schedule (section 4.4) and is left to strategy (b) of the merge pass:
`Reduce_Fusion_Test_7`, `_8` and `_9` of `op_lowering_test.cc` count 5 groups after the
fusion pass, where `Reduce_Fusion_Test_6`, along axis 0, counts 3. -/
def fusible (G : Graph) (v : Nat) (members : FusionGroup) : Bool :=
  groupsCompatible G [v] members &&
  (G.patternOf v != some .kCommReduce || reduceWithoutLastDim G v)

/-- Members of the group `g` under the assignment `a` of nodes to groups: a group is named
by the index of the node that founded it. -/
def membersOf (G : Graph) (a : Nat → Nat) (g : Nat) : FusionGroup :=
  (List.range G.nodes.length).filter (fun u => a u == g)

/-- Modelled from the spec: under the assignment `a`, node `v` has consumers that lie in
different groups (section 4.2, fan-out). -/
def fanOut (G : Graph) (a : Nat → Nat) (v : Nat) : Bool :=
  (G.consumers v).any (fun w1 => (G.consumers v).any (fun w2 => a w1 != a w2))

/-- Modelled from the spec: the step of the fusion pass for node `v` (section 4.2).  The
node joins the group of its consumers when it has consumers, all of them lie in one group,
that group was not founded by a fan-out node and the rules `ok` hold for it and that group;
otherwise (no consumer, consumers in different groups, or rules violated) it stays the
founder of its own group.  A fan-out node "becomes the sole member of its own group, to be
reconsidered by the merge pass": no producer joins the group it founded.  With all its
consumers in the group it joins, the node has no other consumer that could create a
back-edge into the group from outside. -/
def fuseStep (G : Graph) (ok : Nat → FusionGroup → Bool) (a : Nat → Nat) (v : Nat) : Nat → Nat :=
  match G.consumers v with
  | [] => a
  | w :: ws =>
    if ws.all (fun w2 => a w2 == a w) && !fanOut G a (a w) && ok v (membersOf G a (a w)) then
      Function.update a v (a w)
    else a

/-- The assignment after the traversal has processed the last `k` nodes in
reverse-topological order (consumers before producers), starting from every node in a group
of its own. -/
def fuseFrom (G : Graph) (ok : Nat → FusionGroup → Bool) : Nat → (Nat → Nat)
  | 0 => id
  | k + 1 => fuseStep G ok (fuseFrom G ok k) (G.nodes.length - (k + 1))

/-- The assignment of nodes to groups at the end of the traversal. -/
def fusionAssign (G : Graph) (ok : Nat → FusionGroup → Bool) : Nat → Nat :=
  fuseFrom G ok G.nodes.length

/-- The groups of an assignment: one per founder, each with its members in order. -/
def groupsOf (G : Graph) (a : Nat → Nat) : List FusionGroup :=
  ((List.range G.nodes.length).filter (fun r => a r == r)).map (membersOf G a)

/-- Modelled from the spec: the fusion pass (section 4.2).  Malformed input (a cycle, a
missing shape) is fatal; otherwise the nodes are partitioned into fusion groups in one
reverse-topological traversal.  Missing: the pass registered as `OpFusionPass`. -/
def OpFusionPass (G : Graph) : Except String (List FusionGroup) :=
  if !G.acyclic then .error "cycle detected"
  else if !G.shapesPopulated then .error "missing shape inference"
  else .ok (groupsOf G (fusionAssign G (fusible G)))

/-- Invariant of the traversal of the fusion pass after the last `k` nodes have been
processed, for the assignment `a` of nodes to groups: nodes not yet processed are alone, a
group is named by a founder that is its last member, every node that joined a group has
all its consumers in it, and no node joined the group of a fan-out node. -/
structure FuseInv (G : Graph) (a : Nat → Nat) (k : Nat) : Prop where
  untouched : ∀ u, u < G.nodes.length - k ∨ G.nodes.length ≤ u → a u = u
  le_founder : ∀ u, u ≤ a u
  founder_fixed : ∀ u, a (a u) = a u
  joined : ∀ u, a u ≠ u → G.consumers u ≠ [] ∧ ∀ w ∈ G.consumers u, a w = a u
  in_range : ∀ u, u < G.nodes.length → a u < G.nodes.length
  sole : ∀ u, a u ≠ u → fanOut G a (a u) = false

/-! ### The coarsened graph -/

/-- Modelled from the spec: edge of the coarsened graph (section 8), a tensor produced in the
group `g1` is used in the different group `g2`. -/
def groupEdge (G : Graph) (g1 g2 : FusionGroup) : Bool :=
  g1 != g2 && g1.any (fun u => g2.any (fun w => G.feeds u w))

/-- The group `y` is reached from the group `x` along at most `k` edges of the coarsened
graph of `gs`. -/
def reaches (G : Graph) (gs : List FusionGroup) : Nat → FusionGroup → FusionGroup → Bool
  | 0, x, y => x == y
  | k + 1, x, y => x == y || gs.any (fun z => groupEdge G x z && reaches G gs k z y)

/-! ### The fusion-merge pass -/

/-- Modelled from the spec: output nodes of a group (section 3), the members whose result is
consumed outside the group or is a graph output. -/
def outputNodes (G : Graph) (g : FusionGroup) : List Nat :=
  g.filter (fun u => (G.consumers u).isEmpty || (G.consumers u).any (fun w => !g.contains w))

/-- Modelled from the spec: the no-cycle rule of section 4.2 at group granularity.  When the
child `c` is to merge into the parent `p`, another consumer `x` of `c` creates a back-edge
into the forming group from outside it when `p` is reached from `x`. -/
def backEdge (G : Graph) (gs : List FusionGroup) (c p : FusionGroup) : Bool :=
  gs.any (fun x => x != c && x != p && groupEdge G c x && reaches G gs gs.length x p)

/-- Modelled from the spec: the merge rule of section 4.3 for a child `c` and a parent `p`
among the groups `gs`: an output of the child feeds the parent, the pattern and shape rules
of section 4.2 hold at group granularity, and no cycle is introduced.  A child that reaches
the parent through fusible intermediate groups merges once these have merged.  Strategy (b)
is the edge rule of `edgeCompatible` for a reduction that feeds an elementwise or broadcast
consumer; strategy (a) arises from it: independent reductions with one axis set that a
fusible consumer recombines merge one after the other into the group of that consumer, and
the producer of their inputs after them.  The child need not have a single output node: in
`Reduce_Fusion_Test_4` the add feeds two reductions, whichever it merges with first the
result has two output nodes, and the test counts one group in the end. -/
def mergeRule (G : Graph) (gs : List FusionGroup) (c p : FusionGroup) : Bool :=
  groupEdge G c p && groupsCompatible G c p && !backEdge G gs c p

/-- The group list with the groups at positions `i` and `j` coalesced at the place of the
first: the members of both in node order, which is the topological order. -/
def mergedAt (gs : List FusionGroup) (i j : Nat) : List FusionGroup :=
  (gs.filter (fun g => g != gs.getD j [])).map (fun g =>
    if g = gs.getD i [] then (gs.getD i [] ++ gs.getD j []).insertionSort (· ≤ ·) else g)

/-- The pairs of positions `i < j` below `n`, in scan order. -/
def groupPairs (n : Nat) : List (Nat × Nat) :=
  (List.range n).flatMap (fun i => ((List.range n).filter (fun j => i < j)).map (fun j => (i, j)))

/-- Modelled from the spec: one scan of the merge pass (section 4.3).  The first pair of
groups that the merge rule allows to merge, either as child and parent, is coalesced;
`none` when the scan finds no merge. -/
def mergeScan (G : Graph) (gs : List FusionGroup) : Option (List FusionGroup) :=
  match (groupPairs gs.length).find? (fun ij =>
      mergeRule G gs (gs.getD ij.1 []) (gs.getD ij.2 []) ||
        mergeRule G gs (gs.getD ij.2 []) (gs.getD ij.1 [])) with
  | none => none
  | some ij => some (mergedAt gs ij.1 ij.2)

/-- Repeat scans until no further merge is found, at most `fuel` times. -/
def mergeLoop (G : Graph) : Nat → List FusionGroup → List FusionGroup
  | 0, gs => gs
  | fuel + 1, gs =>
    match mergeScan G gs with
    | none => gs
    | some gs2 => mergeLoop G fuel gs2

/-- Modelled from the spec: the fusion-merge pass (section 4.3) iterates to a fixed point.
Every merge removes a group, so as many scans as there are groups reach it.  Missing: the
pass registered as `FusionMergePass`. -/
def FusionMergePass (G : Graph) (gs : List FusionGroup) : List FusionGroup :=
  mergeLoop G gs.length gs

/-! ### The lowering engine -/

/-- Modelled from the spec: the final artifact of lowering (section 3), a named function
with its ordered parameter list and a scheduled body.  Missing: `ir::LoweredFunc`. -/
structure LoweredFunc (Ex : Type) where
  name : String
  args : List String
  body : Ex

/-- Modelled from the spec: the registered strategy pair of the operators and the merge of
stage expressions (sections 4.4 and 6).  `compute` gives the tensor expressions a node
contributes from the tensors of its inputs, `schedule` turns the tensors of an output node
into a scheduled expression (for a reduction with the schedule family chosen by the
engine), `mergeExprs` merges the stage expressions in one module and extracts the merged
body, `placeholder` is the tensor of an external input.  A failure is the fatal
strategy-reported error of section 7. -/
structure OpStrategies (Tn Ex : Type) where
  compute : Node → List Tn → Except String (List Tn)
  schedule : Node → Option Family → List Tn → Except String Ex
  mergeExprs : List Ex → Ex
  placeholder : String → Tn

/-- Modelled from the spec: the reduction scheduling decision of section 4.4, step 3, from
the input shape, the validated axes and the number of tensors the compute step produced.
Without the last dimension one tensor gets the single `ScheduleReduce` and three (with the
shuffle reshape stage) the block-shuffle-reduce; with it 2, 3, 4 tensors get
block-reduce-internal, block-reduce, two-step block-reduce.  Any other count is fatal. -/
def reduceFamily (inshape reduce_axes : List Int) (stages : Nat) : Except String Family :=
  if WithoutLastDimInReduce inshape reduce_axes then
    if stages = 1 then .ok .ScheduleReduce
    else if stages = 3 then .ok .BlockShuffleReduce
    else .error "unsupported configuration: stage count of a reduction without last dim"
  else
    if stages = 2 then .ok .BlockReduceInternal
    else if stages = 3 then .ok .BlockReduce
    else if stages = 4 then .ok .TwoStepBlockReduce
    else .error "unsupported configuration: stage count of a reduction with last dim"

/-- Modelled from the spec: dominant pattern kind of a group (section 3), the most
restrictive kind among its members. -/
def dominantPattern (G : Graph) (g : FusionGroup) : OpPatternKind :=
  g.foldl (fun k v =>
    match G.patternOf v with
    | some p => if k.toNat < p.toNat then p else k
    | none => k) .kElementWise

section Lowering
variable {Tn Ex : Type}

/-- Tensor of the input named `t`: the tensor produced for it earlier in the group, or the
placeholder of an external input. -/
def inputTensor (St : OpStrategies Tn Ex) (produced : List (String × Tn)) (t : String) : Tn :=
  match produced.lookup t with
  | some x => x
  | none => St.placeholder t

/-- Tensors a node adds to the tensors produced so far: each of its output names is bound to
the first tensor of its compute step. -/
def producedBy (nd : Node) (ts : List Tn) : List (String × Tn) :=
  match ts.head? with
  | some x => nd.outputs.map (fun t => (t, x))
  | none => []

/-- Modelled from the spec: step 1 of section 4.4.  The compute strategy of every node of
the group is invoked in topological order, threading the tensors produced so far; the
result lists, per node, the tensors it contributed. -/
def emitCompute (St : OpStrategies Tn Ex) (G : Graph) :
    List Nat → List (String × Tn) → Except String (List (Nat × List Tn))
  | [], _ => .ok []
  | v :: vs, produced =>
    match G.nodes[v]? with
    | none => .error "structural error: the group names a node that is not in the graph"
    | some nd => do
      let ts ← St.compute nd (nd.inputs.map (inputTensor St produced))
      let rest ← emitCompute St G vs (producedBy nd ts ++ produced)
      pure ((v, ts) :: rest)

/-- Modelled from the spec: steps 2 and 3 of section 4.4 for one output node.  A reduction
first has its axes validated and its schedule family decided from the input shape and the
number of tensors of its compute step; then the schedule strategy is invoked. -/
def scheduleNode (St : OpStrategies Tn Ex) (G : Graph) (reduceGroup : Bool)
    (computed : List (Nat × List Tn)) (v : Nat) : Except String Ex :=
  match G.nodes[v]?, computed.lookup v with
  | some nd, some ts =>
    if reduceGroup && nd.pattern == .kCommReduce then
      match (nd.inputs.head?).bind (fun t => G.shape_dict.lookup t) with
      | none => .error "structural error: missing shape entry"
      | some inshape => do
        let env ← StrategyForReduce ⟨some nd.dim, some nd.keep_dim⟩ inshape
        let family ← reduceFamily inshape env.reduce_axes ts.length
        St.schedule nd (some family) ts
    else St.schedule nd none ts
  | _, _ => .error "structural error: the group names a node that is not in the graph"

/-- External input and output tensors of a group. -/
def groupArgs (G : Graph) (g : FusionGroup) : List String :=
  let nodes := g.filterMap (fun v => G.nodes[v]?)
  let produced := nodes.flatMap (fun nd => nd.outputs)
  (nodes.flatMap (fun nd => nd.inputs.filter (fun t => !produced.contains t))).eraseDups ++
    ((outputNodes G g).filterMap (fun v => G.nodes[v]?)).flatMap (fun nd => nd.outputs)

/-- Nodes whose schedule the engine invokes: the output nodes of the group and, in a group
whose dominant pattern is `Reduce`, its reductions. -/
def scheduledNodes (G : Graph) (g : FusionGroup) : List Nat :=
  g.filter (fun v => (outputNodes G g).contains v ||
    (dominantPattern G g == .kCommReduce && G.patternOf v == some .kCommReduce))

/-- Schedule of every node of the list, in order; the first failure is fatal. -/
def scheduleAll (St : OpStrategies Tn Ex) (G : Graph) (reduceGroup : Bool)
    (computed : List (Nat × List Tn)) : List Nat → Except String (List Ex)
  | [] => .ok []
  | v :: vs => do
    let e ← scheduleNode St G reduceGroup computed v
    let es ← scheduleAll St G reduceGroup computed vs
    pure (e :: es)

/-- Modelled from the spec: the strategies report no error on the nodes of the graph
(section 7) and every reduction is a supported configuration: its input shape is known, its
axes pass the validation of `StrategyForReduce` and the number of tensors of its compute
step is one the reduction scheduling decision recognizes (section 4.4, step 3). -/
def OpStrategies.Accepts (St : OpStrategies Tn Ex) (G : Graph) : Prop :=
  (∀ nd ins, ∃ ts, St.compute nd ins = .ok ts) ∧
  (∀ nd fam ts, ∃ ex, St.schedule nd fam ts = .ok ex) ∧
  (∀ nd ∈ G.nodes, nd.pattern = .kCommReduce → ∀ ins ts, St.compute nd ins = .ok ts →
    ∃ inshape env fam,
      (nd.inputs.head?).bind (fun t => G.shape_dict.lookup t) = some inshape ∧
      StrategyForReduce ⟨some nd.dim, some nd.keep_dim⟩ inshape = .ok env ∧
      reduceFamily inshape env.reduce_axes ts.length = .ok fam)

/-- Modelled from the spec: `OpLowerer::Lower` (section 4.4).  The group goes through
`Unlowered → ComputeEmitted → Scheduled → Finalized`: compute of every node in topological
order, schedule of the output nodes and reductions, merge of the stage expressions in one
module, and assembly of the merged body with the external input and output tensors into
exactly one `LoweredFunc`.  A failure of any stage is fatal. -/
def OpLowerer.Lower (St : OpStrategies Tn Ex) (G : Graph) (g : FusionGroup) :
    Except String (List (LoweredFunc Ex)) := do
  let order := g.insertionSort (· ≤ ·)
  let computed ← emitCompute St G order []
  let exprs ← scheduleAll St G (dominantPattern G g == .kCommReduce) computed
    (scheduledNodes G order)
  let body := St.mergeExprs exprs
  pure [{ name := "fn_" ++ String.intercalate "_" (order.map toString),
          args := groupArgs G order,
          body := body }]

end Lowering

/-! ### The graphs of `op_lowering_test.cc` -/

/-- The node built by `net_builder.ElementwiseAdd(a, b)` with output tensor `out`. -/
def ElementwiseAdd (a b out : String) : Node :=
  { op := "elementwise_add", pattern := .kElementWise, inputs := [a, b], outputs := [out],
    dim := [], keep_dim := false }

/-- The node built by `net_builder.Reduce(a, ReduceKind::kSum, dim)` with output tensor
`out`. -/
def ReduceSum (a : String) (dim : List Int) (out : String) : Node :=
  { op := "reduce_sum", pattern := .kCommReduce, inputs := [a], outputs := [out],
    dim := dim, keep_dim := false }

/-- The graph of `TEST(OP_LOWERING, Reduce_Fusion_Test_4)`: `C = A + B` on `[32, 32]`,
`D = reduce_sum(C, {0})`, `E = reduce_sum(C, {0})`. -/
def Reduce_Fusion_Test_4 : Graph :=
  { nodes := [ElementwiseAdd "A" "B" "C", ReduceSum "C" [0] "D", ReduceSum "C" [0] "E"],
    shape_dict := [("A", [32, 32]), ("B", [32, 32]), ("C", [32, 32]), ("D", [32]),
      ("E", [32])] }

/-- The graph of `TEST(OP_LOWERING, Reduce_Fusion_Test_6)`: `D = A + B` on `[128, 128]`,
`E = reduce_sum(D, {0})`, `F = reduce_sum(D, {0})`, `G = E + C`, `I = F + C` with `C` of
shape `[128]`. -/
def Reduce_Fusion_Test_6 : Graph :=
  { nodes := [ElementwiseAdd "A" "B" "D", ReduceSum "D" [0] "E", ReduceSum "D" [0] "F",
      ElementwiseAdd "E" "C" "G", ElementwiseAdd "F" "C" "I"],
    shape_dict := [("A", [128, 128]), ("B", [128, 128]), ("C", [128]), ("D", [128, 128]),
      ("E", [128]), ("F", [128]), ("G", [128]), ("I", [128])] }

/-- A chain in front of a fan-out: `X = A + B`, `Y = X + C` on `[8, 8]`, and `Y` feeds the two
reductions `R1 = reduce_sum(Y, {0})`, `R2 = reduce_sum(Y, {0})`. -/
def chainFanOutGraph : Graph :=
  { nodes := [ElementwiseAdd "A" "B" "X", ElementwiseAdd "X" "C" "Y", ReduceSum "Y" [0] "R1",
      ReduceSum "Y" [0] "R2"],
    shape_dict := [("A", [8, 8]), ("B", [8, 8]), ("C", [8, 8]), ("X", [8, 8]), ("Y", [8, 8]),
      ("R1", [8]), ("R2", [8])] }

/-- An opaque node between a producer and one of its consumers: `X = A + B`,
`Y = custom(X)` with an opaque operator, `Z = X + Y`, all on `[8]`. -/
def opaqueBridgeGraph : Graph :=
  { nodes := [ElementwiseAdd "A" "B" "X",
      { op := "custom_call", pattern := .kOpaque, inputs := ["X"], outputs := ["Y"], dim := [],
        keep_dim := false },
      ElementwiseAdd "X" "Y" "Z"],
    shape_dict := [("A", [8]), ("B", [8]), ("X", [8]), ("Y", [8]), ("Z", [8])] }

/-- The graph of `TEST(OP_LOWERING, Reduce_Fusion_Test_0)`: `C = reduce_sum(A, {0})` on
`[32, 32]`, `D = B + C`. -/
def Reduce_Fusion_Test_0 : Graph :=
  { nodes := [ReduceSum "A" [0] "C", ElementwiseAdd "B" "C" "D"],
    shape_dict := [("A", [32, 32]), ("B", [32]), ("C", [32]), ("D", [32])] }

/-- The graph of `TEST(OP_LOWERING, Reduce_Fusion_Test_1)`: `D = A + B` on `[32, 32]`,
`E = reduce_sum(D, {1})`. -/
def Reduce_Fusion_Test_1 : Graph :=
  { nodes := [ElementwiseAdd "A" "B" "D", ReduceSum "D" [1] "E"],
    shape_dict := [("A", [32, 32]), ("B", [32, 32]), ("D", [32, 32]), ("E", [32])] }

/-- The graph of `TEST(OP_LOWERING, Reduce_Fusion_Test_2)`: `E = reduce_sum(A, {0})` on
`[32, 32]`, `F = B + C`, `G = D + F`, `H = E + G`. -/
def Reduce_Fusion_Test_2 : Graph :=
  { nodes := [ReduceSum "A" [0] "E", ElementwiseAdd "B" "C" "F", ElementwiseAdd "D" "F" "G",
      ElementwiseAdd "E" "G" "H"],
    shape_dict := [("A", [32, 32]), ("B", [32]), ("C", [32]), ("D", [32]), ("E", [32]), ("F", [32]),
      ("G", [32]), ("H", [32])] }

/-- The graph of `TEST(OP_LOWERING, Reduce_Fusion_Test_3)`: `B = reduce_sum(A, {0})`,
`C = reduce_sum(A, {0})` on `[32, 32]`, `D = B + C`. -/
def Reduce_Fusion_Test_3 : Graph :=
  { nodes := [ReduceSum "A" [0] "B", ReduceSum "A" [0] "C", ElementwiseAdd "B" "C" "D"],
    shape_dict := [("A", [32, 32]), ("B", [32]), ("C", [32]), ("D", [32])] }

/-- The graph of `TEST(OP_LOWERING, Reduce_Fusion_Test_5)`: `D = A + B` on `[32, 32]`,
`E = reduce_sum(D, {1})`, `F = reduce_sum(D, {1})`. -/
def Reduce_Fusion_Test_5 : Graph :=
  { nodes := [ElementwiseAdd "A" "B" "D", ReduceSum "D" [1] "E", ReduceSum "D" [1] "F"],
    shape_dict := [("A", [32, 32]), ("B", [32, 32]), ("D", [32, 32]), ("E", [32]), ("F", [32])] }

/-- The graph of `TEST(OP_LOWERING, Reduce_Fusion_Test_7)`: `D = A + B` on `[128, 128]`,
`E = reduce_sum(D, {1})`, `F = reduce_sum(D, {1})`, `G = E + C`, `I = F + C` with `C` of
shape `[128]`. -/
def Reduce_Fusion_Test_7 : Graph :=
  { nodes := [ElementwiseAdd "A" "B" "D", ReduceSum "D" [1] "E", ReduceSum "D" [1] "F",
      ElementwiseAdd "E" "C" "G", ElementwiseAdd "F" "C" "I"],
    shape_dict := [("A", [128, 128]), ("B", [128, 128]), ("C", [128]), ("D", [128, 128]), ("E", [128]),
      ("F", [128]), ("G", [128]), ("I", [128])] }

/-- The graph of `TEST(OP_LOWERING, Reduce_Fusion_Test_8)`: `D = A + B` on `[128, 128]`,
`E = reduce_sum(D, {0, 1})`, `F = reduce_sum(D, {0, 1})`, `G = E + C`, `I = F + C` with `C` of
shape `[1]`. -/
def Reduce_Fusion_Test_8 : Graph :=
  { nodes := [ElementwiseAdd "A" "B" "D", ReduceSum "D" [0, 1] "E", ReduceSum "D" [0, 1] "F",
      ElementwiseAdd "E" "C" "G", ElementwiseAdd "F" "C" "I"],
    shape_dict := [("A", [128, 128]), ("B", [128, 128]), ("C", [1]), ("D", [128, 128]), ("E", [1]),
      ("F", [1]), ("G", [1]), ("I", [1])] }

/-- The graph of `TEST(OP_LOWERING, Reduce_Fusion_Test_9)`: `D = A + B` on `[128, 128, 128]`,
`E = reduce_sum(D, {0, 2})`, `F = reduce_sum(D, {0, 2})`, `G = E + C`, `I = F + C` with `C` of
shape `[128]`. -/
def Reduce_Fusion_Test_9 : Graph :=
  { nodes := [ElementwiseAdd "A" "B" "D", ReduceSum "D" [0, 2] "E", ReduceSum "D" [0, 2] "F",
      ElementwiseAdd "E" "C" "G", ElementwiseAdd "F" "C" "I"],
    shape_dict := [("A", [128, 128, 128]), ("B", [128, 128, 128]), ("C", [128]), ("D", [128, 128, 128]),
      ("E", [128]), ("F", [128]), ("G", [128]), ("I", [128])] }

/-- The graph of `TEST(OP_LOWERING, Reduce_Fusion_Test_10)`: `C = reduce_sum(A, {0})` on
`[10201, 50]`, `D = B + C`. -/
def Reduce_Fusion_Test_10 : Graph :=
  { nodes := [ReduceSum "A" [0] "C", ElementwiseAdd "B" "C" "D"],
    shape_dict := [("A", [10201, 50]), ("B", [50]), ("C", [50]), ("D", [50])] }

/-- The graph of `TEST(OP_LOWERING, Reduce_Fusion_Test_11)`: `D = A + B` on `[128, 128, 16, 16]`,
`E = reduce_sum(D, {0, 2, 3})`, `F = reduce_sum(D, {0, 2, 3})`. -/
def Reduce_Fusion_Test_11 : Graph :=
  { nodes := [ElementwiseAdd "A" "B" "D", ReduceSum "D" [0, 2, 3] "E", ReduceSum "D" [0, 2, 3] "F"],
    shape_dict := [("A", [128, 128, 16, 16]), ("B", [128, 128, 16, 16]), ("D", [128, 128, 16, 16]),
      ("E", [128]), ("F", [128])] }

/-- The graph of `TEST(OP_LOWERING, Reduce_Fusion_Test_12)`: `D = A + B` on `[128, 128, 112, 112]`,
`E = reduce_sum(D, {0, 2, 3})`, `F = reduce_sum(D, {0, 2, 3})`. -/
def Reduce_Fusion_Test_12 : Graph :=
  { nodes := [ElementwiseAdd "A" "B" "D", ReduceSum "D" [0, 2, 3] "E", ReduceSum "D" [0, 2, 3] "F"],
    shape_dict := [("A", [128, 128, 112, 112]), ("B", [128, 128, 112, 112]), ("D", [128, 128, 112, 112]),
      ("E", [128]), ("F", [128])] }

/-- The graph of `TEST(OP_LOWERING, Reduce_Fusion_Test_13)`: `D = A + B` on `[8, 8, 8, 8]`,
`E = reduce_sum(D, {0, 1, 2})`, `F = reduce_sum(D, {0, 1, 2})`. -/
def Reduce_Fusion_Test_13 : Graph :=
  { nodes := [ElementwiseAdd "A" "B" "D", ReduceSum "D" [0, 1, 2] "E", ReduceSum "D" [0, 1, 2] "F"],
    shape_dict := [("A", [8, 8, 8, 8]), ("B", [8, 8, 8, 8]), ("D", [8, 8, 8, 8]), ("E", [8]), ("F", [8])] }

/-- The graph of `TEST(OP_LOWERING, Reduce_Fusion_Test_14)`: `D = A + B` on `[8, 8, 8, 8, 8, 8]`,
`E = reduce_sum(D, {0, 3, 4})`, `F = reduce_sum(D, {0, 3, 4})`. -/
def Reduce_Fusion_Test_14 : Graph :=
  { nodes := [ElementwiseAdd "A" "B" "D", ReduceSum "D" [0, 3, 4] "E", ReduceSum "D" [0, 3, 4] "F"],
    shape_dict := [("A", [8, 8, 8, 8, 8, 8]), ("B", [8, 8, 8, 8, 8, 8]), ("D", [8, 8, 8, 8, 8, 8]),
      ("E", [8, 8, 8]), ("F", [8, 8, 8])] }

/-- The graph of `TEST(OP_LOWERING, Reduce_Fusion_Test_15)`: `D = A + B` on `[512, 32]`,
`E = reduce_sum(D, {0})`, `F = reduce_sum(D, {0})`. -/
def Reduce_Fusion_Test_15 : Graph :=
  { nodes := [ElementwiseAdd "A" "B" "D", ReduceSum "D" [0] "E", ReduceSum "D" [0] "F"],
    shape_dict := [("A", [512, 32]), ("B", [512, 32]), ("D", [512, 32]), ("E", [32]), ("F", [32])] }

/-- The graph of `TEST(OP_LOWERING, Reduce_Fusion_Test_16)`: `D = A + B` on `[128, 128, 28, 28]`,
`E = reduce_sum(D, {0, 2, 3})`, `F = reduce_sum(D, {0, 2, 3})`. -/
def Reduce_Fusion_Test_16 : Graph :=
  { nodes := [ElementwiseAdd "A" "B" "D", ReduceSum "D" [0, 2, 3] "E", ReduceSum "D" [0, 2, 3] "F"],
    shape_dict := [("A", [128, 128, 28, 28]), ("B", [128, 128, 28, 28]), ("D", [128, 128, 28, 28]),
      ("E", [128]), ("F", [128])] }

/-- The graph of `TEST(OP_LOWERING, Reduce_Fusion_Test_17)`: `E = reduce_sum(A, {0})` on
`[128, 768]`, `F = reduce_sum(B, {0})` on `[256, 768]`, `G = E + F`. -/
def Reduce_Fusion_Test_17 : Graph :=
  { nodes := [ReduceSum "A" [0] "E", ReduceSum "B" [0] "F", ElementwiseAdd "E" "F" "G"],
    shape_dict := [("A", [128, 768]), ("B", [256, 768]), ("E", [768]), ("F", [768]), ("G", [768])] }

/-- The graph of `TEST(OP_LOWERING, Reduce_Fusion_Test_18)`: `E = reduce_sum(A, {1})` on
`[16, 128, 768]`, `F = reduce_sum(B, {1})` on `[16, 256, 768]`, `G = E + F`. -/
def Reduce_Fusion_Test_18 : Graph :=
  { nodes := [ReduceSum "A" [1] "E", ReduceSum "B" [1] "F", ElementwiseAdd "E" "F" "G"],
    shape_dict := [("A", [16, 128, 768]), ("B", [16, 256, 768]), ("E", [16, 768]), ("F", [16, 768]),
      ("G", [16, 768])] }

/-- The graph of `TEST(OP_LOWERING, Reduce_Fusion_Test_19)`: `E = reduce_sum(A, {0})` on
`[128, 128]`, `F = reduce_sum(B, {0})` on `[256, 128]`, `G = E + F`. -/
def Reduce_Fusion_Test_19 : Graph :=
  { nodes := [ReduceSum "A" [0] "E", ReduceSum "B" [0] "F", ElementwiseAdd "E" "F" "G"],
    shape_dict := [("A", [128, 128]), ("B", [256, 128]), ("E", [128]), ("F", [128]), ("G", [128])] }

/-- The graph of `TEST(OP_LOWERING, Reduce_Test_21)`: the adds `AA`, `BB`, `CC`, `DD` on
`[256, 4]`, `[256, 4]`, `[55200, 4]`, `[2750, 4]`, their sums `E`, `F`, `G`, `H` along axis 0,
`I = E + F`, `J = G + I`, `K = H + J`, and a second add `AAA`, `BBB`, `CCC`, `DDD` on each of
`AA`, `BB`, `CC`, `DD`. -/
def Reduce_Test_21 : Graph :=
  { nodes := [ElementwiseAdd "A0" "A1" "AA", ElementwiseAdd "B0" "B1" "BB",
      ElementwiseAdd "C0" "C1" "CC", ElementwiseAdd "D0" "D1" "DD", ReduceSum "AA" [0] "E",
      ReduceSum "BB" [0] "F", ReduceSum "CC" [0] "G", ReduceSum "DD" [0] "H",
      ElementwiseAdd "E" "F" "I", ElementwiseAdd "G" "I" "J", ElementwiseAdd "H" "J" "K",
      ElementwiseAdd "AA" "A1" "AAA", ElementwiseAdd "BB" "B1" "BBB",
      ElementwiseAdd "CC" "C1" "CCC", ElementwiseAdd "DD" "D1" "DDD"],
    shape_dict := [("A0", [256, 4]), ("B0", [256, 4]), ("C0", [55200, 4]), ("D0", [2750, 4]),
      ("A1", [256, 4]), ("B1", [256, 4]), ("C1", [55200, 4]), ("D1", [2750, 4]),
      ("AA", [256, 4]), ("BB", [256, 4]), ("CC", [55200, 4]), ("DD", [2750, 4]), ("E", [4]),
      ("F", [4]), ("G", [4]), ("H", [4]), ("I", [4]), ("J", [4]), ("K", [4]),
      ("AAA", [256, 4]), ("BBB", [256, 4]), ("CCC", [55200, 4]), ("DDD", [2750, 4])] }

/-- Strategies on which lowering can be evaluated: tensors and expressions are strings,
every compute contributes the output tensors of its node, every schedule returns the
operator kind, and expressions are merged by concatenation. -/
def demoStrategies : OpStrategies String String where
  compute := fun nd _ => .ok nd.outputs
  schedule := fun nd _ _ => .ok nd.op
  mergeExprs := fun es => String.join es
  placeholder := fun t => t

/-! ## Shape inference (`InferShapeForReduction`, lines 374-406) -/

/-- The loop `for (size_t i = 0; i < ndim; ++i)` of `InferShapeForReduction` over the first
input shape `in0`.  `std::find(dim.begin(), dim.end(), i)` compares every `int` of `dim` with
the `size_t` value `i`, hence after conversion to `size_t`; a position found in `dim` pushes
1 when `keep_dim` holds and nothing otherwise, any other position pushes
`inputs_shape[0][i]`. -/
def inferShapeLoop (dim : List Int) (keep_dim : Bool) (in0 : List Int) : List Int :=
  (List.range in0.length).foldl (fun out_shapes (i : Nat) =>
    if dim.any (fun a => toSizeT a == (i : Int)) then
      if keep_dim then out_shapes ++ [1] else out_shapes
    else out_shapes ++ [in0.getD i 0]) []

/-- The function `InferShapeForReduction`; the attribute map is read at its keys `dim` and
`keep_dim` only, an absent key leaves the default (`dim` empty, `keep_dim` false). -/
def InferShapeForReduction (inputs_shape : List (List Int)) (attrs : NodeAttr) :
    Except String (List (List Int)) :=
  if ¬ (inputs_shape.length = 1 ∨ inputs_shape.length = 3) then
    .error "Check failed: inputs_shape.size() == 1UL || inputs_shape.size() == 3UL"
  else
    let dim := attrs.dim.getD []
    let keep_dim := attrs.keep_dim.getD false
    let in0 := inputs_shape.headD []
    do
      let out_shapes ←
        if !dim.isEmpty then
          if ¬ dim.length ≤ in0.length then
            .error "reduce dim should no more than the input size"
          else pure (inferShapeLoop dim keep_dim in0)
        else pure []
      let out_shapes := if out_shapes.isEmpty then out_shapes ++ [1] else out_shapes
      pure [out_shapes]

/-- The scan of the positions `0 .. rank - 1` of a shape in order: a position listed in `dim`
contributes 1 when `keep_dim` holds and nothing otherwise, every other position contributes
its extent. -/
def scanPositions (dim : List Int) (keep_dim : Bool) (in0 : List Int) : List Int :=
  (List.range in0.length).flatMap (fun (i : Nat) =>
    if (i : Int) ∈ dim then (if keep_dim then [1] else []) else [in0.getD i 0])

/-! ## The dispatch of `reduction_schedule` as a table -/

/-- Family of the primitive that `reduction_schedule` calls, as a function of the scheduling
mode `flag`, of the test `target.arch == NVGPU`, of the value of `WithoutLastDimInReduce`
and of the size `n` of the argument pack; `none` when the run calls no primitive (fatal
error, or a target that is not NVGPU). -/
def dispatchedFamily (flag arch withoutLast : Bool) (n : Nat) : Option Family :=
  if !arch then none
  else if flag then
    if withoutLast then
      if n = 2 then some .ScheduleReduce else if n = 5 then some .BlockShuffleReduce else none
    else
      if n = 4 then some .BlockReduceInternal
      else if n = 6 then some .BlockReduce
      else if n = 7 then some .TwoStepBlockReduce
      else if n = 5 then some .BlockReduce
      else none
  else
    if withoutLast then
      if n = 2 then some .ScheduleReduce else if n = 4 then some .BlockShuffleReduce else none
    else
      if n = 3 then some .BlockReduceInternal
      else if n = 4 then some .BlockReduce
      else if n = 5 then some .TwoStepBlockReduce
      else none

/-- An interpretation of the external operations in which a target is the pair of its
architecture test (`true` for NVGPU) and its word size; the default NVGPU target is the
64-bit one, and `operator==` compares both components.  Everything else is as in
`demoExternals`. -/
def archExternals : Externals Nat Nat Nat Nat (List Nat) (Bool × Nat) where
  toExpr := fun v => v
  toStdString := fun _ => "out"
  toStageMap := fun v => v
  ofExpr := fun e => e
  ofTensor := fun t => t
  ofStageMap := fun s => s
  as_tensor := fun e => if e < 100 then some e else none
  as_tensor_ref := fun e => e
  UniqName := fun n => n
  CreateStages := fun ts => ts.length
  IRSchedule := fun es => es
  MergeExprs := fun m => [m.sum]
  applySchedule := fun _ m => m
  GetExprs := fun m => m.sum :: m
  GetExprs_ne := fun _ => List.cons_ne_nil _ _
  DefaultNVGPUTarget := (true, 64)
  target_eq := fun a b => a == b
  arch_is_NVGPU := fun t => t.1

/-! ## `lang::Lower` (`cinn/lang/lower.cc`) -/

/-- The node behind an `ir::LoweredFunc` as far as `lower.cc` touches it: the field
`device_api`, of the enumeration type `D` (`ir::DeviceAPI`), and every other field, gathered
in `others`. -/
structure ir.LoweredFunc (D R : Type) where
  device_api : D
  others : R
deriving DecidableEq, Repr

/-- Operations used by `lower.cc` and declared in other files, over the types `T`
(`ir::Tensor`), `Vr` (`Var`), `Bf` (`ir::Buffer`), `B` (the state of a `Module::Builder`),
`D` (`ir::DeviceAPI`) and `R` (the fields of a lowered function other than `device_api`). -/
structure LowerExternals (T Vr Bf B D R : Type) where
  /-- Method `temp_tensor->inlined()`. -/
  inlined : T → Bool
  /-- Field `temp_tensor->buffer`. -/
  buffer : T → Bf
  /-- Method `b->AddBuffer(buffer)`. -/
  AddBuffer : B → Bf → B
  /-- Method `b->AddFunction(res)`. -/
  AddFunction : B → ir.LoweredFunc D R → B
  /-- Function `detail::TensorContainsGPUInfo`. -/
  TensorContainsGPUInfo : T → Bool
  /-- Call `detail::LowerImpl(name, tensor_args, scalar_args, temp_tensors)()`. -/
  LowerImpl : String → List T → List Vr → List T → ir.LoweredFunc D R
  /-- Constant `ir::DeviceAPI::GPU`. -/
  GPU : D

section LangLower
variable {T Vr Bf B D R : Type}

/-- The loop over `temp_tensors` (lines 29-32): an inlined temporary tensor is fatal, any
other has its buffer added to the module. -/
def addTempBuffers (X : LowerExternals T Vr Bf B D R) : B → List T → Except String B
  | b, [] => .ok b
  | b, temp_tensor :: rest =>
    if X.inlined temp_tensor then
      .error "The tensor arguments of function should bind to buffers"
    else addTempBuffers X (X.AddBuffer b (X.buffer temp_tensor)) rest

/-- The loop `for (auto& t : tensor_args) if (contains_gpu = detail::TensorContainsGPUInfo(t))
break;` (lines 35-38): the value of `contains_gpu` after the loop. -/
def containsGpuLoop (X : LowerExternals T Vr Bf B D R) : List T → Bool
  | [] => false
  | t :: rest => if X.TensorContainsGPUInfo t then true else containsGpuLoop X rest

/-- The function `lang::Lower`; the module builder `b` is a pointer, `none` when null.  The
result is the returned function together with the state of the builder after the call. -/
def lang.Lower (X : LowerExternals T Vr Bf B D R) (name : String) (tensor_args : List T)
    (scalar_args : List Vr) (temp_tensors : List T) (b : Option B) :
    Except String (ir.LoweredFunc D R × Option B) := do
  let b ←
    if !temp_tensors.isEmpty then
      match b with
      | none => .error "Module should be set to hold the temporary buffers"
      | some builder => (addTempBuffers X builder temp_tensors).map some
    else pure b
  let contains_gpu := containsGpuLoop X tensor_args
  let res := X.LowerImpl name tensor_args scalar_args temp_tensors
  let res := if contains_gpu then { res with device_api := X.GPU } else res
  let b := b.map (fun builder => X.AddFunction builder res)
  pure (res, b)

end LangLower

/-- An interpretation of the operations of `lower.cc` for evaluation: tensors, buffers and
device kinds are numbers, a tensor from 100 on is inlined, an even tensor carries GPU
information, the builder state is the list of what was added to it, `LowerImpl` returns a
function on device 0 whose other fields are the name and the number of arguments, and the
GPU device is 2. -/
def demoLowerExternals : LowerExternals Nat Nat Nat (List Nat) Nat (String × Nat) where
  inlined := fun t => decide (100 ≤ t)
  buffer := fun t => t + 1000
  AddBuffer := fun b bf => b ++ [bf]
  AddFunction := fun b f => b ++ [f.device_api]
  TensorContainsGPUInfo := fun t => t % 2 == 0
  LowerImpl := fun name tensor_args scalar_args _ =>
    { device_api := 0, others := (name, tensor_args.length + scalar_args.length) }
  GPU := 2

/-- The graph of `TEST(OP_LOWERING, Reduce_Fusion_Test_20)` for inputs `A`, `B`, `C`, `D` of
shapes `[h, w]`, `[2 h, w]`, `[3 h, w]`, `[4 h, w]`: `E`, `F`, `G`, `H` are their sums along
axis 0, each of shape `[w]`, and `I = E + F`, `J = G + I`, `K = H + J`. -/
def Reduce_Fusion_Test_20 (h w : Int) : Graph :=
  { nodes := [ReduceSum "A" [0] "E", ReduceSum "B" [0] "F", ReduceSum "C" [0] "G",
      ReduceSum "D" [0] "H", ElementwiseAdd "E" "F" "I", ElementwiseAdd "G" "I" "J",
      ElementwiseAdd "H" "J" "K"],
    shape_dict := [("A", [h, w]), ("B", [h * 2, w]), ("C", [h * 3, w]), ("D", [h * 4, w]),
      ("E", [w]), ("F", [w]), ("G", [w]), ("H", [w]), ("I", [w]), ("J", [w]), ("K", [w])] }

/-! ## Machine arithmetic -/

theorem wrapInt32_of_range {z : Int} (h1 : -2 ^ 31 ≤ z) (h2 : z < 2 ^ 31) : wrapInt32 z = z := by
  unfold wrapInt32
  rw [Int.emod_eq_of_lt (by omega) (by omega)]
  omega

theorem wrapInt32_mul_left (a e : Int) : wrapInt32 (wrapInt32 a * e) = wrapInt32 (a * e) := by
  unfold wrapInt32
  have h : ((a + 2 ^ 31) % 2 ^ 32 - 2 ^ 31) * e + 2 ^ 31 ≡ a * e + 2 ^ 31 [ZMOD 2 ^ 32] := by
    have h1 : (a + 2 ^ 31) % 2 ^ 32 ≡ a + 2 ^ 31 [ZMOD 2 ^ 32] := Int.mod_modEq _ _
    have h2 : (a + 2 ^ 31) % 2 ^ 32 - 2 ^ 31 ≡ a [ZMOD 2 ^ 32] := by
      have := h1.sub_right (2 ^ 31)
      simpa using this
    exact (h2.mul_right e).add_right _
  rw [h.eq]

theorem foldl_wrapInt32 (l : List Int) (a : Int) :
    l.foldl (fun acc e => wrapInt32 (acc * e)) (wrapInt32 a) = wrapInt32 (a * l.prod) := by
  induction l generalizing a with
  | nil => simp
  | cons e l ih =>
    simp only [List.foldl_cons, List.prod_cons]
    rw [wrapInt32_mul_left, ih, mul_assoc]

/-- The accumulator of the loop of `WithoutLastDimInReduce` ends as the wrapped product of
the extents it visited. -/
theorem sum_last_axes_eq (l : List Int) :
    l.foldl (fun acc e => wrapInt32 (acc * e)) 1 = wrapInt32 l.prod := by
  have h := foldl_wrapInt32 l 1
  have h1 : wrapInt32 1 = 1 := by decide
  rw [h1, one_mul] at h
  exact h

/-! ## Sorted axis lists -/

theorem le_getLast_of_sorted : ∀ (l : List Int) (hne : l ≠ []), l.Sorted (· ≤ ·) →
    ∀ a ∈ l, a ≤ l.getLast hne
  | [x], _, _, a, ha => by
    simp at ha; simp [ha]
  | x :: y :: l, _, hs, a, ha => by
    have hs2 : (y :: l).Sorted (· ≤ ·) := hs.of_cons
    rw [List.getLast_cons (by simp : y :: l ≠ [])]
    rcases List.mem_cons.mp ha with h | h
    · have hxy : x ≤ y := List.rel_of_sorted_cons hs y (by simp)
      have := le_getLast_of_sorted (y :: l) (by simp) hs2 y (by simp)
      omega
    · exact le_getLast_of_sorted (y :: l) (by simp) hs2 a h

theorem checkAdjacentNE_iff_nodup : ∀ (l : List Int), l.Sorted (· ≤ ·) →
    (checkAdjacentNE l = true ↔ l.Nodup)
  | [], _ => by simp [checkAdjacentNE]
  | [x], _ => by simp [checkAdjacentNE]
  | x :: y :: l, hs => by
    have hs2 : (y :: l).Sorted (· ≤ ·) := hs.of_cons
    have ih := checkAdjacentNE_iff_nodup (y :: l) hs2
    have hx : ∀ b ∈ y :: l, x ≤ b := fun b hb => List.rel_of_sorted_cons hs b hb
    have hy : ∀ b ∈ l, y ≤ b := fun b hb => List.rel_of_sorted_cons hs2 b hb
    rw [checkAdjacentNE, Bool.and_eq_true, ih, List.nodup_cons (a := x)]
    constructor
    · rintro ⟨hne, hnd⟩
      refine ⟨?_, hnd⟩
      intro hmem
      have hxy : x ≠ y := by simpa using hne
      rcases List.mem_cons.mp hmem with h | h
      · exact hxy h
      · have h1 := hy x h
        have h2 := hx y (by simp)
        omega
    · rintro ⟨hnm, hnd⟩
      refine ⟨?_, hnd⟩
      have : x ≠ y := fun h => hnm (by simp [h])
      simpa using this

theorem allAxes_length (rank : Nat) : (allAxes rank).length = rank := by
  simp [allAxes]

theorem rawAxes_ne_nil (dim : List Int) (rank : Nat) (hrank : 1 ≤ rank) :
    (if dim.isEmpty then allAxes rank else dim) ≠ [] := by
  cases dim with
  | nil =>
    simp only [List.isEmpty_nil, if_true]
    intro h
    have := congrArg List.length h
    rw [allAxes_length] at this
    simp at this
    omega
  | cons a l => simp

/-! ## `WithoutLastDimInReduce` -/

theorem any_last_axis_iff (rank : Nat) (axes : List Int) (hrank : 1 ≤ rank) (hr : rank < 2 ^ 31)
    (hlo : ∀ a ∈ axes, -2 ^ 31 ≤ a) (hhi : ∀ a ∈ axes, a < rank) :
    axes.any (fun a => toSizeT a == toSizeT ((rank : Int) - 1)) = true ↔
      ((rank : Int) - 1) ∈ axes := by
  rw [List.any_eq_true]
  constructor
  · rintro ⟨a, ha, h⟩
    have h1 := hlo a ha
    have h2 := hhi a ha
    simp only [beq_iff_eq, toSizeT] at h
    have : a = (rank : Int) - 1 := by omega
    exact this ▸ ha
  · intro h
    exact ⟨_, h, by simp⟩

theorem any_minus_one_iff (axes : List Int) :
    axes.any (fun a => a == -1) = true ↔ (-1 : Int) ∈ axes := by
  rw [List.any_eq_true]
  constructor
  · rintro ⟨a, ha, h⟩
    simp only [beq_iff_eq] at h
    exact h ▸ ha
  · intro h
    exact ⟨_, h, by simp⟩

/-- Claim C1 at the failing input.  The shape `[2, 65536, 65536]` with axes `{0}` is a
validated input (rank 3, one axis, `0 < 3`); the axes contain neither `2` nor `-1` and the
extents after axis 0 multiply to `2 ^ 32 > 1`, yet the `int` accumulator `sum_last_axes`
leaves the 32-bit range (undefined in C++, 0 with two's complement wrapping) and
`WithoutLastDimInReduce` returns false. -/
theorem WithoutLastDimInReduce_overflow :
    (1 ≤ ([2, 65536, 65536] : List Int).length ∧
      ([0] : List Int).getLast? = some 0 ∧ (0 : Int) < ([2, 65536, 65536] : List Int).length) ∧
    (((([2, 65536, 65536] : List Int).length : Int) - 1 ∉ ([0] : List Int) ∧
        (-1 : Int) ∉ ([0] : List Int)) ∧
      1 < (([2, 65536, 65536] : List Int).drop ((0 : Int) + 1).toNat).prod) ∧
    WithoutLastDimInReduce [2, 65536, 65536] [0] = false := by
  decide

/-- Inside the `int` range `WithoutLastDimInReduce` is the test on the trailing product.
For every input shape of rank at least 1 and every validated
reduce-axes list (non-empty with last element `back`, sorted, so that `back` is the largest
axis, `0 ≤ back < rank`), provided the product of the extents after the largest reduced axis
fits a signed 32-bit `int`, `WithoutLastDimInReduce` returns true if and only if the axes
contain neither `rank - 1` nor `-1` and that product is greater than 1.  In particular it
returns false for every shape `[H, 1]` reduced over `{0}`.  (The rank is an `int`-sized
count and the axes are `int` values.) -/
theorem WithoutLastDimInReduce_iff (inshape axes : List Int) (back : Int)
    (hrank : 1 ≤ inshape.length) (hsize : inshape.length < 2 ^ 31)
    (hlast : axes.getLast? = some back) (hsorted : axes.Sorted (· ≤ ·))
    (hint : ∀ a ∈ axes, -2 ^ 31 ≤ a)
    (hback : 0 ≤ back ∧ back < inshape.length)
    (hprod : -2 ^ 31 ≤ (inshape.drop (back + 1).toNat).prod ∧
      (inshape.drop (back + 1).toNat).prod < 2 ^ 31) :
    (WithoutLastDimInReduce inshape axes = true ↔
      (((inshape.length : Int) - 1 ∉ axes ∧ (-1 : Int) ∉ axes) ∧
        1 < (inshape.drop (back + 1).toNat).prod)) ∧
    (∀ H : Int, WithoutLastDimInReduce [H, 1] [0] = false) := by
  refine ⟨?_, ?_⟩
  · have hne : axes ≠ [] := by
      intro h; rw [h] at hlast; simp at hlast
    have hbk : axes.getLast hne = back := by
      rw [List.getLast?_eq_getLast _ hne] at hlast
      exact Option.some.inj hlast
    have hhi : ∀ a ∈ axes, a < inshape.length := fun a ha =>
      lt_of_le_of_lt (hbk ▸ le_getLast_of_sorted axes hne hsorted a ha) hback.2
    have hA := any_last_axis_iff inshape.length axes hrank hsize hint hhi
    have hB := any_minus_one_iff axes
    have hlastD : axes.getLastD 0 = back := by
      rw [List.getLastD_eq_getLast?, hlast]; rfl
    unfold WithoutLastDimInReduce
    by_cases h1 : ((inshape.length : Int) - 1) ∈ axes
    · simp [hA.mpr h1, h1]
    by_cases h2 : (-1 : Int) ∈ axes
    · simp [hB.mpr h2, h2]
    have hA2 : axes.any (fun a => toSizeT a == toSizeT ((inshape.length : Int) - 1)) = false := by
      rw [← Bool.not_eq_true, hA]; exact h1
    have hB2 : axes.any (fun a => a == -1) = false := by
      rw [← Bool.not_eq_true, hB]; exact h2
    have hidx : wrapInt32 (back + 1) = back + 1 :=
      wrapInt32_of_range (by omega) (by omega)
    have hidx2 : toSizeT (back + 1) = back + 1 := by
      unfold toSizeT; omega
    simp only [hA2, hB2, hlastD, hidx, hidx2, Bool.or_self, Bool.false_eq_true, if_false,
      sum_last_axes_eq]
    by_cases hlt : back + 1 < (inshape.length : Int)
    · simp only [hlt, if_true, wrapInt32_of_range hprod.1 hprod.2]
      simp [h1, h2]
    · exfalso
      apply h1
      have : back = (inshape.length : Int) - 1 := by omega
      rw [← this, ← hbk]
      exact List.getLast_mem hne
  · intro H
    simp [WithoutLastDimInReduce, toSizeT, wrapInt32]

/-- The shape `[4, 8, 16]` reduced over `{0}` is inside the `int` range: the trailing product is
`8 * 16 = 128` and the function returns true. -/
theorem WithoutLastDimInReduce_iff_witness :
    (WithoutLastDimInReduce [4, 8, 16] [0] = true ↔
      (((([4, 8, 16] : List Int).length : Int) - 1 ∉ ([0] : List Int) ∧
          (-1 : Int) ∉ ([0] : List Int)) ∧
        1 < (([4, 8, 16] : List Int).drop ((0 : Int) + 1).toNat).prod)) ∧
    (∀ H : Int, WithoutLastDimInReduce [H, 1] [0] = false) :=
  WithoutLastDimInReduce_iff [4, 8, 16] [0] 0 (by decide) (by decide) (by decide) (by decide)
    (by decide) (by decide) (by decide)

/-! ## Axis validation -/

/-- Claim C9.  For an input of rank at least 1, `StrategyForReduce` ends in a fatal error if
and only if the `dim` attribute is absent or, with the axes taken as all axes when `dim` is
empty and as `dim` otherwise: the number of axes exceeds the rank, or the largest axis `m`
is not below the rank in the unsigned comparison (`toSizeT m < rank` fails, which rejects a
negative `m`), or two axes are equal. -/
theorem StrategyForReduce_fails_iff (attrs : NodeAttr) (inshape : List Int)
    (hrank : 1 ≤ inshape.length) :
    completes (StrategyForReduce attrs inshape) = false ↔
      (attrs.dim = none ∨
        ∃ dim, attrs.dim = some dim ∧
          (inshape.length < (if dim.isEmpty then allAxes inshape.length else dim).length ∨
           (∃ m ∈ (if dim.isEmpty then allAxes inshape.length else dim),
              (∀ a ∈ (if dim.isEmpty then allAxes inshape.length else dim), a ≤ m) ∧
              ¬ toSizeT m < inshape.length) ∨
           ¬ (if dim.isEmpty then allAxes inshape.length else dim).Nodup)) := by
  obtain ⟨dim, keep⟩ := attrs
  cases dim with
  | none => simp [StrategyForReduce, completes]
  | some dim =>
    simp only [StrategyForReduce, false_or, Option.some.injEq, exists_eq_left', reduceCtorEq]
    generalize hraw : (if dim.isEmpty then allAxes inshape.length else dim) = raw
    have hrawne : raw ≠ [] := hraw ▸ rawAxes_ne_nil dim inshape.length hrank
    have hperm : (raw.insertionSort (· ≤ ·)).Perm raw := List.perm_insertionSort _ raw
    have hsorted : (raw.insertionSort (· ≤ ·)).Sorted (· ≤ ·) := List.sorted_insertionSort _ raw
    have hlen : (raw.insertionSort (· ≤ ·)).length = raw.length := hperm.length_eq
    have hsne : raw.insertionSort (· ≤ ·) ≠ [] := by
      intro h; rw [h] at hperm; exact hrawne hperm.symm.eq_nil
    have hmax := le_getLast_of_sorted _ hsne hsorted
    have hmem := List.getLast_mem hsne
    rw [List.getLast?_eq_getLast _ hsne]
    simp only [hlen]
    have hadj := checkAdjacentNE_iff_nodup _ hsorted
    have hnd : (raw.insertionSort (· ≤ ·)).Nodup ↔ raw.Nodup := hperm.nodup_iff
    have hmaxiff : (∃ m ∈ raw, (∀ a ∈ raw, a ≤ m) ∧ ¬ toSizeT m < inshape.length) ↔
        ¬ toSizeT ((raw.insertionSort (· ≤ ·)).getLast hsne) < inshape.length := by
      constructor
      · rintro ⟨m, hm, hub, hnot⟩
        have h1 : m ≤ (raw.insertionSort (· ≤ ·)).getLast hsne := hmax m (hperm.mem_iff.mpr hm)
        have h2 : (raw.insertionSort (· ≤ ·)).getLast hsne ≤ m := hub _ (hperm.mem_iff.mp hmem)
        have : (raw.insertionSort (· ≤ ·)).getLast hsne = m := le_antisymm h2 h1
        rw [this]; exact hnot
      · intro h
        exact ⟨_, hperm.mem_iff.mp hmem, fun a ha => hmax a (hperm.mem_iff.mpr ha), h⟩
    rw [hmaxiff, ← hnd, ← hadj]
    by_cases c1 : raw.length ≤ inshape.length
    · by_cases c2 : toSizeT ((raw.insertionSort (· ≤ ·)).getLast hsne) < inshape.length
      · by_cases c3 : checkAdjacentNE (raw.insertionSort (· ≤ ·)) = true
        · simp [c1, c2, c3, completes]
        · simp [c1, c2, c3, completes]
      · simp [c1, c2, completes]
    · simp [c1, completes]
      omega

/-- Claim C9 at rank 2: the axes `{1, 1}` are rejected because two axes are equal, the axis
`{-1}` because it is not below the rank as an unsigned value, and `{1, 0}` is accepted. -/
theorem StrategyForReduce_fails_iff_witness :
    completes (StrategyForReduce ⟨some [1, 1], none⟩ [3, 4]) = false ∧
    completes (StrategyForReduce ⟨some [-1], none⟩ [3, 4]) = false ∧
    StrategyForReduce ⟨some [1, 0], some true⟩ [3, 4] = .ok ⟨[0, 1], true⟩ :=
  ⟨(StrategyForReduce_fails_iff ⟨some [1, 1], none⟩ [3, 4] (by decide)).mpr
      (Or.inr ⟨[1, 1], rfl, Or.inr (Or.inr (by decide))⟩),
   (StrategyForReduce_fails_iff ⟨some [-1], none⟩ [3, 4] (by decide)).mpr
      (Or.inr ⟨[-1], rfl, Or.inr (Or.inl ⟨-1, by decide, by decide, by decide⟩)⟩),
   rfl⟩

/-! ## Branch selection of the schedule -/

section ScheduleTheorems
variable {V E T S M Tg : Type}

theorem WithoutLastDimInReduce_HW (H W : Int) (hW : 1 < W) (hW32 : W < 2 ^ 31) :
    WithoutLastDimInReduce [H, W] [0] = true ∧ WithoutLastDimInReduce [H, W] [1] = false := by
  have h2 : (W + 2147483648) % 4294967296 = W + 2147483648 :=
    Int.emod_eq_of_lt (by omega) (by omega)
  constructor
  · simp [WithoutLastDimInReduce, toSizeT, wrapInt32, h2, hW]
  · simp [WithoutLastDimInReduce, toSizeT]

/-- Claim C2.  On an NVGPU target, for every input shape `[H, W]` with `H ≥ 1` and `W > 1`
(`W` an `int` extent), in both scheduling modes and for every argument pack: the axes `{0}`
and `{1}` pass the validation of `StrategyForReduce` unchanged; reducing axes
`{0}` takes the without-last-dim branch, so a completed run called `ScheduleReduce` (pack
size 2) or block-shuffle-reduce (pack size 5 in IR-schedule mode, 4 in legacy mode) and no
other family; reducing axes `{1}` takes the with-last-dim branch, so a completed run called
block-reduce-internal, block-reduce or two-step block-reduce and never
`ScheduleReduce` or shuffle.  A pack of any other size selects no family. -/
theorem reduce_branch_selection (X : Externals V E T S M Tg) (flag : Bool) (target : Tg)
    (op_name : String) (H W : Int) (keep_dim : Bool) (arg_pack : List V) (rest : List (List V))
    (hgpu : X.arch_is_NVGPU target = true) (_hH : 1 ≤ H) (hW : 1 < W) (hW32 : W < 2 ^ 31) :
    (StrategyForReduce ⟨some [0], some keep_dim⟩ [H, W] = .ok ⟨[0], keep_dim⟩ ∧
      StrategyForReduce ⟨some [1], some keep_dim⟩ [H, W] = .ok ⟨[1], keep_dim⟩) ∧
    (WithoutLastDimInReduce [H, W] [0] = true ∧
      selectedFamily (reduction_schedule X flag target op_name [H, W] ⟨[0], keep_dim⟩
          (arg_pack :: rest)) =
        (if arg_pack.length = 2 then some Family.ScheduleReduce
         else if arg_pack.length = (if flag then 5 else 4) then some Family.BlockShuffleReduce
         else none)) ∧
    (WithoutLastDimInReduce [H, W] [1] = false ∧
      selectedFamily (reduction_schedule X flag target op_name [H, W] ⟨[1], keep_dim⟩
          (arg_pack :: rest)) =
        (if flag then
          (if arg_pack.length = 4 then some Family.BlockReduceInternal
           else if arg_pack.length = 5 ∨ arg_pack.length = 6 then some Family.BlockReduce
           else if arg_pack.length = 7 then some Family.TwoStepBlockReduce
           else none)
         else
          (if arg_pack.length = 3 then some Family.BlockReduceInternal
           else if arg_pack.length = 4 then some Family.BlockReduce
           else if arg_pack.length = 5 then some Family.TwoStepBlockReduce
           else none))) := by
  obtain ⟨h0, h1⟩ := WithoutLastDimInReduce_HW H W hW hW32
  refine ⟨⟨?_, ?_⟩, ⟨h0, ?_⟩, ⟨h1, ?_⟩⟩
  · simp [StrategyForReduce, toSizeT, checkAdjacentNE]
  · simp [StrategyForReduce, toSizeT, checkAdjacentNE]
  · cases flag <;>
    rcases arg_pack with _ | ⟨a, _ | ⟨b, _ | ⟨c, _ | ⟨d, _ | ⟨e, _ | ⟨f, _ | ⟨g, _ | ⟨h, _ | ⟨i, tl⟩⟩⟩⟩⟩⟩⟩⟩⟩ <;>
    simp [reduction_schedule, reduction_schedule_ir_nvgpu, reduction_schedule_legacy_nvgpu,
      packAt, packBack, hgpu, h0, bind, Except.bind, pure, Except.pure, selectedFamily,
      ReduceSchedule.family, irScheduleBranch]
  · cases flag <;>
    rcases arg_pack with _ | ⟨a, _ | ⟨b, _ | ⟨c, _ | ⟨d, _ | ⟨e, _ | ⟨f, _ | ⟨g, _ | ⟨h, _ | ⟨i, tl⟩⟩⟩⟩⟩⟩⟩⟩⟩ <;>
    simp [reduction_schedule, reduction_schedule_ir_nvgpu, reduction_schedule_legacy_nvgpu,
      packAt, packBack, hgpu, h1, bind, Except.bind, pure, Except.pure, selectedFamily,
      ReduceSchedule.family, irScheduleBranch]

end ScheduleTheorems

/-- Claim C2 on the shape `[32, 512]` in IR-schedule mode with a pack of 7 values: axes `{0}`
select no family for that size and axes `{1}` select the two-step block-reduce. -/
theorem reduce_branch_selection_witness :
    (StrategyForReduce ⟨some [0], some false⟩ [32, 512] = .ok ⟨[0], false⟩ ∧
      StrategyForReduce ⟨some [1], some false⟩ [32, 512] = .ok ⟨[1], false⟩) ∧
    (WithoutLastDimInReduce [32, 512] [0] = true ∧
      selectedFamily (reduction_schedule demoExternals true true "reduce_sum" [32, 512]
        ⟨[0], false⟩ ([1, 2, 3, 4, 500, 501, 502] :: [])) = none) ∧
    (WithoutLastDimInReduce [32, 512] [1] = false ∧
      selectedFamily (reduction_schedule demoExternals true true "reduce_sum" [32, 512]
        ⟨[1], false⟩ ([1, 2, 3, 4, 500, 501, 502] :: [])) = some Family.TwoStepBlockReduce) :=
  reduce_branch_selection demoExternals true true "reduce_sum" 32 512 false
    [1, 2, 3, 4, 500, 501, 502] [] rfl (by decide) (by decide) (by decide)

/-! ## Dispatch on the size of the argument pack -/

section DispatchTheorems
variable {V E T S M Tg : Type}

/-- Claim C3.  On an NVGPU target when `WithoutLastDimInReduce` is false the schedule picks
its family from the number of tensors in the pack.  IR-schedule mode: a pack of 4 (2 tensors,
2 expressions) calls block-reduce-internal, a pack of 5 or 6 (3 tensors, 2 or 3 expressions)
calls block-reduce, a pack of 7 (4 tensors, 3 expressions) calls the two-step block-reduce
with `reshape, reduce_tmp_out, tmp_out, out` read from positions 3, 2, 1, 0.  Legacy mode:
packs of 3, 4, 5 whose last element is the stage map call the same three families, the
two-step one again with positions 3, 2, 1, 0, and the pack itself is returned. -/
theorem reduction_schedule_with_last_dim (X : Externals V E T S M Tg) (target : Tg)
    (op_name : String) (inshape : List Int) (env : ReduceEnv) (rest : List (List V))
    (hgpu : X.arch_is_NVGPU target = true)
    (hlast : WithoutLastDimInReduce inshape env.reduce_axes = false) :
    (∀ out tmp_out expr0 expr1 : V,
      reduction_schedule X true target op_name inshape env ([out, tmp_out, expr0, expr1] :: rest)
        = .ok (irScheduleBranch X [X.toExpr expr0, X.toExpr expr1]
            (.IRCudaScheduleBlockReduceInternal (X.tensorRef tmp_out) (X.tensorRef out) target))) ∧
    (∀ out tmp_out reduce_tmp_out expr0 expr1 : V,
      reduction_schedule X true target op_name inshape env
          ([out, tmp_out, reduce_tmp_out, expr0, expr1] :: rest)
        = .ok (irScheduleBranch X [X.toExpr expr0, X.toExpr expr1]
            (.IRCudaScheduleBlockReduce (X.tensorRef reduce_tmp_out) (X.tensorRef tmp_out)
              (X.tensorRef out) X.DefaultNVGPUTarget))) ∧
    (∀ out tmp_out reduce_tmp_out expr0 expr1 expr2 : V,
      reduction_schedule X true target op_name inshape env
          ([out, tmp_out, reduce_tmp_out, expr0, expr1, expr2] :: rest)
        = .ok (irScheduleBranch X [X.toExpr expr0, X.toExpr expr1, X.toExpr expr2]
            (.IRCudaScheduleBlockReduce (X.tensorRef reduce_tmp_out) (X.tensorRef tmp_out)
              (X.tensorRef out) target))) ∧
    (∀ out tmp_out reduce_tmp_out reshape expr0 expr1 expr2 : V,
      reduction_schedule X true target op_name inshape env
          ([out, tmp_out, reduce_tmp_out, reshape, expr0, expr1, expr2] :: rest)
        = .ok (irScheduleBranch X [X.toExpr expr0, X.toExpr expr1, X.toExpr expr2]
            (.IRCudaTwoStepReduceSchedule (X.tensorRef reshape) (X.tensorRef reduce_tmp_out)
              (X.tensorRef tmp_out) (X.tensorRef out) X.DefaultNVGPUTarget))) ∧
    (∀ out tmp_out stages : V,
      reduction_schedule X false target op_name inshape env ([out, tmp_out, stages] :: rest)
        = .ok { vec_ast := none,
                call := some (.CudaBlockReduceInternalSchedule (X.toStageMap stages)
                  (X.tensorRef tmp_out) (X.tensorRef out) X.DefaultNVGPUTarget),
                ret := some [out, tmp_out, stages] }) ∧
    (∀ out tmp_out reduce_tmp_out stages : V,
      reduction_schedule X false target op_name inshape env
          ([out, tmp_out, reduce_tmp_out, stages] :: rest)
        = .ok { vec_ast := none,
                call := some (.CudaBlockReduceSchedule (X.toStageMap stages)
                  (X.tensorRef reduce_tmp_out) (X.tensorRef tmp_out) (X.tensorRef out)
                  X.DefaultNVGPUTarget),
                ret := some [out, tmp_out, reduce_tmp_out, stages] }) ∧
    (∀ out tmp_out reduce_tmp_out reshape stages : V,
      reduction_schedule X false target op_name inshape env
          ([out, tmp_out, reduce_tmp_out, reshape, stages] :: rest)
        = .ok { vec_ast := none,
                call := some (.CudaTwoStepReduceSchedule (X.toStageMap stages)
                  (X.tensorRef reshape) (X.tensorRef reduce_tmp_out) (X.tensorRef tmp_out)
                  (X.tensorRef out) X.DefaultNVGPUTarget),
                ret := some [out, tmp_out, reduce_tmp_out, reshape, stages] }) := by
  refine ⟨?_, ?_, ?_, ?_, ?_, ?_, ?_⟩ <;> intros <;>
  simp [reduction_schedule, reduction_schedule_ir_nvgpu, reduction_schedule_legacy_nvgpu,
    packAt, packBack, hgpu, hlast, bind, Except.bind, pure, Except.pure, Externals.tensorRef]

/-- Claim C4.  In IR-schedule mode on an NVGPU target the schedule completes without a fatal
error if and only if the size of the argument pack is 4, 5, 6 or 7 when the last dimension
is reduced (`WithoutLastDimInReduce` false) and 2 or 5 when it is not; every other size,
below 2 and above 8 included, is a fatal error. -/
theorem reduction_schedule_ir_completes_iff (X : Externals V E T S M Tg) (target : Tg)
    (op_name : String) (inshape : List Int) (env : ReduceEnv) (arg_pack : List V)
    (rest : List (List V)) (hgpu : X.arch_is_NVGPU target = true) :
    completes (reduction_schedule X true target op_name inshape env (arg_pack :: rest)) = true ↔
      (if WithoutLastDimInReduce inshape env.reduce_axes = false then
        arg_pack.length = 4 ∨ arg_pack.length = 5 ∨ arg_pack.length = 6 ∨ arg_pack.length = 7
      else arg_pack.length = 2 ∨ arg_pack.length = 5) := by
  cases hW : WithoutLastDimInReduce inshape env.reduce_axes <;>
  rcases arg_pack with _ | ⟨a, _ | ⟨b, _ | ⟨c, _ | ⟨d, _ | ⟨e, _ | ⟨f, _ | ⟨g, _ | ⟨h, _ | ⟨i, tl⟩⟩⟩⟩⟩⟩⟩⟩⟩ <;>
  simp [reduction_schedule, reduction_schedule_ir_nvgpu, packAt, completes, hgpu, hW, bind,
    Except.bind, pure, Except.pure]

/-- Claim C5.  In legacy mode on an NVGPU target, with the last dimension reduced a completed
run called block-reduce-internal exactly for pack size 3, block-reduce exactly for size 4 and
two-step block-reduce exactly for size 5; without it, `ScheduleReduce` exactly for size 2 and
block-shuffle-reduce exactly for size 4.  For every other size no family is selected, and
selecting no family is the same as ending in a fatal error, which in this closure happens
before the call of the primitive (the call is the last step of each branch).  A pack of
size 2 with the last dimension reduced enters the final `else` branch and stops at its read
of `arg_pack[2]`. -/
theorem reduction_schedule_legacy_dispatch (X : Externals V E T S M Tg) (target : Tg)
    (op_name : String) (inshape : List Int) (env : ReduceEnv) (arg_pack : List V)
    (rest : List (List V)) (hgpu : X.arch_is_NVGPU target = true) :
    selectedFamily (reduction_schedule X false target op_name inshape env (arg_pack :: rest)) =
      (if WithoutLastDimInReduce inshape env.reduce_axes = false then
        (if arg_pack.length = 3 then some Family.BlockReduceInternal
         else if arg_pack.length = 4 then some Family.BlockReduce
         else if arg_pack.length = 5 then some Family.TwoStepBlockReduce
         else none)
      else
        (if arg_pack.length = 2 then some Family.ScheduleReduce
         else if arg_pack.length = 4 then some Family.BlockShuffleReduce
         else none)) ∧
    (completes (reduction_schedule X false target op_name inshape env (arg_pack :: rest)) = false ↔
      selectedFamily (reduction_schedule X false target op_name inshape env (arg_pack :: rest))
        = none) := by
  cases hW : WithoutLastDimInReduce inshape env.reduce_axes <;>
  rcases arg_pack with _ | ⟨a, _ | ⟨b, _ | ⟨c, _ | ⟨d, _ | ⟨e, _ | ⟨f, tl⟩⟩⟩⟩⟩⟩ <;>
  simp [reduction_schedule, reduction_schedule_legacy_nvgpu, packAt, packBack, completes, hgpu,
    hW, bind, Except.bind, pure, Except.pure, selectedFamily, ReduceSchedule.family]

/-- Claim C6.  On an NVGPU target when `WithoutLastDimInReduce` is true, a pack of size 2 (one
tensor, then the expression or the stage map) gets the single `ScheduleReduce`, and a pack
holding three tensors (size 5 in IR-schedule mode, 4 in legacy mode) gets
block-shuffle-reduce with element 2 as the reshape stage, element 1 as the internal
partial-reduce stage and element 0 as the final reduce output. -/
theorem reduction_schedule_without_last_dim (X : Externals V E T S M Tg) (target : Tg)
    (op_name : String) (inshape : List Int) (env : ReduceEnv) (rest : List (List V))
    (hgpu : X.arch_is_NVGPU target = true)
    (hnolast : WithoutLastDimInReduce inshape env.reduce_axes = true) :
    (∀ reduce_out expr0 : V,
      reduction_schedule X true target op_name inshape env ([reduce_out, expr0] :: rest)
        = .ok (irScheduleBranch X [X.toExpr expr0]
            (.IRCudaScheduleReduce (X.tensorRef reduce_out)
              (lastDimensionNum inshape env.reduce_axes) target))) ∧
    (∀ reduce_out stages : V,
      reduction_schedule X false target op_name inshape env ([reduce_out, stages] :: rest)
        = .ok { vec_ast := none,
                call := some (.CudaReduceSchedule (X.toStageMap stages) (X.tensorRef reduce_out)
                  (lastDimensionNum inshape env.reduce_axes) target),
                ret := some [reduce_out, stages] }) ∧
    (∀ reduce_out reduce_internal reduce_reshape expr0 expr1 : V,
      reduction_schedule X true target op_name inshape env
          ([reduce_out, reduce_internal, reduce_reshape, expr0, expr1] :: rest)
        = .ok (irScheduleBranch X [X.toExpr expr0, X.toExpr expr1]
            (.IRCudaScheduleBlockShuffleReduce (X.tensorRef reduce_reshape)
              (X.tensorRef reduce_internal) (X.tensorRef reduce_out) target))) ∧
    (∀ reduce_out reduce_internal reduce_reshape stages : V,
      reduction_schedule X false target op_name inshape env
          ([reduce_out, reduce_internal, reduce_reshape, stages] :: rest)
        = .ok { vec_ast := none,
                call := some (.CudaBlockShuffleReduceSchedule (X.toStageMap stages)
                  (X.tensorRef reduce_reshape) (X.tensorRef reduce_internal)
                  (X.tensorRef reduce_out) target),
                ret := some [reduce_out, reduce_internal, reduce_reshape, stages] }) := by
  refine ⟨?_, ?_, ?_, ?_⟩ <;> intros <;>
  simp [reduction_schedule, reduction_schedule_ir_nvgpu, reduction_schedule_legacy_nvgpu,
    packAt, packBack, hgpu, hnolast, bind, Except.bind, pure, Except.pure, Externals.tensorRef]

/-- Claim C7.  In IR-schedule mode on an NVGPU target, for every recognized pack size the
pack splits at some `k` into `k` tensors and a suffix of expressions: the `ModuleExpr` is
built from exactly the suffix in order, the tensor arguments of the primitive are exactly
the first `k` elements (the call lists them from last to first), the suffix has 1, 2, 2, 3,
3 expressions for sizes 2, 4, 5, 6, 7, and the returned pack holds exactly one value, the
first expression of the merged and scheduled module. -/
theorem reduction_schedule_ir_module (X : Externals V E T S M Tg) (target : Tg)
    (op_name : String) (inshape : List Int) (env : ReduceEnv) (arg_pack : List V)
    (rest : List (List V)) (hgpu : X.arch_is_NVGPU target = true)
    (hrec : if WithoutLastDimInReduce inshape env.reduce_axes = false then
        arg_pack.length = 4 ∨ arg_pack.length = 5 ∨ arg_pack.length = 6 ∨ arg_pack.length = 7
      else arg_pack.length = 2 ∨ arg_pack.length = 5) :
    ∃ (k : Nat) (call : ReduceSchedule T S Tg),
      reduction_schedule X true target op_name inshape env (arg_pack :: rest) =
        .ok { vec_ast := some ((arg_pack.drop k).map X.toExpr),
              call := some call,
              ret := some [X.ofExpr
                ((X.GetExprs (X.applySchedule call
                    (X.MergeExprs (X.IRSchedule ((arg_pack.drop k).map X.toExpr))))).head
                  (X.GetExprs_ne _))] } ∧
      call.tensorArgs.reverse = (arg_pack.take k).map X.tensorRef ∧
      (arg_pack.drop k).length =
        (if arg_pack.length = 2 then 1
         else if arg_pack.length = 4 ∨ arg_pack.length = 5 then 2 else 3) := by
  cases hW : WithoutLastDimInReduce inshape env.reduce_axes <;>
  rcases arg_pack with _ | ⟨a, _ | ⟨b, _ | ⟨c, _ | ⟨d, _ | ⟨e, _ | ⟨f, _ | ⟨g, _ | ⟨h, _ | ⟨i, tl⟩⟩⟩⟩⟩⟩⟩⟩⟩ <;>
  simp [hW] at hrec
  · exact ⟨2, .IRCudaScheduleBlockReduceInternal (X.tensorRef b) (X.tensorRef a) target, by
      simp [reduction_schedule, reduction_schedule_ir_nvgpu, packAt, hgpu, hW, bind, Except.bind,
        pure, Except.pure, Externals.tensorRef, irScheduleBranch, ReduceSchedule.tensorArgs]⟩
  · exact ⟨3, .IRCudaScheduleBlockReduce (X.tensorRef c) (X.tensorRef b) (X.tensorRef a)
      X.DefaultNVGPUTarget, by
      simp [reduction_schedule, reduction_schedule_ir_nvgpu, packAt, hgpu, hW, bind, Except.bind,
        pure, Except.pure, Externals.tensorRef, irScheduleBranch, ReduceSchedule.tensorArgs]⟩
  · exact ⟨3, .IRCudaScheduleBlockReduce (X.tensorRef c) (X.tensorRef b) (X.tensorRef a)
      target, by
      simp [reduction_schedule, reduction_schedule_ir_nvgpu, packAt, hgpu, hW, bind, Except.bind,
        pure, Except.pure, Externals.tensorRef, irScheduleBranch, ReduceSchedule.tensorArgs]⟩
  · exact ⟨4, .IRCudaTwoStepReduceSchedule (X.tensorRef d) (X.tensorRef c) (X.tensorRef b)
      (X.tensorRef a) X.DefaultNVGPUTarget, by
      simp [reduction_schedule, reduction_schedule_ir_nvgpu, packAt, hgpu, hW, bind, Except.bind,
        pure, Except.pure, Externals.tensorRef, irScheduleBranch, ReduceSchedule.tensorArgs]⟩
  · exact ⟨1, .IRCudaScheduleReduce (X.tensorRef a) (lastDimensionNum inshape env.reduce_axes)
      target, by
      simp [reduction_schedule, reduction_schedule_ir_nvgpu, packAt, hgpu, hW, bind, Except.bind,
        pure, Except.pure, Externals.tensorRef, irScheduleBranch, ReduceSchedule.tensorArgs]⟩
  · exact ⟨3, .IRCudaScheduleBlockShuffleReduce (X.tensorRef c) (X.tensorRef b) (X.tensorRef a)
      target, by
      simp [reduction_schedule, reduction_schedule_ir_nvgpu, packAt, hgpu, hW, bind, Except.bind,
        pure, Except.pure, Externals.tensorRef, irScheduleBranch, ReduceSchedule.tensorArgs]⟩

end DispatchTheorems

/-! ## The compute closure -/

section ComputeTheorems
variable {V E T S M Tg : Type}

/-- Claim C8.  Given a well-formed pack (`[x, name]` in IR-schedule mode, `[x]` in legacy
mode, `x` a tensor), the compute calls the with-last-axis block-reduce function when the
target equals the default NVGPU target and `WithoutLastDimInReduce` is false, the
without-last-axis shuffle-reduce function when the target equals it and the test is true,
and the plain CPU reduce function on every other target.  The returned pack is the produced
tensors in order followed by one stage map: its size is the number of tensors plus one, and
exactly 2 on the CPU path. -/
theorem reduction_compute_selects (X : Externals V E T S M Tg) (target : Tg) (op_name : String)
    (inshape : List Int) (env : ReduceEnv)
    (gpu_reduce_with_last_axis_func gpu_reduce_without_last_axis_func :
      T → List Int → Bool → String → List T)
    (cpu_reduce_func : T → List Int → Bool → String → T)
    (flag : Bool) (x name : V) (rest : List (List V))
    (htensor : (X.as_tensor (X.toExpr x)).isSome = true) :
    ∃ res : List T,
      res =
        (if X.target_eq target X.DefaultNVGPUTarget = true then
          (if WithoutLastDimInReduce inshape env.reduce_axes = false then
            gpu_reduce_with_last_axis_func (X.tensorRef x) env.reduce_axes env.keep_dim
              (if flag then X.toStdString name else X.UniqName (op_name ++ "_out"))
           else
            gpu_reduce_without_last_axis_func (X.tensorRef x) env.reduce_axes env.keep_dim
              (if flag then X.toStdString name else X.UniqName (op_name ++ "_out")))
         else
          [cpu_reduce_func (X.tensorRef x) env.reduce_axes env.keep_dim
            (if flag then X.toStdString name else X.UniqName (op_name ++ "_out"))]) ∧
      reduction_compute X flag target op_name inshape env gpu_reduce_with_last_axis_func
          gpu_reduce_without_last_axis_func cpu_reduce_func
          ((if flag then [x, name] else [x]) :: rest)
        = .ok (res.map X.ofTensor ++ [X.ofStageMap (X.CreateStages res)]) ∧
      (res.map X.ofTensor ++ [X.ofStageMap (X.CreateStages res)]).length = res.length + 1 ∧
      (X.target_eq target X.DefaultNVGPUTarget = false →
        (res.map X.ofTensor ++ [X.ofStageMap (X.CreateStages res)]).length = 2) := by
  obtain ⟨t, ht⟩ := Option.isSome_iff_exists.mp htensor
  refine ⟨_, rfl, ?_, by simp, ?_⟩
  · cases flag <;> cases hT : X.target_eq target X.DefaultNVGPUTarget <;>
    cases hW : WithoutLastDimInReduce inshape env.reduce_axes <;>
    simp [reduction_compute, packAt, ht, hT, hW, bind, Except.bind, pure, Except.pure,
      Externals.tensorRef, packOfTensors]
  · intro hT
    simp [hT]

/-- Claim C10.  The compute closure ends in a fatal error if and only if the argument list is
empty, or the first pack does not hold exactly 2 elements in IR-schedule mode (1 in legacy
mode), or its first element is not a tensor; on every other input it returns a pack. -/
theorem reduction_compute_fails_iff (X : Externals V E T S M Tg) (target : Tg) (op_name : String)
    (inshape : List Int) (env : ReduceEnv)
    (gpu_reduce_with_last_axis_func gpu_reduce_without_last_axis_func :
      T → List Int → Bool → String → List T)
    (cpu_reduce_func : T → List Int → Bool → String → T)
    (flag : Bool) (args : List (List V)) :
    completes (reduction_compute X flag target op_name inshape env gpu_reduce_with_last_axis_func
        gpu_reduce_without_last_axis_func cpu_reduce_func args) = false ↔
      (args = [] ∨
        ∃ arg_packs rest, args = arg_packs :: rest ∧
          (arg_packs.length ≠ (if flag then 2 else 1) ∨
            ∃ v, arg_packs.head? = some v ∧ X.as_tensor (X.toExpr v) = none)) := by
  cases args with
  | nil => simp [reduction_compute, completes]
  | cons arg_packs rest =>
    cases flag <;>
    rcases arg_packs with _ | ⟨a, _ | ⟨b, _ | ⟨c, tl⟩⟩⟩ <;>
    first
    | (simp [reduction_compute, packAt, completes, bind, Except.bind, pure, Except.pure]; done)
    | (cases ht : X.as_tensor (X.toExpr a) <;>
       cases hT : X.target_eq target X.DefaultNVGPUTarget <;>
       cases hW : WithoutLastDimInReduce inshape env.reduce_axes <;>
       simp [reduction_compute, packAt, completes, ht, hT, hW, bind, Except.bind, pure,
         Except.pure])

end ComputeTheorems

/-! ## The theorems at concrete inputs -/

/-- Claim C3 on the shape `[32, 512]` reduced over `{1}`: a pack of four tensors and three
expressions is scheduled by the two-step block-reduce with the tensors of positions
3, 2, 1, 0. -/
theorem reduction_schedule_with_last_dim_witness :
    reduction_schedule demoExternals true true "reduce_sum" [32, 512] ⟨[1], false⟩
        ([1, 2, 3, 4, 500, 501, 502] :: []) =
      .ok { vec_ast := some [500, 501, 502],
            call := some (.IRCudaTwoStepReduceSchedule 4 3 2 1 true),
            ret := some [1503] } :=
  (reduction_schedule_with_last_dim demoExternals true "reduce_sum" [32, 512] ⟨[1], false⟩ []
    rfl (by decide)).2.2.2.1 1 2 3 4 500 501 502

/-- Claim C4 on the shape `[32, 512]` reduced over `{1}`: a pack of size 4 completes and a
pack of size 2 is a fatal error. -/
theorem reduction_schedule_ir_completes_iff_witness :
    completes (reduction_schedule demoExternals true true "reduce_sum" [32, 512] ⟨[1], false⟩
        ([1, 2, 500, 501] :: [])) = true ∧
    ¬ completes (reduction_schedule demoExternals true true "reduce_sum" [32, 512] ⟨[1], false⟩
        ([1, 500] :: [])) = true :=
  ⟨(reduction_schedule_ir_completes_iff demoExternals true "reduce_sum" [32, 512] ⟨[1], false⟩
      [1, 2, 500, 501] [] rfl).mpr (by decide),
   fun h => by
    have h2 := (reduction_schedule_ir_completes_iff demoExternals true "reduce_sum" [32, 512]
      ⟨[1], false⟩ [1, 500] [] rfl).mp h
    revert h2
    decide⟩

/-- Claim C5 on the shape `[32, 512]` reduced over `{1}` in legacy mode: a pack of size 2
selects no family and ends in a fatal error. -/
theorem reduction_schedule_legacy_dispatch_witness :
    selectedFamily (reduction_schedule demoExternals false true "reduce_sum" [32, 512]
        ⟨[1], false⟩ ([1, 900] :: [])) = none ∧
    completes (reduction_schedule demoExternals false true "reduce_sum" [32, 512]
        ⟨[1], false⟩ ([1, 900] :: [])) = false :=
  ⟨(reduction_schedule_legacy_dispatch demoExternals true "reduce_sum" [32, 512] ⟨[1], false⟩
      [1, 900] [] rfl).1,
   (reduction_schedule_legacy_dispatch demoExternals true "reduce_sum" [32, 512] ⟨[1], false⟩
      [1, 900] [] rfl).2.mpr rfl⟩

/-- Claim C6 on the shape `[32, 512]` reduced over `{0}`: a pack of size 2 gets
`ScheduleReduce` with one trailing dimension. -/
theorem reduction_schedule_without_last_dim_witness :
    reduction_schedule demoExternals true true "reduce_sum" [32, 512] ⟨[0], false⟩
        ([1, 500] :: []) =
      .ok { vec_ast := some [500],
            call := some (.IRCudaScheduleReduce 1 1 true),
            ret := some [500] } :=
  (reduction_schedule_without_last_dim demoExternals true "reduce_sum" [32, 512] ⟨[0], false⟩ []
    rfl (by decide)).1 1 500

/-- Claim C7 on the shape `[32, 512]` reduced over `{1}` with a pack of size 6. -/
theorem reduction_schedule_ir_module_witness :
    ∃ (k : Nat) (call : ReduceSchedule Nat Nat Bool),
      reduction_schedule demoExternals true true "reduce_sum" [32, 512] ⟨[1], false⟩
          ([1, 2, 3, 500, 501, 502] :: []) =
        .ok { vec_ast := some ((([1, 2, 3, 500, 501, 502] : List Nat).drop k).map
                demoExternals.toExpr),
              call := some call,
              ret := some [demoExternals.ofExpr
                ((demoExternals.GetExprs (demoExternals.applySchedule call
                    (demoExternals.MergeExprs (demoExternals.IRSchedule
                      ((([1, 2, 3, 500, 501, 502] : List Nat).drop k).map
                        demoExternals.toExpr))))).head
                  (demoExternals.GetExprs_ne _))] } ∧
      call.tensorArgs.reverse =
        (([1, 2, 3, 500, 501, 502] : List Nat).take k).map demoExternals.tensorRef ∧
      (([1, 2, 3, 500, 501, 502] : List Nat).drop k).length =
        (if ([1, 2, 3, 500, 501, 502] : List Nat).length = 2 then 1
         else if ([1, 2, 3, 500, 501, 502] : List Nat).length = 4 ∨
            ([1, 2, 3, 500, 501, 502] : List Nat).length = 5 then 2 else 3) :=
  reduction_schedule_ir_module demoExternals true "reduce_sum" [32, 512] ⟨[1], false⟩
    [1, 2, 3, 500, 501, 502] [] rfl (by decide)

/-- Claim C8 on the default NVGPU target with the shape `[32, 512]` reduced over `{1}`: the
with-last-axis function is called and its two tensors are returned with one stage map. -/
theorem reduction_compute_selects_witness :
    ∃ res : List Nat,
      res = [7, 8] ∧
      reduction_compute demoExternals true true "reduce_sum" [32, 512] ⟨[1], false⟩
          (fun x _ _ _ => [x, x + 1]) (fun x _ _ _ => [x, x + 1, x + 2]) (fun x _ _ _ => x)
          ([7, 0] :: []) = .ok [7, 8, 2] ∧
      res.length + 1 = 3 := by
  obtain ⟨res, h1, h2, _, _⟩ := reduction_compute_selects demoExternals true "reduce_sum"
    [32, 512] ⟨[1], false⟩ (fun x _ _ _ => [x, x + 1]) (fun x _ _ _ => [x, x + 1, x + 2])
    (fun x _ _ _ => x) true 7 0 [] rfl
  have hres : res = [7, 8] := h1
  subst hres
  exact ⟨_, rfl, h2, rfl⟩

/-! ## The clip operator -/

/-- Claim C11.  `Clip(in, max_val, min_val)` produces one tensor of the shape of its input
whose element at every index is `max(min(in[i], max_val), min_val)` with the bounds cast to
the element type.  Hence, over a totally ordered element type: when the cast bounds satisfy
`min_val ≤ max_val` every output element lies in `[min_val, max_val]` and equals `in[i]`
whenever `in[i]` is already in that range, and when `min_val > max_val` every output element
equals `min_val`. -/
theorem Clip_spec {α F : Type} [LinearOrder α] (cast : F → α) (in_tensor : Tensor α)
    (max_val min_val : F) (output_name : String) :
    ∃ out : Tensor α,
      Clip cast in_tensor max_val min_val output_name = [out] ∧
      out.shape = in_tensor.shape ∧
      (∀ i, out.body i = max (min (in_tensor.body i) (cast max_val)) (cast min_val)) ∧
      (cast min_val ≤ cast max_val →
        ∀ i, (cast min_val ≤ out.body i ∧ out.body i ≤ cast max_val) ∧
          (cast min_val ≤ in_tensor.body i → in_tensor.body i ≤ cast max_val →
            out.body i = in_tensor.body i)) ∧
      (cast max_val < cast min_val → ∀ i, out.body i = cast min_val) := by
  refine ⟨_, rfl, rfl, fun _ => rfl, ?_, ?_⟩
  · intro hle i
    refine ⟨⟨le_max_right _ _, max_le (min_le_right _ _) hle⟩, ?_⟩
    intro h1 h2
    show max (min (in_tensor.body i) (cast max_val)) (cast min_val) = in_tensor.body i
    rw [min_eq_left h2, max_eq_left h1]
  · intro hlt i
    show max (min (in_tensor.body i) (cast max_val)) (cast min_val) = cast min_val
    exact max_eq_right (le_trans (min_le_right _ _) (le_of_lt hlt))

section ClipTheorems
variable {V E S M Tg α F : Type}

/-- Claim C12.  `StrategyForClip` ends in a fatal error if and only if the attribute map lacks
`max_val` or lacks `min_val`.  Its compute ends in a fatal error if and only if the argument
list is empty, the pack is empty, the pack does not hold exactly 2 elements in IR-schedule
mode, or the first element is not a tensor; otherwise it returns the clipped tensor followed
by one stage map. -/
theorem clip_strategy_errors [LinearOrder α] (X : Externals V E (Tensor α) S M Tg)
    (InsertLazily : S → Tensor α → S) (cast : F → α) (flag : Bool) (attrs : ClipAttr F)
    (env : ClipEnv F) (args : List (List V)) :
    (completes (StrategyForClip attrs) = false ↔
      (attrs.max_val = none ∨ attrs.min_val = none)) ∧
    (completes (clip_compute X InsertLazily cast flag env args) = false ↔
      (args = [] ∨
        ∃ pack_args rest, args = pack_args :: rest ∧
          (pack_args = [] ∨ (flag = true ∧ pack_args.length ≠ 2) ∨
            ∃ v, pack_args.head? = some v ∧ X.as_tensor (X.toExpr v) = none))) ∧
    (∀ out, clip_compute X InsertLazily cast flag env args = .ok out →
      ∃ (A : V) (name : String) (clipped : Tensor α),
        (args.head?.bind List.head?) = some A ∧
        Clip cast (X.tensorRef A) env.max_val env.min_val name = [clipped] ∧
        out = [X.ofTensor clipped,
               X.ofStageMap (InsertLazily (X.CreateStages [X.tensorRef A]) clipped)]) := by
  refine ⟨?_, ?_, ?_⟩
  · obtain ⟨mx, mn⟩ := attrs
    cases mx <;> cases mn <;> simp [StrategyForClip, completes]
  · cases args with
    | nil => simp [clip_compute, completes]
    | cons pack_args rest =>
      cases flag <;>
      rcases pack_args with _ | ⟨a, _ | ⟨b, _ | ⟨c, tl⟩⟩⟩ <;>
      first
      | (simp [clip_compute, packAt, completes, bind, Except.bind, pure, Except.pure]; done)
      | (cases ht : X.as_tensor (X.toExpr a) <;>
         simp [clip_compute, packAt, completes, ht, bind, Except.bind, pure, Except.pure])
  · intro out hout
    cases args with
    | nil => simp [clip_compute] at hout
    | cons pack_args rest =>
      cases flag <;>
      rcases pack_args with _ | ⟨a, _ | ⟨b, _ | ⟨c, tl⟩⟩⟩ <;>
      first
      | (simp [clip_compute, packAt, bind, Except.bind, pure, Except.pure] at hout; done)
      | (cases ht : X.as_tensor (X.toExpr a) <;>
         simp [clip_compute, packAt, ht, bind, Except.bind, pure, Except.pure, Clip] at hout
         subst hout
         exact ⟨a, _, _, rfl, rfl, rfl⟩)

end ClipTheorems

/-! ## Operator registration -/

/-- Claim C13.  Each of `reduce_sum`, `reduce_prod`, `reduce_max`, `reduce_min` is registered
with the pattern kind `kCommReduce`, with exactly 1 input and 1 output, and with the shared
inference functions `InferShapeForReduction`, `InferDtypeForReduction`,
`InferLayoutForReduction`. -/
theorem reduce_ops_registration (cuda : Bool) :
    ∀ op ∈ ["reduce_sum", "reduce_prod", "reduce_max", "reduce_min"],
      ∃ r ∈ registeredOps cuda,
        (registeredOps cuda).find? (fun r => r.name == op) = some r ∧
        r.name = op ∧ r.num_inputs = some 1 ∧ r.num_outputs = some 1 ∧
        opPatternOf (registeredOps cuda) op = some OpPatternKind.kCommReduce ∧
        getOpAttr (registeredOps cuda) op "infershape" =
          some (.opFunction "InferShapeForReduction") ∧
        getOpAttr (registeredOps cuda) op "inferdtype" =
          some (.opFunction "InferDtypeForReduction") ∧
        getOpAttr (registeredOps cuda) op "inferlayout" =
          some (.opFunction "InferLayoutForReduction") := by
  cases cuda <;> decide

/-- Claim C14 fails on the registrations of the source: the chains of `clip` and of `add` set
no `OpPattern` attribute, so the lookup of their pattern kind returns no value, while the
four reduction operators are registered with one. -/
theorem opPatternOf_clip_add_none (cuda : Bool) :
    (∃ r ∈ registeredOps cuda, r.name = "clip") ∧
    (∃ r ∈ registeredOps cuda, r.name = "add") ∧
    opPatternOf (registeredOps cuda) "clip" = none ∧
    opPatternOf (registeredOps cuda) "add" = none ∧
    (∀ r ∈ registeredOps cuda,
      (opPatternOf (registeredOps cuda) r.name).isSome = true ↔
        r.name ∈ ["reduce_sum", "reduce_prod", "reduce_max", "reduce_min"]) := by
  cases cuda <;> decide

/-- Claim C13 at `reduce_sum`. -/
theorem reduce_ops_registration_witness :
    ∃ r ∈ registeredOps true,
      (registeredOps true).find? (fun r => r.name == "reduce_sum") = some r ∧
      r.name = "reduce_sum" ∧ r.num_inputs = some 1 ∧ r.num_outputs = some 1 ∧
      opPatternOf (registeredOps true) "reduce_sum" = some OpPatternKind.kCommReduce ∧
      getOpAttr (registeredOps true) "reduce_sum" "infershape" =
        some (.opFunction "InferShapeForReduction") ∧
      getOpAttr (registeredOps true) "reduce_sum" "inferdtype" =
        some (.opFunction "InferDtypeForReduction") ∧
      getOpAttr (registeredOps true) "reduce_sum" "inferlayout" =
        some (.opFunction "InferLayoutForReduction") :=
  reduce_ops_registration true "reduce_sum" (by decide)

/-! ## The fusion pass -/

theorem Graph.feeds_lt_length {G : Graph} {u w : Nat} (h : G.feeds u w = true) :
    u < G.nodes.length ∧ w < G.nodes.length := by
  unfold Graph.feeds at h
  constructor
  · by_contra hu
    have : G.nodes[u]? = none := List.getElem?_eq_none (Nat.le_of_not_lt hu)
    simp [this] at h
  · by_contra hw
    have : G.nodes[w]? = none := List.getElem?_eq_none (Nat.le_of_not_lt hw)
    rw [this] at h
    cases hu : G.nodes[u]? <;> simp [hu] at h

theorem Graph.feeds_lt {G : Graph} (hac : G.acyclic = true) {u w : Nat}
    (h : G.feeds u w = true) : u < w := by
  obtain ⟨hu, hw⟩ := Graph.feeds_lt_length h
  unfold Graph.acyclic at hac
  rw [List.all_eq_true] at hac
  have h1 := hac w (List.mem_range.mpr hw)
  rw [List.all_eq_true] at h1
  have h2 := h1 u (List.mem_range.mpr hu)
  simpa [h] using h2

theorem Graph.mem_consumers {G : Graph} {v w : Nat} :
    w ∈ G.consumers v ↔ G.feeds v w = true := by
  unfold Graph.consumers
  rw [List.mem_filter, List.mem_range]
  constructor
  · exact fun h => h.2
  · exact fun h => ⟨(Graph.feeds_lt_length h).2, h⟩

theorem mem_membersOf {G : Graph} {a : Nat → Nat} {g u : Nat} :
    u ∈ membersOf G a g ↔ u < G.nodes.length ∧ a u = g := by
  unfold membersOf
  rw [List.mem_filter, List.mem_range]
  simp

/-- Whether a node is a fan-out node depends on the groups of its consumers only. -/
theorem fanOut_congr (G : Graph) (a b : Nat → Nat) (g : Nat)
    (h : ∀ w ∈ G.consumers g, a w = b w) : fanOut G a g = fanOut G b g := by
  unfold fanOut
  rw [Bool.eq_iff_iff]
  simp only [List.any_eq_true]
  constructor
  · rintro ⟨w1, hw1, w2, hw2, hne⟩
    exact ⟨w1, hw1, w2, hw2, by rw [← h w1 hw1, ← h w2 hw2]; exact hne⟩
  · rintro ⟨w1, hw1, w2, hw2, hne⟩
    exact ⟨w1, hw1, w2, hw2, by rw [h w1 hw1, h w2 hw2]; exact hne⟩

theorem fuseInv_zero (G : Graph) : FuseInv G id 0 where
  untouched := fun _ _ => rfl
  le_founder := fun _ => le_refl _
  founder_fixed := fun _ => rfl
  joined := fun _ h => absurd rfl h
  in_range := fun _ h => h
  sole := fun _ h => absurd rfl h

theorem fuseInv_step (G : Graph) (ok : Nat → FusionGroup → Bool) (hac : G.acyclic = true)
    (a : Nat → Nat) (k : Nat) (hk : k + 1 ≤ G.nodes.length) (inv : FuseInv G a k) :
    FuseInv G (fuseStep G ok a (G.nodes.length - (k + 1))) (k + 1) := by
  have hweak : FuseInv G a (k + 1) :=
    { inv with untouched := fun u hu => inv.untouched u (by omega) }
  unfold fuseStep
  cases hc : G.consumers (G.nodes.length - (k + 1)) with
  | nil => exact hweak
  | cons w ws =>
    simp only []
    split
    · rename_i hcond
      rw [Bool.and_eq_true, Bool.and_eq_true, List.all_eq_true] at hcond
      have hnofan : fanOut G a (a w) = false := by simpa using hcond.1.2
      have hall : ∀ w2 ∈ G.consumers (G.nodes.length - (k + 1)), a w2 = a w := by
        intro w2 hw2
        rw [hc] at hw2
        rcases List.mem_cons.mp hw2 with h | h
        · rw [h]
        · simpa using hcond.1.1 w2 h
      have hwmem : w ∈ G.consumers (G.nodes.length - (k + 1)) := by rw [hc]; simp
      have hfeed := Graph.mem_consumers.mp hwmem
      have hvw : G.nodes.length - (k + 1) < w := Graph.feeds_lt hac hfeed
      have hwn : w < G.nodes.length := (Graph.feeds_lt_length hfeed).2
      have hgw : w ≤ a w := inv.le_founder w
      have hav : a (G.nodes.length - (k + 1)) = G.nodes.length - (k + 1) :=
        inv.untouched _ (by omega)
      have hsame : ∀ g, G.nodes.length - (k + 1) < g →
          fanOut G (Function.update a (G.nodes.length - (k + 1)) (a w)) g = fanOut G a g := by
        intro g hg
        apply fanOut_congr
        intro w2 hw2
        have h1 : g < w2 := Graph.feeds_lt hac (Graph.mem_consumers.mp hw2)
        rw [Function.update_noteq (by omega)]
      refine ⟨?_, ?_, ?_, ?_, ?_, ?_⟩
      · intro u hu
        rw [Function.update_noteq (by omega)]
        exact inv.untouched u (by omega)
      · intro u
        by_cases huv : u = G.nodes.length - (k + 1)
        · subst huv; rw [Function.update_same]; omega
        · rw [Function.update_noteq huv]; exact inv.le_founder u
      · intro u
        by_cases huv : u = G.nodes.length - (k + 1)
        · subst huv
          rw [Function.update_same, Function.update_noteq (by omega)]
          exact inv.founder_fixed w
        · rw [Function.update_noteq huv]
          have hne : a u ≠ G.nodes.length - (k + 1) := by
            intro h
            have h1 := inv.le_founder u
            have h2 : u < G.nodes.length - (k + 1) := by omega
            have h3 := inv.untouched u (by omega)
            omega
          rw [Function.update_noteq hne]
          exact inv.founder_fixed u
      · intro u hu
        by_cases huv : u = G.nodes.length - (k + 1)
        · subst huv
          rw [Function.update_same]
          refine ⟨by rw [hc]; simp, ?_⟩
          intro w2 hw2
          have h1 : G.nodes.length - (k + 1) < w2 :=
            Graph.feeds_lt hac (Graph.mem_consumers.mp hw2)
          rw [Function.update_noteq (by omega)]
          exact hall w2 hw2
        · rw [Function.update_noteq huv] at hu ⊢
          obtain ⟨h1, h2⟩ := inv.joined u hu
          refine ⟨h1, ?_⟩
          intro w2 hw2
          have h3 : u < w2 := Graph.feeds_lt hac (Graph.mem_consumers.mp hw2)
          have hne : w2 ≠ G.nodes.length - (k + 1) := by
            intro h
            have h4 := inv.untouched u (by omega)
            exact hu h4
          rw [Function.update_noteq hne]
          exact h2 w2 hw2
      · intro u hu
        by_cases huv : u = G.nodes.length - (k + 1)
        · subst huv; rw [Function.update_same]; exact inv.in_range w hwn
        · rw [Function.update_noteq huv]; exact inv.in_range u hu
      · intro u hu
        by_cases huv : u = G.nodes.length - (k + 1)
        · subst huv
          rw [Function.update_same, hsame (a w) (by omega)]
          exact hnofan
        · rw [Function.update_noteq huv] at hu ⊢
          have hproc : ¬ (u < G.nodes.length - k ∨ G.nodes.length ≤ u) :=
            fun h => hu (inv.untouched u h)
          have hle := inv.le_founder u
          rw [hsame (a u) (by omega)]
          exact inv.sole u hu
    · exact hweak

theorem fuseInv_fuseFrom (G : Graph) (ok : Nat → FusionGroup → Bool) (hac : G.acyclic = true) :
    ∀ k, k ≤ G.nodes.length → FuseInv G (fuseFrom G ok k) k
  | 0, _ => fuseInv_zero G
  | k + 1, hk => fuseInv_step G ok hac _ k hk (fuseInv_fuseFrom G ok hac k (by omega))

theorem fuseInv_fusionAssign (G : Graph) (ok : Nat → FusionGroup → Bool)
    (hac : G.acyclic = true) : FuseInv G (fusionAssign G ok) G.nodes.length :=
  fuseInv_fuseFrom G ok hac G.nodes.length (le_refl _)

theorem mem_groupsOf {G : Graph} {a : Nat → Nat} {g : FusionGroup} :
    g ∈ groupsOf G a ↔ ∃ r, r < G.nodes.length ∧ a r = r ∧ g = membersOf G a r := by
  unfold groupsOf
  rw [List.mem_map]
  constructor
  · rintro ⟨r, hr, rfl⟩
    rw [List.mem_filter, List.mem_range] at hr
    exact ⟨r, hr.1, by simpa using hr.2, rfl⟩
  · rintro ⟨r, hr, har, rfl⟩
    exact ⟨r, by rw [List.mem_filter, List.mem_range]; exact ⟨hr, by simpa using har⟩, rfl⟩

theorem groupsOf_partition (G : Graph) (a : Nat → Nat) (k : Nat) (inv : FuseInv G a k) :
    (∀ v, v < G.nodes.length → ∃! g, g ∈ groupsOf G a ∧ v ∈ g) ∧
    (∀ g ∈ groupsOf G a, ∀ u ∈ g, u < G.nodes.length) := by
  constructor
  · intro v hv
    refine ⟨membersOf G a (a v), ⟨?_, ?_⟩, ?_⟩
    · exact mem_groupsOf.mpr ⟨a v, inv.in_range v hv, inv.founder_fixed v, rfl⟩
    · exact mem_membersOf.mpr ⟨hv, rfl⟩
    · rintro g ⟨hg, hvg⟩
      obtain ⟨r, _, _, rfl⟩ := mem_groupsOf.mp hg
      rw [(mem_membersOf.mp hvg).2]
  · intro g hg u hu
    obtain ⟨r, _, _, rfl⟩ := mem_groupsOf.mp hg
    exact (mem_membersOf.mp hu).1

theorem OpFusionPass_eq (G : Graph) (hac : G.acyclic = true) (hsh : G.shapesPopulated = true) :
    OpFusionPass G = .ok (groupsOf G (fusionAssign G (fusible G))) := by
  simp [OpFusionPass, hac, hsh]

/-- A node that only itself is assigned to founds the singleton group. -/
theorem membersOf_singleton (G : Graph) (a : Nat → Nat) (v : Nat) (hv : v < G.nodes.length)
    (h : ∀ u, a u = v ↔ u = v) : membersOf G a v = [v] := by
  unfold membersOf
  have hfun : (fun u => a u == v) = (fun u => u == v) := by
    funext u
    by_cases hu : u = v
    · simp [hu, (h v).mpr rfl]
    · have : a u ≠ v := fun h2 => hu ((h u).mp h2)
      simp [hu, this]
  rw [hfun, List.filter_beq,
    List.count_eq_one_of_mem (List.nodup_range _) (List.mem_range.mpr hv)]
  rfl

/-- A node whose consumers lie in different groups founds a group that no consumer and no
other node is assigned to. -/
theorem fusion_fan_out (G : Graph) (hac : G.acyclic = true) (a : Nat → Nat) (k : Nat)
    (inv : FuseInv G a k) (v w1 w2 : Nat) (h1 : w1 ∈ G.consumers v) (h2 : w2 ∈ G.consumers v)
    (hdiff : a w1 ≠ a w2) :
    a w1 ≠ v ∧ a w2 ≠ v ∧ ∀ u, a u = v ↔ u = v := by
  have hv : a v = v := by
    by_contra hcon
    have h := (inv.joined v hcon).2
    exact hdiff ((h w1 h1).trans (h w2 h2).symm)
  have hlt1 : v < w1 := Graph.feeds_lt hac (Graph.mem_consumers.mp h1)
  have hlt2 : v < w2 := Graph.feeds_lt hac (Graph.mem_consumers.mp h2)
  have hle1 := inv.le_founder w1
  have hle2 := inv.le_founder w2
  have hfan : fanOut G a v = true := by
    unfold fanOut
    rw [List.any_eq_true]
    refine ⟨w1, h1, ?_⟩
    rw [List.any_eq_true]
    exact ⟨w2, h2, by simpa using hdiff⟩
  refine ⟨by omega, by omega, ?_⟩
  intro u
  constructor
  · intro hu
    by_contra hne
    have := inv.sole u (by rw [hu]; exact fun h => hne h.symm)
    rw [hu, hfan] at this
    exact absurd this (by simp)
  · intro hu
    rw [hu, hv]

/-! ## The fusion-merge pass -/

theorem mem_groupPairs {n : Nat} {ij : Nat × Nat} (h : ij ∈ groupPairs n) :
    ij.1 < ij.2 ∧ ij.2 < n := by
  unfold groupPairs at h
  rw [List.mem_flatMap] at h
  obtain ⟨i, _, h⟩ := h
  rw [List.mem_map] at h
  obtain ⟨j, hj, rfl⟩ := h
  rw [List.mem_filter, List.mem_range] at hj
  exact ⟨by simpa using hj.2, hj.1⟩

theorem length_mergedAt (gs : List FusionGroup) (i j : Nat) (hj : j < gs.length) :
    (mergedAt gs i j).length < gs.length := by
  unfold mergedAt
  rw [List.length_map, List.length_filter_lt_length_iff_exists]
  refine ⟨gs.getD j [], ?_, by simp⟩
  rw [List.getD_eq_getElem _ _ hj]
  exact List.getElem_mem _

theorem mergeScan_some (G : Graph) (gs gs2 : List FusionGroup) (h : mergeScan G gs = some gs2) :
    ∃ i j, i < j ∧ j < gs.length ∧ gs2 = mergedAt gs i j ∧
      (mergeRule G gs (gs.getD i []) (gs.getD j []) = true ∨
        mergeRule G gs (gs.getD j []) (gs.getD i []) = true) := by
  unfold mergeScan at h
  split at h
  · exact absurd h (by simp)
  · rename_i ij hfind
    have hmem := List.mem_of_find?_eq_some hfind
    have hprop := List.find?_some hfind
    obtain ⟨h1, h2⟩ := mem_groupPairs hmem
    rw [Bool.or_eq_true] at hprop
    exact ⟨ij.1, ij.2, h1, h2, (Option.some.inj h).symm, hprop⟩

theorem mergeScan_length (G : Graph) (gs gs2 : List FusionGroup)
    (h : mergeScan G gs = some gs2) : gs2.length < gs.length := by
  obtain ⟨i, j, _, hj, rfl, _⟩ := mergeScan_some G gs gs2 h
  exact length_mergedAt gs i j hj

theorem mergeScan_nil (G : Graph) : mergeScan G [] = none := by
  simp [mergeScan, groupPairs]

theorem mergeScan_single (G : Graph) (g : FusionGroup) : mergeScan G [g] = none := by
  simp [mergeScan, groupPairs, List.range_succ]

theorem mergeLoop_fixed (G : Graph) : ∀ (fuel : Nat) (gs : List FusionGroup),
    gs.length ≤ fuel → mergeScan G (mergeLoop G fuel gs) = none
  | 0, gs, h => by
    have : gs = [] := List.length_eq_zero.mp (by omega)
    subst this
    exact mergeScan_nil G
  | fuel + 1, gs, h => by
    unfold mergeLoop
    cases hs : mergeScan G gs with
    | none => simpa using hs
    | some gs2 =>
      have := mergeScan_length G gs gs2 hs
      exact mergeLoop_fixed G fuel gs2 (by omega)

theorem mergeLoop_of_none (G : Graph) (fuel : Nat) (gs : List FusionGroup)
    (h : mergeScan G gs = none) : mergeLoop G fuel gs = gs := by
  cases fuel with
  | zero => rfl
  | succ f => simp [mergeLoop, h]

/-! ### Paths through a distinguished vertex -/

section Paths
variable {α : Type} {r : α → α → Prop}

end Paths

/-! ### Reachability in the coarsened graph -/

section LoweringTheorems
variable {Tn Ex : Type}

theorem lookup_cons_self (v : Nat) (ts : List Tn) (rest : List (Nat × List Tn)) :
    List.lookup v ((v, ts) :: rest) = some ts := by
  simp [List.lookup]

theorem lookup_cons_ne {v w : Nat} (ts : List Tn) (rest : List (Nat × List Tn)) (h : w ≠ v) :
    List.lookup w ((v, ts) :: rest) = List.lookup w rest := by
  have : (w == v) = false := beq_eq_false_iff_ne.mpr h
  simp [List.lookup, this]

theorem emitCompute_ok (St : OpStrategies Tn Ex) (G : Graph)
    (hc : ∀ nd ins, ∃ ts, St.compute nd ins = .ok ts) :
    ∀ (vs : List Nat) (produced : List (String × Tn)), (∀ v ∈ vs, v < G.nodes.length) →
      ∃ computed, emitCompute St G vs produced = .ok computed ∧
        ∀ v ∈ vs, ∃ nd ins ts, G.nodes[v]? = some nd ∧ St.compute nd ins = .ok ts ∧
          computed.lookup v = some ts
  | [], _, _ => ⟨[], rfl, fun v hv => by simp at hv⟩
  | v :: vs, produced, hvs => by
    have hv : v < G.nodes.length := hvs v (by simp)
    have hnd : G.nodes[v]? = some G.nodes[v] := List.getElem?_eq_getElem hv
    obtain ⟨ts, hts⟩ := hc G.nodes[v] (G.nodes[v].inputs.map (inputTensor St produced))
    obtain ⟨rest, hrest, hlook⟩ := emitCompute_ok St G hc vs
      (producedBy G.nodes[v] ts ++ produced)
      (fun w hw => hvs w (by simp [hw]))
    refine ⟨(v, ts) :: rest, ?_, ?_⟩
    · simp only [emitCompute, hnd, hts, bind, Except.bind, pure, Except.pure]
      rw [hrest]
    · intro w hw
      by_cases hwv : w = v
      · subst hwv
        exact ⟨_, _, ts, hnd, hts, lookup_cons_self _ _ _⟩
      · have hw2 : w ∈ vs := by
          rcases List.mem_cons.mp hw with h | h
          · exact absurd h hwv
          · exact h
        obtain ⟨nd, ins, ts2, h1, h2, h3⟩ := hlook w hw2
        exact ⟨nd, ins, ts2, h1, h2, by rw [lookup_cons_ne _ _ hwv]; exact h3⟩

theorem scheduleNode_ok (St : OpStrategies Tn Ex) (G : Graph) (hacc : St.Accepts G)
    (reduceGroup : Bool) (computed : List (Nat × List Tn)) (v : Nat)
    (hv : ∃ nd ins ts, G.nodes[v]? = some nd ∧ St.compute nd ins = .ok ts ∧
      computed.lookup v = some ts) :
    ∃ e, scheduleNode St G reduceGroup computed v = .ok e := by
  obtain ⟨nd, ins, ts, hnd, hts, hlook⟩ := hv
  obtain ⟨_, hsched, hred⟩ := hacc
  unfold scheduleNode
  simp only [hnd, hlook]
  split
  · rename_i hcond
    rw [Bool.and_eq_true] at hcond
    have hpat : nd.pattern = .kCommReduce := by simpa using hcond.2
    have hmem : nd ∈ G.nodes := List.getElem?_mem hnd
    obtain ⟨inshape, env, fam, h1, h2, h3⟩ := hred nd hmem hpat ins ts hts
    obtain ⟨e, he⟩ := hsched nd (some fam) ts
    exact ⟨e, by simp only [h1, h2, h3, he, bind, Except.bind]⟩
  · exact hsched nd none ts

theorem scheduleAll_ok (St : OpStrategies Tn Ex) (G : Graph) (hacc : St.Accepts G)
    (reduceGroup : Bool) (computed : List (Nat × List Tn)) :
    ∀ vs : List Nat,
      (∀ v ∈ vs, ∃ nd ins ts, G.nodes[v]? = some nd ∧ St.compute nd ins = .ok ts ∧
        computed.lookup v = some ts) →
      ∃ es, scheduleAll St G reduceGroup computed vs = .ok es
  | [], _ => ⟨[], rfl⟩
  | v :: vs, h => by
    obtain ⟨e, he⟩ := scheduleNode_ok St G hacc reduceGroup computed v (h v (by simp))
    obtain ⟨es, hes⟩ := scheduleAll_ok St G hacc reduceGroup computed vs
      (fun w hw => h w (by simp [hw]))
    exact ⟨e :: es, by simp only [scheduleAll, he, hes, bind, Except.bind, pure, Except.pure]⟩

theorem Lower_length (St : OpStrategies Tn Ex) (G : Graph) (g : FusionGroup)
    (fs : List (LoweredFunc Ex)) (h : OpLowerer.Lower St G g = .ok fs) : fs.length = 1 := by
  unfold OpLowerer.Lower at h
  simp only [bind, Except.bind, pure, Except.pure] at h
  split at h
  · exact absurd h (by simp)
  · split at h
    · exact absurd h (by simp)
    · have := Except.ok.inj h
      rw [← this]
      rfl

theorem Lower_ok (St : OpStrategies Tn Ex) (G : Graph) (g : FusionGroup)
    (hg : ∀ v ∈ g, v < G.nodes.length) (hacc : St.Accepts G) :
    ∃ f, OpLowerer.Lower St G g = .ok [f] := by
  have hord : ∀ v ∈ g.insertionSort (· ≤ ·), v < G.nodes.length := fun v hv =>
    hg v ((List.perm_insertionSort _ g).mem_iff.mp hv)
  obtain ⟨computed, hcomp, hlook⟩ := emitCompute_ok St G hacc.1 _ [] hord
  have hsub : ∀ v ∈ scheduledNodes G (g.insertionSort (· ≤ ·)),
      ∃ nd ins ts, G.nodes[v]? = some nd ∧ St.compute nd ins = .ok ts ∧
        computed.lookup v = some ts := by
    intro v hv
    unfold scheduledNodes at hv
    exact hlook v (List.mem_filter.mp hv).1
  obtain ⟨es, hes⟩ := scheduleAll_ok St G hacc (dominantPattern G g == .kCommReduce)
    computed _ hsub
  refine ⟨{ name := "fn_" ++ String.intercalate "_" ((g.insertionSort (· ≤ ·)).map toString),
            args := groupArgs G (g.insertionSort (· ≤ ·)),
            body := St.mergeExprs es }, ?_⟩
  simp only [OpLowerer.Lower, hcomp, hes, bind, Except.bind, pure, Except.pure]

end LoweringTheorems

/-! ## Normalized reduce axes -/

theorem allAxes_sorted (rank : Nat) : (allAxes rank).Sorted (· < ·) := by
  unfold allAxes List.Sorted
  rw [List.pairwise_map]
  exact (List.pairwise_lt_range rank).imp (fun h => Int.ofNat_lt.mpr h)

theorem insertionSort_allAxes (rank : Nat) :
    (allAxes rank).insertionSort (· ≤ ·) = allAxes rank :=
  List.Sorted.insertionSort_eq ((allAxes_sorted rank).le_of_lt)

theorem mem_allAxes {rank : Nat} {a : Int} : a ∈ allAxes rank ↔ 0 ≤ a ∧ a < rank := by
  unfold allAxes
  simp only [List.mem_map, List.mem_range]
  constructor
  · rintro ⟨i, hi, rfl⟩
    exact ⟨Int.ofNat_nonneg i, Int.ofNat_lt.mpr hi⟩
  · rintro ⟨h0, h1⟩
    refine ⟨a.toNat, ?_, ?_⟩
    · omega
    · simp [Int.toNat_of_nonneg h0]

/-- What a successful run of `StrategyForReduce` says about its result: the axes are the
sorted raw axes, the last of them passed the unsigned test against the rank, and adjacent
axes differ. -/
theorem StrategyForReduce_ok (attrs : NodeAttr) (inshape : List Int) (env : ReduceEnv)
    (h : StrategyForReduce attrs inshape = .ok env) :
    ∃ dim back, attrs.dim = some dim ∧
      env.reduce_axes = (if dim.isEmpty then allAxes inshape.length else dim).insertionSort (· ≤ ·) ∧
      env.keep_dim = attrs.keep_dim.getD false ∧
      env.reduce_axes.length ≤ inshape.length ∧
      env.reduce_axes.getLast? = some back ∧ toSizeT back < inshape.length ∧
      checkAdjacentNE env.reduce_axes = true := by
  obtain ⟨dim, keep⟩ := attrs
  cases dim with
  | none => simp [StrategyForReduce] at h
  | some dim =>
    simp only [StrategyForReduce] at h
    generalize haxes :
      (if dim.isEmpty then allAxes inshape.length else dim).insertionSort (· ≤ ·) = axes at h
    by_cases c1 : axes.length ≤ inshape.length
    · cases hb : axes.getLast? with
      | none => simp [c1, hb] at h
      | some back =>
        by_cases c2 : toSizeT back < inshape.length
        · by_cases c3 : checkAdjacentNE axes = true
          · simp only [c1, hb, c2, c3, not_true_eq_false, if_false] at h
            cases h
            exact ⟨dim, back, rfl, haxes.symm, rfl, c1, hb, c2, c3⟩
          · simp [c1, hb, c2, c3] at h
        · simp [c1, hb, c2] at h
    · simp [c1] at h

/-- Claim C22.  When `StrategyForReduce` passes its checks, the axes captured by the compute
and schedule closures are: all axes `[0, ..., rank - 1]` when the `dim` attribute is empty,
and otherwise `dim` sorted ascending (a sorted permutation of it); in both cases the list
is not empty, strictly increasing, has the same elements as the given `dim` (as all axes
when that was empty), and all its elements, the largest included, are below the input rank.
(The entries of `dim` are `int` values, below `2 ^ 31`.) -/
theorem StrategyForReduce_axes (attrs : NodeAttr) (inshape : List Int) (env : ReduceEnv)
    (hint : ∀ dim, attrs.dim = some dim → ∀ a ∈ dim, a < 2 ^ 31)
    (h : StrategyForReduce attrs inshape = .ok env) :
    ∃ dim, attrs.dim = some dim ∧
      (dim = [] → env.reduce_axes = allAxes inshape.length) ∧
      (dim ≠ [] → env.reduce_axes.Sorted (· ≤ ·) ∧ env.reduce_axes.Perm dim) ∧
      env.reduce_axes ≠ [] ∧
      env.reduce_axes.Sorted (· < ·) ∧
      (∀ a, a ∈ env.reduce_axes ↔ a ∈ (if dim = [] then allAxes inshape.length else dim)) ∧
      (∀ a ∈ env.reduce_axes, a < inshape.length) := by
  obtain ⟨dim, back, hdim, haxes, -, -, hback, hlt, hadj⟩ := StrategyForReduce_ok attrs inshape env h
  have hsorted : env.reduce_axes.Sorted (· ≤ ·) := haxes ▸ List.sorted_insertionSort _ _
  have hperm : env.reduce_axes.Perm (if dim.isEmpty then allAxes inshape.length else dim) :=
    haxes ▸ List.perm_insertionSort _ _
  have hne : env.reduce_axes ≠ [] := by
    intro h0; rw [h0] at hback; simp at hback
  have hbk : env.reduce_axes.getLast hne = back := by
    rw [List.getLast?_eq_getLast _ hne] at hback
    exact Option.some.inj hback
  have hnodup : env.reduce_axes.Nodup := (checkAdjacentNE_iff_nodup _ hsorted).mp hadj
  have hmem : ∀ a, a ∈ env.reduce_axes ↔
      a ∈ (if dim = [] then allAxes inshape.length else dim) := by
    intro a
    rw [hperm.mem_iff]
    cases dim <;> simp
  have hbackmem : back ∈ env.reduce_axes := hbk ▸ List.getLast_mem hne
  have hback31 : back < 2 ^ 31 ∨ back < inshape.length := by
    have := (hmem back).mp hbackmem
    split at this
    · exact Or.inr (mem_allAxes.mp this).2
    · exact Or.inl (hint dim hdim back this)
  have hbacklt : back < inshape.length := by
    rcases hback31 with h31 | hl
    · unfold toSizeT at hlt
      omega
    · exact hl
  refine ⟨dim, hdim, ?_, ?_, hne, hsorted.lt_of_le hnodup, hmem, ?_⟩
  · intro hd
    rw [haxes, hd]
    simpa using insertionSort_allAxes inshape.length
  · intro hd
    refine ⟨hsorted, ?_⟩
    have : dim.isEmpty = false := by cases dim <;> simp_all
    simpa [this] using hperm
  · intro a ha
    have := hbk ▸ le_getLast_of_sorted _ hne hsorted a ha
    omega

/-- Claim C22 at rank 2 with `dim = {1, 0}`: the closures get the axes `[0, 1]`. -/
theorem StrategyForReduce_axes_witness :
    ∃ dim, (⟨some [1, 0], some true⟩ : NodeAttr).dim = some dim ∧
      (dim = [] → ([0, 1] : List Int) = allAxes ([3, 4] : List Int).length) ∧
      (dim ≠ [] → ([0, 1] : List Int).Sorted (· ≤ ·) ∧ ([0, 1] : List Int).Perm dim) ∧
      ([0, 1] : List Int) ≠ [] ∧
      ([0, 1] : List Int).Sorted (· < ·) ∧
      (∀ a, a ∈ ([0, 1] : List Int) ↔
        a ∈ (if dim = [] then allAxes ([3, 4] : List Int).length else dim)) ∧
      (∀ a ∈ ([0, 1] : List Int), a < ([3, 4] : List Int).length) :=
  StrategyForReduce_axes ⟨some [1, 0], some true⟩ [3, 4] ⟨[0, 1], true⟩
    (fun dim hd a ha => by
      have hd2 : dim = [1, 0] := (Option.some.inj hd).symm
      subst hd2
      simp at ha
      omega)
    rfl

/-! ## Shape inference -/

/-- For `int` axes and a position below `2 ^ 31`, `std::find` with the `size_t` position finds
exactly the axis equal to the position. -/
theorem any_position_iff (dim : List Int) (i : Nat)
    (hint : ∀ a ∈ dim, -2 ^ 31 ≤ a ∧ a < 2 ^ 31) (hi : i < 2 ^ 31) :
    dim.any (fun a => toSizeT a == (i : Int)) = true ↔ (i : Int) ∈ dim := by
  rw [List.any_eq_true]
  constructor
  · rintro ⟨a, ha, h⟩
    have hr := hint a ha
    simp only [beq_iff_eq, toSizeT] at h
    have : a = (i : Int) := by omega
    exact this ▸ ha
  · intro h
    refine ⟨_, h, ?_⟩
    simp only [beq_iff_eq, toSizeT]
    omega

theorem foldl_inferShape (dim : List Int) (keep_dim : Bool) (in0 : List Int)
    (hint : ∀ a ∈ dim, -2 ^ 31 ≤ a ∧ a < 2 ^ 31) :
    ∀ (l : List Nat) (acc : List Int), (∀ i ∈ l, i < 2 ^ 31) →
      l.foldl (fun out_shapes (i : Nat) =>
        if dim.any (fun a => toSizeT a == (i : Int)) then
          if keep_dim then out_shapes ++ [1] else out_shapes
        else out_shapes ++ [in0.getD i 0]) acc =
      acc ++ l.flatMap (fun (i : Nat) =>
        if (i : Int) ∈ dim then (if keep_dim then [1] else []) else [in0.getD i 0])
  | [], acc, _ => by simp
  | i :: l, acc, hl => by
    have ih := foldl_inferShape dim keep_dim in0 hint l
    have hi := hl i (by simp)
    have hl2 : ∀ j ∈ l, j < 2 ^ 31 := fun j hj => hl j (by simp [hj])
    simp only [List.foldl_cons, List.flatMap_cons]
    rw [ih _ hl2]
    by_cases hm : (i : Int) ∈ dim
    · have hany := (any_position_iff dim i hint hi).mpr hm
      cases keep_dim <;> simp [hany, hm]
    · have hany : dim.any (fun a => toSizeT a == (i : Int)) = false := by
        rw [← Bool.not_eq_true, any_position_iff dim i hint hi]; exact hm
      simp [hany, hm]

/-- The loop of `InferShapeForReduction` is the scan of the positions of the shape. -/
theorem inferShapeLoop_eq_scan (dim : List Int) (keep_dim : Bool) (in0 : List Int)
    (hint : ∀ a ∈ dim, -2 ^ 31 ≤ a ∧ a < 2 ^ 31) (hsize : in0.length < 2 ^ 31) :
    inferShapeLoop dim keep_dim in0 = scanPositions dim keep_dim in0 := by
  unfold inferShapeLoop scanPositions
  rw [foldl_inferShape dim keep_dim in0 hint _ []
    (fun i hi => lt_trans (List.mem_range.mp hi) hsize)]
  simp

theorem length_scan_keep (dim : List Int) (in0 : List Int) : ∀ l : List Nat,
    (l.flatMap (fun (i : Nat) =>
      if (i : Int) ∈ dim then (if true then [1] else []) else [in0.getD i 0])).length = l.length
  | [] => rfl
  | i :: l => by
    have ih := length_scan_keep dim in0 l
    rw [List.flatMap_cons, List.length_append, ih, List.length_cons]
    by_cases hm : (i : Int) ∈ dim
    · simp [hm]; omega
    · simp [hm]; omega

theorem length_scan_drop (dim : List Int) (in0 : List Int) : ∀ l : List Nat,
    (l.flatMap (fun (i : Nat) =>
      if (i : Int) ∈ dim then (if false then [1] else []) else [in0.getD i 0])).length =
    l.countP (fun (i : Nat) => decide ((i : Int) ∉ dim))
  | [] => rfl
  | i :: l => by
    have ih := length_scan_drop dim in0 l
    rw [List.flatMap_cons, List.length_append, ih, List.countP_cons]
    by_cases hm : (i : Int) ∈ dim
    · simp [hm]
    · simp [hm]; omega

/-- Distinct in-range axes mark exactly as many positions as there are axes. -/
theorem countP_listed (dim : List Int) (n : Nat) (hnd : dim.Nodup)
    (hr : ∀ a ∈ dim, 0 ≤ a ∧ a < n) :
    (List.range n).countP (fun (i : Nat) => decide ((i : Int) ∈ dim)) = dim.length := by
  rw [List.countP_eq_length_filter]
  have h1 : ((List.range n).filter (fun (i : Nat) => decide ((i : Int) ∈ dim))).Nodup :=
    (List.nodup_range n).filter _
  have h2 : (dim.map Int.toNat).Nodup := by
    refine List.Nodup.map_on ?_ hnd
    intro x hx y hy hxy
    have := hr x hx
    have := hr y hy
    omega
  have hp : ((List.range n).filter (fun (i : Nat) => decide ((i : Int) ∈ dim))).Perm (dim.map Int.toNat) := by
    rw [List.perm_ext_iff_of_nodup h1 h2]
    intro i
    simp only [List.mem_filter, List.mem_range, decide_eq_true_eq, List.mem_map]
    constructor
    · rintro ⟨-, hm⟩
      exact ⟨_, hm, by simp⟩
    · rintro ⟨a, ha, rfl⟩
      have := hr a ha
      refine ⟨by omega, ?_⟩
      rw [Int.toNat_of_nonneg this.1]
      exact ha
  rw [hp.length_eq, List.length_map]

theorem length_scan_reduced (dim : List Int) (in0 : List Int) (hnd : dim.Nodup)
    (hr : ∀ a ∈ dim, 0 ≤ a ∧ a < in0.length) :
    (scanPositions dim false in0).length = in0.length - dim.length := by
  unfold scanPositions
  have h1 := length_scan_drop dim in0 (List.range in0.length)
  simp only [Bool.false_eq_true, if_false] at h1 ⊢
  rw [h1]
  have h2 := List.length_eq_countP_add_countP (fun i : Nat => decide ((i : Int) ∈ dim))
    (List.range in0.length)
  rw [countP_listed dim in0.length hnd hr, List.length_range] at h2
  have h3 : (List.range in0.length).countP (fun (a : Nat) => decide ¬ (decide ((a : Int) ∈ dim)) = true) =
      (List.range in0.length).countP (fun (i : Nat) => decide ((i : Int) ∉ dim)) := by
    congr 1
    funext i
    simp
  rw [h3] at h2
  omega

/-- Claim C23.  Given one or three input shapes, the first of them `in0`, and a non-empty
`dim` with at most rank-many entries, `InferShapeForReduction` returns exactly one shape
`out`: the scan of the positions `0 .. rank - 1` of `in0` in order, where a position listed
in `dim` contributes 1 when `keep_dim` is true and nothing when it is false and every other
position contributes its extent, or `[1]` if that scan is empty.  Hence `out` is never
empty, has the input rank when `keep_dim` is true, and for distinct in-range axes has rank
`max 1 (rank - |dim|)` when `keep_dim` is false; the shape `[1, 3, 224, 224]` reduced over
`{1, 2}` gives `[1, 224]`.  (The entries of `dim` are `int` values and the rank is below
`2 ^ 31`; an absent `keep_dim` is false.) -/
theorem InferShapeForReduction_spec (inputs_shape : List (List Int)) (in0 dim : List Int)
    (keep_dim : Option Bool)
    (hin : inputs_shape.length = 1 ∨ inputs_shape.length = 3)
    (h0 : inputs_shape.head? = some in0)
    (hne : dim ≠ []) (hle : dim.length ≤ in0.length)
    (hint : ∀ a ∈ dim, -2 ^ 31 ≤ a ∧ a < 2 ^ 31) (hsize : in0.length < 2 ^ 31) :
    (∃ out, InferShapeForReduction inputs_shape ⟨some dim, keep_dim⟩ = .ok [out] ∧
      out = (if scanPositions dim (keep_dim.getD false) in0 = [] then [1]
        else scanPositions dim (keep_dim.getD false) in0) ∧
      out ≠ [] ∧
      (keep_dim.getD false = true → out.length = in0.length) ∧
      (keep_dim.getD false = false → dim.Nodup → (∀ a ∈ dim, 0 ≤ a ∧ a < in0.length) →
        out.length = max 1 (in0.length - dim.length))) ∧
    InferShapeForReduction [[1, 3, 224, 224]] ⟨some [1, 2], some false⟩ = .ok [[1, 224]] := by
  refine ⟨?_, rfl⟩
  have hhead : inputs_shape.headD [] = in0 := by
    cases inputs_shape with
    | nil => simp at h0
    | cons a l => simpa using h0
  have hrank : 1 ≤ in0.length := by
    cases dim with
    | nil => exact absurd rfl hne
    | cons a l => simp at hle; omega
  have hemp : dim.isEmpty = false := by cases dim <;> simp_all
  have hloop := inferShapeLoop_eq_scan dim (keep_dim.getD false) in0 hint hsize
  refine ⟨_, ?_, rfl, ?_, ?_, ?_⟩
  · unfold InferShapeForReduction
    simp only [hin, not_true_eq_false, if_false, Option.getD_some, hhead, hemp, Bool.not_false,
      if_true, hle, hloop, List.isEmpty_iff, bind, Except.bind, pure, Except.pure]
    by_cases hs : scanPositions dim (keep_dim.getD false) in0 = []
    · simp [hs]
    · simp [hs]
  · split
    · simp
    · assumption
  · intro hk
    have hlen : (scanPositions dim (keep_dim.getD false) in0).length = in0.length := by
      rw [hk]; unfold scanPositions
      rw [length_scan_keep dim in0, List.length_range]
    have hnn : scanPositions dim (keep_dim.getD false) in0 ≠ [] := by
      intro h; rw [h] at hlen; simp at hlen; omega
    rw [if_neg hnn, hlen]
  · intro hk hnd hr
    have hlen := length_scan_reduced dim in0 hnd hr
    rw [hk]
    by_cases hs : scanPositions dim false in0 = []
    · rw [if_pos hs]
      rw [hs] at hlen
      simp at hlen ⊢
      omega
    · rw [if_neg hs, hlen]
      have : (scanPositions dim false in0).length ≠ 0 := fun h => hs (List.length_eq_zero.mp h)
      omega

/-- Claim C23 on the shape `[2, 3, 4]` reduced over `{2, 0}` without `keep_dim`. -/
theorem InferShapeForReduction_spec_witness :
    (∃ out, InferShapeForReduction [[2, 3, 4]] ⟨some [2, 0], none⟩ = .ok [out] ∧
      out = (if scanPositions [2, 0] ((none : Option Bool).getD false) [2, 3, 4] = [] then [1]
        else scanPositions [2, 0] ((none : Option Bool).getD false) [2, 3, 4]) ∧
      out ≠ [] ∧
      ((none : Option Bool).getD false = true → out.length = ([2, 3, 4] : List Int).length) ∧
      ((none : Option Bool).getD false = false → ([2, 0] : List Int).Nodup →
        (∀ a ∈ ([2, 0] : List Int), 0 ≤ a ∧ a < ([2, 3, 4] : List Int).length) →
        out.length = max 1 (([2, 3, 4] : List Int).length - ([2, 0] : List Int).length))) ∧
    InferShapeForReduction [[1, 3, 224, 224]] ⟨some [1, 2], some false⟩ = .ok [[1, 224]] :=
  InferShapeForReduction_spec [[2, 3, 4]] [2, 3, 4] [2, 0] none (by decide) rfl (by decide)
    (by decide) (by decide) (by decide)

section TrailingCount
variable {V E T S M Tg : Type}

/-- When `WithoutLastDimInReduce` returns true, no axis equals `rank - 1` as a `size_t`. -/
theorem WithoutLastDimInReduce_true_last (inshape axes : List Int)
    (h : WithoutLastDimInReduce inshape axes = true) :
    ∀ a ∈ axes, toSizeT a ≠ toSizeT ((inshape.length : Int) - 1) := by
  intro a ha heq
  unfold WithoutLastDimInReduce at h
  have hany : axes.any (fun a => toSizeT a == toSizeT ((inshape.length : Int) - 1)) = true :=
    List.any_eq_true.mpr ⟨a, ha, by simpa using heq⟩
  simp [hany] at h

/-- Claim C25.  When the `ScheduleReduce` branch is taken (axes validated by
`StrategyForReduce`, `WithoutLastDimInReduce` true, a pack of size 2 on an NVGPU target), in
both scheduling modes the schedule primitive receives as trailing-dimension count the
number `n = rank - back - 1`, where `back` is the largest reduced axis: the `size_t`
subtraction does not wrap, `back` is not negative, `1 ≤ n ≤ rank - 1`, `n` is the number of
dimensions after position `back`, and no position after `back` is a reduced axis.  (The
entries of `dim` are `int` values and the rank is below `2 ^ 31`.) -/
theorem schedule_reduce_trailing_count (X : Externals V E T S M Tg) (flag : Bool) (target : Tg)
    (op_name : String) (attrs : NodeAttr) (inshape : List Int) (env : ReduceEnv)
    (reduce_out last : V) (rest : List (List V))
    (hint : ∀ dim, attrs.dim = some dim → ∀ a ∈ dim, -2 ^ 31 ≤ a ∧ a < 2 ^ 31)
    (hsize : inshape.length < 2 ^ 31)
    (hgpu : X.arch_is_NVGPU target = true)
    (hok : StrategyForReduce attrs inshape = .ok env)
    (hnolast : WithoutLastDimInReduce inshape env.reduce_axes = true) :
    ∃ back n : Int,
      env.reduce_axes.getLast? = some back ∧ (∀ a ∈ env.reduce_axes, a ≤ back) ∧
      (∃ o, reduction_schedule X flag target op_name inshape env ([reduce_out, last] :: rest)
          = .ok o ∧
        o.call = some (if flag then .IRCudaScheduleReduce (X.tensorRef reduce_out) n target
          else .CudaReduceSchedule (X.toStageMap last) (X.tensorRef reduce_out) n target)) ∧
      n = (inshape.length : Int) - back - 1 ∧ 0 ≤ back ∧
      1 ≤ n ∧ n ≤ (inshape.length : Int) - 1 ∧
      n = ((inshape.drop (back + 1).toNat).length : Int) ∧
      (∀ i : Int, back < i → i ∉ env.reduce_axes) := by
  obtain ⟨dim, back, hdim, haxes, -, -, hback, hlt, -⟩ := StrategyForReduce_ok attrs inshape env hok
  have hsorted : env.reduce_axes.Sorted (· ≤ ·) := haxes ▸ List.sorted_insertionSort _ _
  have hperm : env.reduce_axes.Perm (if dim.isEmpty then allAxes inshape.length else dim) :=
    haxes ▸ List.perm_insertionSort _ _
  have hne : env.reduce_axes ≠ [] := by
    intro h0; rw [h0] at hback; simp at hback
  have hbk : env.reduce_axes.getLast hne = back := by
    rw [List.getLast?_eq_getLast _ hne] at hback
    exact Option.some.inj hback
  have hmax : ∀ a ∈ env.reduce_axes, a ≤ back := fun a ha =>
    hbk ▸ le_getLast_of_sorted _ hne hsorted a ha
  have hbackmem : back ∈ env.reduce_axes := hbk ▸ List.getLast_mem hne
  have hrange : -2 ^ 31 ≤ back ∧ back < 2 ^ 31 := by
    have := hperm.mem_iff.mp hbackmem
    split at this
    · have := mem_allAxes.mp this
      omega
    · exact hint dim hdim back this
  have h0 : 0 ≤ back := by
    unfold toSizeT at hlt
    omega
  have hltr : back < inshape.length := by
    unfold toSizeT at hlt
    omega
  have hnl : back ≠ (inshape.length : Int) - 1 := by
    intro heq
    exact WithoutLastDimInReduce_true_last inshape env.reduce_axes hnolast back hbackmem
      (by rw [heq])
  have hlastD : env.reduce_axes.getLastD 0 = back := by
    rw [List.getLastD_eq_getLast?, hback]; rfl
  have hn : lastDimensionNum inshape env.reduce_axes = (inshape.length : Int) - back - 1 := by
    unfold lastDimensionNum
    rw [hlastD]
    unfold toSizeT
    omega
  refine ⟨back, (inshape.length : Int) - back - 1, hback, hmax, ?_, rfl, h0, by omega, by omega,
    ?_, ?_⟩
  · cases flag
    · refine ⟨{ vec_ast := none,
                call := some (.CudaReduceSchedule (X.toStageMap last) (X.tensorRef reduce_out)
                  (lastDimensionNum inshape env.reduce_axes) target),
                ret := some [reduce_out, last] }, ?_, ?_⟩
      · simp [reduction_schedule, reduction_schedule_legacy_nvgpu, packAt, packBack, hgpu,
          hnolast, bind, Except.bind, pure, Except.pure, Externals.tensorRef]
      · simp [hn]
    · refine ⟨irScheduleBranch X [X.toExpr last]
        (.IRCudaScheduleReduce (X.tensorRef reduce_out)
          (lastDimensionNum inshape env.reduce_axes) target), ?_, ?_⟩
      · simp [reduction_schedule, reduction_schedule_ir_nvgpu, packAt, hgpu,
          hnolast, bind, Except.bind, pure, Except.pure, Externals.tensorRef]
      · simp [hn, irScheduleBranch]
  · rw [List.length_drop]
    omega
  · intro i hi hmem
    have := hmax i hmem
    omega

end TrailingCount

/-- Claim C25 on the shape `[4, 8, 16]` reduced over `{0}` in IR-schedule mode: the count
passed to `IRCudaScheduleReduce` is `3 - 0 - 1 = 2`. -/
theorem schedule_reduce_trailing_count_witness :
    ∃ back n : Int,
      ([0] : List Int).getLast? = some back ∧ (∀ a ∈ ([0] : List Int), a ≤ back) ∧
      (∃ o, reduction_schedule demoExternals true true "reduce_sum" [4, 8, 16] ⟨[0], false⟩
          ([7, 500] :: []) = .ok o ∧
        o.call = some (if true = true then
            .IRCudaScheduleReduce (demoExternals.tensorRef 7) n true
          else .CudaReduceSchedule (demoExternals.toStageMap 500) (demoExternals.tensorRef 7)
            n true)) ∧
      n = (([4, 8, 16] : List Int).length : Int) - back - 1 ∧ 0 ≤ back ∧
      1 ≤ n ∧ n ≤ (([4, 8, 16] : List Int).length : Int) - 1 ∧
      n = ((([4, 8, 16] : List Int).drop (back + 1).toNat).length : Int) ∧
      (∀ i : Int, back < i → i ∉ ([0] : List Int)) :=
  schedule_reduce_trailing_count demoExternals true true "reduce_sum" ⟨some [0], none⟩
    [4, 8, 16] ⟨[0], false⟩ 7 500 []
    (fun dim hd a ha => by
      have hd2 : dim = [0] := (Option.some.inj hd).symm
      subst hd2
      simp at ha
      omega)
    (by decide) rfl rfl (by decide)

/-- Claim C24 at the shape `[2, 3]` with `keep_dim` true.  `StrategyForReduce` reads the
empty `dim` as the axes `[0, 1]`, and `InferShapeForReduction` with `dim = [0, 1]` returns
`[1, 1]`; with the empty or the absent `dim` it returns `[1]`, a different shape.  With
`keep_dim` false both readings give `[1]`. -/
theorem InferShapeForReduction_empty_dim_keep_dim :
    StrategyForReduce ⟨some [], some true⟩ [2, 3] = .ok ⟨[0, 1], true⟩ ∧
    InferShapeForReduction [[2, 3]] ⟨some [0, 1], some true⟩ = .ok [[1, 1]] ∧
    InferShapeForReduction [[2, 3]] ⟨some [], some true⟩ = .ok [[1]] ∧
    InferShapeForReduction [[2, 3]] ⟨none, some true⟩ = .ok [[1]] ∧
    InferShapeForReduction [[2, 3]] ⟨some [0, 1], some false⟩ = .ok [[1]] ∧
    InferShapeForReduction [[2, 3]] ⟨some [], some false⟩ = .ok [[1]] :=
  ⟨rfl, rfl, rfl, rfl, rfl, rfl⟩

/-- Claim C30.  `WithoutLastDimInReduce` returns false whenever the axes contain `-1`, for
every shape: it reads `-1` as the last dimension.  `InferShapeForReduction` does not: on the
shape `[2, 3]` it returns `[2, 3]` for `dim = [-1]` (no position is found in `dim`) and
`[2]` for `dim = [1]`, with `keep_dim` true `[2, 3]` and `[2, 1]`. -/
theorem minus_one_axis_not_last_in_InferShape :
    (∀ inshape axes : List Int, (-1 : Int) ∈ axes →
      WithoutLastDimInReduce inshape axes = false) ∧
    InferShapeForReduction [[2, 3]] ⟨some [-1], some false⟩ = .ok [[2, 3]] ∧
    InferShapeForReduction [[2, 3]] ⟨some [1], some false⟩ = .ok [[2]] ∧
    InferShapeForReduction [[2, 3]] ⟨some [-1], some true⟩ = .ok [[2, 3]] ∧
    InferShapeForReduction [[2, 3]] ⟨some [1], some true⟩ = .ok [[2, 1]] := by
  refine ⟨?_, rfl, rfl, rfl, rfl⟩
  intro inshape axes h
  unfold WithoutLastDimInReduce
  rw [(any_minus_one_iff axes).mpr h]
  simp

section FamilyTheorems
variable {V E T S M Tg : Type}

/-- The family selected by a run of `reduction_schedule` is the entry of the dispatch table
for the scheduling mode, the NVGPU test of the target, the value of
`WithoutLastDimInReduce` and the size of the argument pack. -/
theorem selectedFamily_eq_dispatched (X : Externals V E T S M Tg) (flag : Bool) (target : Tg)
    (op_name : String) (inshape : List Int) (env : ReduceEnv) (arg_pack : List V)
    (rest : List (List V)) :
    selectedFamily (reduction_schedule X flag target op_name inshape env (arg_pack :: rest)) =
      dispatchedFamily flag (X.arch_is_NVGPU target)
        (WithoutLastDimInReduce inshape env.reduce_axes) arg_pack.length := by
  cases flag <;> cases hgpu : X.arch_is_NVGPU target <;>
  cases hW : WithoutLastDimInReduce inshape env.reduce_axes <;>
  rcases arg_pack with _ | ⟨a, _ | ⟨b, _ | ⟨c, _ | ⟨d, _ | ⟨e, _ | ⟨f, _ | ⟨g, _ | ⟨h, _ | ⟨i, tl⟩⟩⟩⟩⟩⟩⟩⟩⟩ <;>
  simp [reduction_schedule, reduction_schedule_ir_nvgpu, reduction_schedule_legacy_nvgpu,
    packAt, packBack, hgpu, hW, bind, Except.bind, pure, Except.pure, selectedFamily,
    ReduceSchedule.family, irScheduleBranch, dispatchedFamily]

theorem selectedFamily_nil (X : Externals V E T S M Tg) (flag : Bool) (target : Tg)
    (op_name : String) (inshape : List Int) (env : ReduceEnv) :
    selectedFamily (reduction_schedule X flag target op_name inshape env []) = none := by
  simp [reduction_schedule, selectedFamily]

end FamilyTheorems

section Noninterference
variable {V E T S M Tg V2 E2 T2 S2 M2 Tg2 : Type}

/-- Claim C27.  The schedule family selected by the reduce strategy is a function of the
scheduling mode flag, the NVGPU test of the target, the input shape, the normalized reduce
axes and the size of the argument pack only: two runs that agree on these select the same
family, whatever their `keep_dim`, their reduction operator (the operator name is the only
trace of it in the schedule closure), their targets otherwise, the values in their packs and
the interpretation of the external operations. -/
theorem schedule_family_determined (X : Externals V E T S M Tg)
    (X2 : Externals V2 E2 T2 S2 M2 Tg2) (flag : Bool) (target : Tg) (target2 : Tg2)
    (op_name op_name2 : String) (inshape : List Int) (env env2 : ReduceEnv)
    (args : List (List V)) (args2 : List (List V2))
    (harch : X.arch_is_NVGPU target = X2.arch_is_NVGPU target2)
    (haxes : env.reduce_axes = env2.reduce_axes)
    (hsize : args.head?.map List.length = args2.head?.map List.length) :
    selectedFamily (reduction_schedule X flag target op_name inshape env args) =
      selectedFamily (reduction_schedule X2 flag target2 op_name2 inshape env2 args2) := by
  cases args with
  | nil =>
    cases args2 with
    | nil => rw [selectedFamily_nil, selectedFamily_nil]
    | cons p2 r2 => simp at hsize
  | cons p r =>
    cases args2 with
    | nil => simp at hsize
    | cons p2 r2 =>
      have hlen : p.length = p2.length := by simpa using hsize
      rw [selectedFamily_eq_dispatched, selectedFamily_eq_dispatched, harch, haxes, hlen]

end Noninterference

/-- Claim C27 on two runs in IR-schedule mode on the shape `[32, 512]` with axes `{1}` and
packs of size 7: `reduce_sum` without `keep_dim` and `reduce_max` with `keep_dim` select
the same family. -/
theorem schedule_family_determined_witness :
    selectedFamily (reduction_schedule demoExternals true true "reduce_sum" [32, 512]
        ⟨[1], false⟩ ([1, 2, 3, 4, 500, 501, 502] :: [])) =
      selectedFamily (reduction_schedule demoExternals true true "reduce_max" [32, 512]
        ⟨[1], true⟩ ([11, 12, 13, 14, 600, 601, 602] :: [])) :=
  schedule_family_determined demoExternals demoExternals true true true "reduce_sum"
    "reduce_max" [32, 512] ⟨[1], false⟩ ⟨[1], true⟩ _ _ rfl rfl rfl

section ReturnValue
variable {V E T S M Tg : Type}

/-- Claim C29.  In IR-schedule mode on a target that is not NVGPU, for every pack of 2 to 8
values the schedule closure completes without a fatal error, calls no primitive and leaves
its return value unassigned; in legacy mode on the same target (pack of 2 to 5 values) it
completes with the pack assigned to the return value. -/
theorem reduction_schedule_ir_not_nvgpu (X : Externals V E T S M Tg) (target : Tg)
    (op_name : String) (inshape : List Int) (env : ReduceEnv) (arg_pack : List V)
    (rest : List (List V)) (harch : X.arch_is_NVGPU target = false)
    (h2 : 2 ≤ arg_pack.length) :
    (arg_pack.length ≤ 8 →
      reduction_schedule X true target op_name inshape env (arg_pack :: rest) =
        .ok { vec_ast := none, call := none, ret := none }) ∧
    (arg_pack.length ≤ 5 →
      reduction_schedule X false target op_name inshape env (arg_pack :: rest) =
        .ok { vec_ast := none, call := none, ret := some arg_pack }) := by
  constructor
  · intro h8
    simp [reduction_schedule, harch, h2, h8, pure, Except.pure]
  · intro h5
    simp [reduction_schedule, harch, h2, h5, pure, Except.pure]

end ReturnValue

/-- Claim C29 on the host target with a pack of two values. -/
theorem reduction_schedule_ir_not_nvgpu_witness :
    (([8, 500] : List Nat).length ≤ 8 →
      reduction_schedule demoExternals true false "reduce_sum" [32, 32] ⟨[0], false⟩
          ([8, 500] :: []) =
        .ok { vec_ast := none, call := none, ret := none }) ∧
    (([8, 500] : List Nat).length ≤ 5 →
      reduction_schedule demoExternals false false "reduce_sum" [32, 32] ⟨[0], false⟩
          ([8, 500] :: []) =
        .ok { vec_ast := none, call := none, ret := some [8, 500] }) :=
  reduction_schedule_ir_not_nvgpu demoExternals false "reduce_sum" [32, 32] ⟨[0], false⟩
    [8, 500] [] rfl (by decide)

section DeviceFamily
variable {V E T S M Tg : Type}

/-- Claim C26.  For a target whose architecture is NVGPU but which is not equal to the
default NVGPU target, in legacy mode: the compute closure takes its CPU path (the pack is
the tensor of `cpu_reduce_func` and its stages), while the schedule closure takes its GPU
path on that pack.  With the last dimension reduced the block-reduce dispatch falls to its
two-step branch and reads element 2 of the two-element pack, a fatal error; without it the
GPU primitive `CudaReduceSchedule` is applied to the pack of the CPU path. -/
theorem compute_cpu_schedule_gpu (X : Externals V E T S M Tg) (target : Tg)
    (op_name : String) (inshape : List Int) (env : ReduceEnv)
    (gpu_reduce_with_last_axis_func gpu_reduce_without_last_axis_func :
      T → List Int → Bool → String → List T)
    (cpu_reduce_func : T → List Int → Bool → String → T) (x : V) (rest : List (List V))
    (harch : X.arch_is_NVGPU target = true)
    (hne : X.target_eq target X.DefaultNVGPUTarget = false)
    (hx : (X.as_tensor (X.toExpr x)).isSome = true) :
    ∃ out : T,
      out = cpu_reduce_func (X.as_tensor_ref (X.toExpr x)) env.reduce_axes env.keep_dim
        (X.UniqName (op_name ++ "_out")) ∧
      reduction_compute X false target op_name inshape env gpu_reduce_with_last_axis_func
          gpu_reduce_without_last_axis_func cpu_reduce_func ([x] :: rest) =
        .ok [X.ofTensor out, X.ofStageMap (X.CreateStages [out])] ∧
      (WithoutLastDimInReduce inshape env.reduce_axes = false →
        completes (reduction_schedule X false target op_name inshape env
          ([X.ofTensor out, X.ofStageMap (X.CreateStages [out])] :: rest)) = false) ∧
      (WithoutLastDimInReduce inshape env.reduce_axes = true →
        selectedFamily (reduction_schedule X false target op_name inshape env
          ([X.ofTensor out, X.ofStageMap (X.CreateStages [out])] :: rest)) =
            some Family.ScheduleReduce) := by
  refine ⟨_, rfl, ?_, ?_, ?_⟩
  · cases hx2 : X.as_tensor (X.toExpr x) with
    | none => rw [hx2] at hx; simp at hx
    | some t =>
      simp [reduction_compute, packAt, hne, hx2, bind, Except.bind, pure, Except.pure]
  · intro hW
    simp [reduction_schedule, reduction_schedule_legacy_nvgpu, packAt, packBack, harch, hW,
      bind, Except.bind, pure, Except.pure, completes]
  · intro hW
    rw [selectedFamily_eq_dispatched]
    simp [dispatchedFamily, harch, hW]

end DeviceFamily

/-- Claim C26 on the 32-bit NVGPU target of `archExternals`, for the shape `[32, 32]` reduced
over `{1}`. -/
theorem compute_cpu_schedule_gpu_witness :
    ∃ out : Nat,
      out = (fun x _ _ _ => x + 3) (archExternals.as_tensor_ref (archExternals.toExpr 5))
        ([1] : List Int) false (archExternals.UniqName ("reduce_sum" ++ "_out")) ∧
      reduction_compute archExternals false (true, 32) "reduce_sum" [32, 32] ⟨[1], false⟩
          (fun x _ _ _ => [x, x + 1]) (fun x _ _ _ => [x, x + 2]) (fun x _ _ _ => x + 3)
          ([5] :: []) =
        .ok [archExternals.ofTensor out,
          archExternals.ofStageMap (archExternals.CreateStages [out])] ∧
      (WithoutLastDimInReduce [32, 32] [1] = false →
        completes (reduction_schedule archExternals false (true, 32) "reduce_sum" [32, 32]
          ⟨[1], false⟩
          ([archExternals.ofTensor out,
            archExternals.ofStageMap (archExternals.CreateStages [out])] :: [])) = false) ∧
      (WithoutLastDimInReduce [32, 32] [1] = true →
        selectedFamily (reduction_schedule archExternals false (true, 32) "reduce_sum"
          [32, 32] ⟨[1], false⟩
          ([archExternals.ofTensor out,
            archExternals.ofStageMap (archExternals.CreateStages [out])] :: [])) =
            some Family.ScheduleReduce) :=
  compute_cpu_schedule_gpu archExternals (true, 32) "reduce_sum" [32, 32] ⟨[1], false⟩
    (fun x _ _ _ => [x, x + 1]) (fun x _ _ _ => [x, x + 2]) (fun x _ _ _ => x + 3) 5 []
    rfl rfl rfl

/-! ## `lang::Lower` -/

section LangLowerTheorems
variable {T Vr Bf B D R : Type}

/-- The flag `contains_gpu` after the loop: some tensor argument contains GPU info. -/
theorem containsGpuLoop_iff (X : LowerExternals T Vr Bf B D R) : ∀ tensor_args : List T,
    containsGpuLoop X tensor_args = true ↔ ∃ t ∈ tensor_args, X.TensorContainsGPUInfo t = true
  | [] => by simp [containsGpuLoop]
  | t :: rest => by
    have ih := containsGpuLoop_iff X rest
    unfold containsGpuLoop
    by_cases ht : X.TensorContainsGPUInfo t = true
    · simp [ht]
    · simp [ht, ih]

/-- The loop over the temporary tensors completes when none of them is inlined. -/
theorem addTempBuffers_ok (X : LowerExternals T Vr Bf B D R) : ∀ (temp_tensors : List T) (b : B),
    (∀ t ∈ temp_tensors, X.inlined t = false) → ∃ b2, addTempBuffers X b temp_tensors = .ok b2
  | [], b, _ => ⟨b, rfl⟩
  | t :: rest, b, h => by
    have ht : X.inlined t = false := h t (by simp)
    have ih := addTempBuffers_ok X rest (X.AddBuffer b (X.buffer t))
      (fun u hu => h u (by simp [hu]))
    obtain ⟨b2, hb2⟩ := ih
    exact ⟨b2, by simp [addTempBuffers, ht, hb2]⟩

/-- Claim C28.  Provided the temp-tensor preconditions hold (when `temp_tensors` is not
empty a module builder is given and no temporary tensor is inlined), `lang::Lower` returns
the function `LowerImpl` produced for the same name and arguments with at most its
`device_api` changed: when at least one tensor argument contains GPU info the returned
`device_api` is `GPU`, and only then is it assigned; every other field, and `device_api`
itself when no argument contains GPU info, is as `LowerImpl` produced it. -/
theorem lang_Lower_frame (X : LowerExternals T Vr Bf B D R) (name : String)
    (tensor_args : List T) (scalar_args : List Vr) (temp_tensors : List T) (b : Option B)
    (hpre : temp_tensors ≠ [] → b.isSome = true ∧ ∀ t ∈ temp_tensors, X.inlined t = false) :
    ∃ res b2, lang.Lower X name tensor_args scalar_args temp_tensors b = .ok (res, b2) ∧
      res.others = (X.LowerImpl name tensor_args scalar_args temp_tensors).others ∧
      ((∃ t ∈ tensor_args, X.TensorContainsGPUInfo t = true) → res.device_api = X.GPU) ∧
      ((¬ ∃ t ∈ tensor_args, X.TensorContainsGPUInfo t = true) →
        res = X.LowerImpl name tensor_args scalar_args temp_tensors) ∧
      (res ≠ X.LowerImpl name tensor_args scalar_args temp_tensors →
        ∃ t ∈ tensor_args, X.TensorContainsGPUInfo t = true) := by
  have hres : ∀ res : ir.LoweredFunc D R,
      res = (if containsGpuLoop X tensor_args then
          { X.LowerImpl name tensor_args scalar_args temp_tensors with device_api := X.GPU }
        else X.LowerImpl name tensor_args scalar_args temp_tensors) →
      res.others = (X.LowerImpl name tensor_args scalar_args temp_tensors).others ∧
      ((∃ t ∈ tensor_args, X.TensorContainsGPUInfo t = true) → res.device_api = X.GPU) ∧
      ((¬ ∃ t ∈ tensor_args, X.TensorContainsGPUInfo t = true) →
        res = X.LowerImpl name tensor_args scalar_args temp_tensors) ∧
      (res ≠ X.LowerImpl name tensor_args scalar_args temp_tensors →
        ∃ t ∈ tensor_args, X.TensorContainsGPUInfo t = true) := by
    intro res hr
    have hiff := containsGpuLoop_iff X tensor_args
    by_cases hc : containsGpuLoop X tensor_args = true
    · rw [if_pos hc] at hr
      subst hr
      exact ⟨rfl, fun _ => rfl, fun hn => absurd (hiff.mp hc) hn, fun _ => hiff.mp hc⟩
    · rw [if_neg hc] at hr
      subst hr
      exact ⟨rfl, fun h => absurd (hiff.mpr h) hc, fun _ => rfl, fun h => absurd rfl h⟩
  cases temp_tensors with
  | nil => exact ⟨_, b.map (fun builder => X.AddFunction builder _), rfl, hres _ rfl⟩
  | cons t rest =>
    obtain ⟨hb, hin⟩ := hpre (by simp)
    cases b with
    | none => simp at hb
    | some builder =>
      obtain ⟨b2, hb2⟩ := addTempBuffers_ok X (t :: rest) builder hin
      obtain ⟨res, hr⟩ : ∃ res : ir.LoweredFunc D R,
          res = (if containsGpuLoop X tensor_args then
              { X.LowerImpl name tensor_args scalar_args (t :: rest) with device_api := X.GPU }
            else X.LowerImpl name tensor_args scalar_args (t :: rest)) := ⟨_, rfl⟩
      refine ⟨res, some (X.AddFunction b2 res), ?_, hres res hr⟩
      subst hr
      simp only [lang.Lower, List.isEmpty_cons, Bool.not_false, if_true, hb2, Except.map, bind,
        Except.bind, pure, Except.pure, Option.map_some']

end LangLowerTheorems

/-- Claim C28 on `demoLowerExternals`: with the tensor arguments `1, 4` (4 carries GPU info),
one temporary tensor and a builder, the returned function has the other fields of
`LowerImpl` and device 2. -/
theorem lang_Lower_frame_witness :
    ∃ res b2, lang.Lower demoLowerExternals "f" [1, 4] [7] [5] (some []) = .ok (res, b2) ∧
      res.others = (demoLowerExternals.LowerImpl "f" [1, 4] [7] [5]).others ∧
      ((∃ t ∈ ([1, 4] : List Nat), demoLowerExternals.TensorContainsGPUInfo t = true) →
        res.device_api = demoLowerExternals.GPU) ∧
      ((¬ ∃ t ∈ ([1, 4] : List Nat), demoLowerExternals.TensorContainsGPUInfo t = true) →
        res = demoLowerExternals.LowerImpl "f" [1, 4] [7] [5]) ∧
      (res ≠ demoLowerExternals.LowerImpl "f" [1, 4] [7] [5] →
        ∃ t ∈ ([1, 4] : List Nat), demoLowerExternals.TensorContainsGPUInfo t = true) :=
  lang_Lower_frame demoLowerExternals "f" [1, 4] [7] [5] (some [])
    (fun _ => ⟨rfl, by decide⟩)

set_option maxRecDepth 1000000

/-! ## Claims on the fusion passes and on lowering -/

theorem membersOf_ne_nil (G : Graph) (a : Nat → Nat) (r : Nat) (hr : r < G.nodes.length)
    (har : a r = r) : membersOf G a r ≠ [] := by
  intro h
  have : r ∈ membersOf G a r := mem_membersOf.mpr ⟨hr, har⟩
  rw [h] at this
  simp at this

/-- Claim C16.  For every acyclic input graph with populated shape tables the fusion pass
succeeds, and every node of the graph belongs to exactly one of its fusion groups; the
groups are non-empty and hold only nodes of the graph, so they partition the node set. -/
theorem OpFusionPass_partition (G : Graph) (hac : G.acyclic = true)
    (hsh : G.shapesPopulated = true) :
    ∃ gs, OpFusionPass G = .ok gs ∧
      (∀ v, v < G.nodes.length → ∃! g, g ∈ gs ∧ v ∈ g) ∧
      (∀ g ∈ gs, g ≠ [] ∧ ∀ u ∈ g, u < G.nodes.length) := by
  have inv := fuseInv_fusionAssign G (fusible G) hac
  obtain ⟨h1, h2⟩ := groupsOf_partition G _ _ inv
  refine ⟨_, OpFusionPass_eq G hac hsh, h1, ?_⟩
  intro g hg
  refine ⟨?_, h2 g hg⟩
  obtain ⟨r, hr, har, rfl⟩ := mem_groupsOf.mp hg
  exact membersOf_ne_nil G _ r hr har

/-- Claim C16 on the graph of `Reduce_Fusion_Test_6`. -/
theorem OpFusionPass_partition_witness :
    ∃ gs, OpFusionPass Reduce_Fusion_Test_6 = .ok gs ∧
      (∀ v, v < Reduce_Fusion_Test_6.nodes.length → ∃! g, g ∈ gs ∧ v ∈ g) ∧
      (∀ g ∈ gs, g ≠ [] ∧ ∀ u ∈ g, u < Reduce_Fusion_Test_6.nodes.length) :=
  OpFusionPass_partition Reduce_Fusion_Test_6 (by decide) (by decide)

/-- Claim C17.  The fusion-merge pass is idempotent: on its own output a scan finds no merge,
so a second run returns the group list of the first run unchanged (same groups, same
members, same count); in particular a single group stays a single group. -/
theorem FusionMergePass_idempotent (G : Graph) (gs : List FusionGroup) :
    mergeScan G (FusionMergePass G gs) = none ∧
    FusionMergePass G (FusionMergePass G gs) = FusionMergePass G gs ∧
    (FusionMergePass G (FusionMergePass G gs)).length = (FusionMergePass G gs).length ∧
    (∀ g, FusionMergePass G [g] = [g]) := by
  have h1 : mergeScan G (FusionMergePass G gs) = none :=
    mergeLoop_fixed G gs.length gs (le_refl _)
  have h2 : FusionMergePass G (FusionMergePass G gs) = FusionMergePass G gs :=
    mergeLoop_of_none G _ _ h1
  refine ⟨h1, h2, by rw [h2], ?_⟩
  intro g
  exact mergeLoop_of_none G _ _ (mergeScan_single G g)

/-- Claim C19.  In the fusion pass a node `v` whose output is consumed by two nodes that end
up in different groups is not fused into the group of either consumer: it forms the
singleton group `[v]`, the only group that holds `v`, and the groups of the two consumers do
not hold `v`.  For example the elementwise add of `Reduce_Fusion_Test_4`, which feeds two
separate reductions, yields the 3 groups `[0]`, `[1]`, `[2]` after the fusion pass. -/
theorem fan_out_isolation (G : Graph) (gs : List FusionGroup) (v w1 w2 : Nat)
    (hac : G.acyclic = true) (hpass : OpFusionPass G = .ok gs)
    (h1 : w1 ∈ G.consumers v) (h2 : w2 ∈ G.consumers v)
    (hdiff : ¬ ∃ g ∈ gs, w1 ∈ g ∧ w2 ∈ g) :
    ([v] ∈ gs ∧ (∀ g ∈ gs, v ∈ g → g = [v]) ∧ (∀ g ∈ gs, w1 ∈ g ∨ w2 ∈ g → v ∉ g)) ∧
    OpFusionPass Reduce_Fusion_Test_4 = .ok [[0], [1], [2]] := by
  refine ⟨?_, by
    rw [OpFusionPass_eq _ (by decide) (by decide)]; exact congrArg Except.ok (by decide)⟩
  have hsh : G.shapesPopulated = true := by
    by_contra hcon
    simp [OpFusionPass, hac, hcon] at hpass
  have heq := OpFusionPass_eq G hac hsh
  rw [heq] at hpass
  have hgs : gs = groupsOf G (fusionAssign G (fusible G)) := (Except.ok.inj hpass).symm
  subst hgs
  have inv := fuseInv_fusionAssign G (fusible G) hac
  have hw1 : w1 < G.nodes.length := (Graph.feeds_lt_length (Graph.mem_consumers.mp h1)).2
  have hw2 : w2 < G.nodes.length := (Graph.feeds_lt_length (Graph.mem_consumers.mp h2)).2
  have hv : v < G.nodes.length := (Graph.feeds_lt_length (Graph.mem_consumers.mp h1)).1
  have hlt1 : v < w1 := Graph.feeds_lt hac (Graph.mem_consumers.mp h1)
  have hlt2 : v < w2 := Graph.feeds_lt hac (Graph.mem_consumers.mp h2)
  have hne : fusionAssign G (fusible G) w1 ≠ fusionAssign G (fusible G) w2 := by
    intro h
    apply hdiff
    refine ⟨membersOf G (fusionAssign G (fusible G)) (fusionAssign G (fusible G) w1), ?_, ?_, ?_⟩
    · exact mem_groupsOf.mpr ⟨_, inv.in_range w1 hw1, inv.founder_fixed w1, rfl⟩
    · exact mem_membersOf.mpr ⟨hw1, rfl⟩
    · exact mem_membersOf.mpr ⟨hw2, h.symm⟩
  obtain ⟨_, _, hsole⟩ := fusion_fan_out G hac _ _ inv v w1 w2 h1 h2 hne
  have hvv : fusionAssign G (fusible G) v = v := (hsole v).mpr rfl
  have hsingle := membersOf_singleton G _ v hv hsole
  have honly : ∀ g ∈ groupsOf G (fusionAssign G (fusible G)), v ∈ g → g = [v] := by
    intro g hg hvg
    obtain ⟨r, _, _, rfl⟩ := mem_groupsOf.mp hg
    have hr := (mem_membersOf.mp hvg).2
    rw [hvv] at hr
    rw [← hr, hsingle]
  refine ⟨?_, honly, ?_⟩
  · rw [← hsingle]
    exact mem_groupsOf.mpr ⟨v, hv, hvv, rfl⟩
  · intro g hg hw hvg
    rw [honly g hg hvg] at hw
    simp only [List.mem_singleton] at hw
    omega

/-- Claim C19 on `Reduce_Fusion_Test_4`: the add (node 0) feeds the reductions 1 and 2,
which end up in different groups. -/
theorem fan_out_isolation_witness :
    (([0] : FusionGroup) ∈ ([[0], [1], [2]] : List FusionGroup) ∧
      (∀ g ∈ ([[0], [1], [2]] : List FusionGroup), 0 ∈ g → g = [0]) ∧
      (∀ g ∈ ([[0], [1], [2]] : List FusionGroup), 1 ∈ g ∨ 2 ∈ g → 0 ∉ g)) ∧
    OpFusionPass Reduce_Fusion_Test_4 = .ok [[0], [1], [2]] :=
  fan_out_isolation Reduce_Fusion_Test_4 [[0], [1], [2]] 0 1 2 (by decide)
    (by rw [OpFusionPass_eq _ (by decide) (by decide)]; exact congrArg Except.ok (by decide))
    (by decide) (by decide) (by decide)

section LowerClaims
variable {Tn Ex : Type}

end LowerClaims

theorem demoStrategies_accepts : demoStrategies.Accepts Reduce_Fusion_Test_6 := by
  refine ⟨fun nd _ => ⟨nd.outputs, rfl⟩, fun nd _ _ => ⟨nd.op, rfl⟩, ?_⟩
  intro nd hnd hpat ins ts hts
  have hts2 : ts = nd.outputs := (Except.ok.inj hts).symm
  subst hts2
  simp only [Reduce_Fusion_Test_6, List.mem_cons, List.mem_singleton, List.not_mem_nil,
    or_false] at hnd
  rcases hnd with rfl | rfl | rfl | rfl | rfl
  · simp [ElementwiseAdd] at hpat
  · exact ⟨[128, 128], ⟨[0], false⟩, .ScheduleReduce, by decide, rfl, rfl⟩
  · exact ⟨[128, 128], ⟨[0], false⟩, .ScheduleReduce, by decide, rfl, rfl⟩
  · simp [ElementwiseAdd] at hpat
  · simp [ElementwiseAdd] at hpat

/-- Claim C20.  For the graph `D = A + B` on shape `[128, 128]` with the reductions
`E = reduce_sum(D, {0})` and `F = reduce_sum(D, {0})`, each followed by an elementwise add
with a `[128]` tensor: the fusion pass yields exactly 3 groups (the add, and each reduction
with the add that follows it), the fusion-merge pass then yields exactly 1 group, and
lowering that group yields exactly 1 `LoweredFunc` (with any strategies that report no error
on a supported configuration, such as the demonstration strategies). -/
theorem Reduce_Fusion_Test_6_scenario :
    OpFusionPass Reduce_Fusion_Test_6 = .ok [[0], [1, 3], [2, 4]] ∧
    ([[0], [1, 3], [2, 4]] : List FusionGroup).length = 3 ∧
    FusionMergePass Reduce_Fusion_Test_6 [[0], [1, 3], [2, 4]] = [[0, 1, 2, 3, 4]] ∧
    (FusionMergePass Reduce_Fusion_Test_6 [[0], [1, 3], [2, 4]]).length = 1 ∧
    (∀ (Tn Ex : Type) (St : OpStrategies Tn Ex) (fs : List (LoweredFunc Ex)),
      OpLowerer.Lower St Reduce_Fusion_Test_6 [0, 1, 2, 3, 4] = .ok fs → fs.length = 1) ∧
    (∀ (Tn Ex : Type) (St : OpStrategies Tn Ex), St.Accepts Reduce_Fusion_Test_6 →
      ∃ f, OpLowerer.Lower St Reduce_Fusion_Test_6 [0, 1, 2, 3, 4] = .ok [f]) ∧
    (∃ f, OpLowerer.Lower demoStrategies Reduce_Fusion_Test_6 [0, 1, 2, 3, 4] = .ok [f]) := by
  have hmem : ∀ v ∈ ([0, 1, 2, 3, 4] : FusionGroup), v < Reduce_Fusion_Test_6.nodes.length := by
    decide
  refine ⟨?_, rfl, by decide, by decide, ?_, ?_, ?_⟩
  · rw [OpFusionPass_eq _ (by decide) (by decide)]
    exact congrArg Except.ok (by decide)
  · intro Tn Ex St fs h
    exact Lower_length St _ _ fs h
  · intro Tn Ex St hacc
    exact Lower_ok St _ _ hmem hacc
  · exact Lower_ok demoStrategies _ _ hmem demoStrategies_accepts

/-! ## Group counts asserted in `op_lowering_test.cc` -/

/-! The fusion pass and the fusion-merge pass are evaluated on the graphs of the tests that
assert a group count; the count of the test is the length of the list on the right. -/

/-- The graph of `Reduce_Fusion_Test_0`: the test counts 1 group after the fusion pass. -/
theorem Reduce_Fusion_Test_0_groups :
    OpFusionPass Reduce_Fusion_Test_0 = .ok [[0, 1]] := by
  rw [OpFusionPass_eq _ (by decide) (by decide)]
  exact congrArg Except.ok (by decide)

/-- The graph of `Reduce_Fusion_Test_1`: the test counts 1 group after the fusion pass. -/
theorem Reduce_Fusion_Test_1_groups :
    OpFusionPass Reduce_Fusion_Test_1 = .ok [[0, 1]] := by
  rw [OpFusionPass_eq _ (by decide) (by decide)]
  exact congrArg Except.ok (by decide)

/-- The graph of `Reduce_Fusion_Test_2`: the test counts 1 group after the fusion pass. -/
theorem Reduce_Fusion_Test_2_groups :
    OpFusionPass Reduce_Fusion_Test_2 = .ok [[0, 1, 2, 3]] := by
  rw [OpFusionPass_eq _ (by decide) (by decide)]
  exact congrArg Except.ok (by decide)

/-- The graph of `Reduce_Fusion_Test_3`: the test counts 1 group after the fusion pass. -/
theorem Reduce_Fusion_Test_3_groups :
    OpFusionPass Reduce_Fusion_Test_3 = .ok [[0, 1, 2]] := by
  rw [OpFusionPass_eq _ (by decide) (by decide)]
  exact congrArg Except.ok (by decide)

/-- The graph of `Reduce_Fusion_Test_4`: the test counts 3 groups after the fusion pass and 1 group
after the fusion-merge pass. -/
theorem Reduce_Fusion_Test_4_groups :
    OpFusionPass Reduce_Fusion_Test_4 = .ok [[0], [1], [2]] ∧
    FusionMergePass Reduce_Fusion_Test_4 [[0], [1], [2]] =
      [[0, 1, 2]] := by
  refine ⟨?_, by decide⟩
  rw [OpFusionPass_eq _ (by decide) (by decide)]
  exact congrArg Except.ok (by decide)

/-- The graph of `Reduce_Fusion_Test_5`: the test counts 3 groups after the fusion pass and 1 group
after the fusion-merge pass. -/
theorem Reduce_Fusion_Test_5_groups :
    OpFusionPass Reduce_Fusion_Test_5 = .ok [[0], [1], [2]] ∧
    FusionMergePass Reduce_Fusion_Test_5 [[0], [1], [2]] =
      [[0, 1, 2]] := by
  refine ⟨?_, by decide⟩
  rw [OpFusionPass_eq _ (by decide) (by decide)]
  exact congrArg Except.ok (by decide)

/-- The graph of `Reduce_Fusion_Test_7`: the test counts 5 groups after the fusion pass and 1 group
after the fusion-merge pass. -/
theorem Reduce_Fusion_Test_7_groups :
    OpFusionPass Reduce_Fusion_Test_7 = .ok [[0], [1], [2], [3], [4]] ∧
    FusionMergePass Reduce_Fusion_Test_7 [[0], [1], [2], [3], [4]] =
      [[0, 1, 2, 3, 4]] := by
  refine ⟨?_, by decide⟩
  rw [OpFusionPass_eq _ (by decide) (by decide)]
  exact congrArg Except.ok (by decide)

/-- The graph of `Reduce_Fusion_Test_8`: the test counts 5 groups after the fusion pass and 1 group
after the fusion-merge pass. -/
theorem Reduce_Fusion_Test_8_groups :
    OpFusionPass Reduce_Fusion_Test_8 = .ok [[0], [1], [2], [3], [4]] ∧
    FusionMergePass Reduce_Fusion_Test_8 [[0], [1], [2], [3], [4]] =
      [[0, 1, 2, 3, 4]] := by
  refine ⟨?_, by decide⟩
  rw [OpFusionPass_eq _ (by decide) (by decide)]
  exact congrArg Except.ok (by decide)

/-- The graph of `Reduce_Fusion_Test_9`: the test counts 5 groups after the fusion pass and 1 group
after the fusion-merge pass. -/
theorem Reduce_Fusion_Test_9_groups :
    OpFusionPass Reduce_Fusion_Test_9 = .ok [[0], [1], [2], [3], [4]] ∧
    FusionMergePass Reduce_Fusion_Test_9 [[0], [1], [2], [3], [4]] =
      [[0, 1, 2, 3, 4]] := by
  refine ⟨?_, by decide⟩
  rw [OpFusionPass_eq _ (by decide) (by decide)]
  exact congrArg Except.ok (by decide)

/-- The graph of `Reduce_Fusion_Test_10`: the test counts 1 group after the fusion pass and 1 group
after the fusion-merge pass. -/
theorem Reduce_Fusion_Test_10_groups :
    OpFusionPass Reduce_Fusion_Test_10 = .ok [[0, 1]] ∧
    FusionMergePass Reduce_Fusion_Test_10 [[0, 1]] =
      [[0, 1]] := by
  refine ⟨?_, by decide⟩
  rw [OpFusionPass_eq _ (by decide) (by decide)]
  exact congrArg Except.ok (by decide)

/-- The graph of `Reduce_Fusion_Test_11`: the test counts 3 groups after the fusion pass and 1 group
after the fusion-merge pass. -/
theorem Reduce_Fusion_Test_11_groups :
    OpFusionPass Reduce_Fusion_Test_11 = .ok [[0], [1], [2]] ∧
    FusionMergePass Reduce_Fusion_Test_11 [[0], [1], [2]] =
      [[0, 1, 2]] := by
  refine ⟨?_, by decide⟩
  rw [OpFusionPass_eq _ (by decide) (by decide)]
  exact congrArg Except.ok (by decide)

/-- The graph of `Reduce_Fusion_Test_12`: the test counts 3 groups after the fusion pass and 1 group
after the fusion-merge pass. -/
theorem Reduce_Fusion_Test_12_groups :
    OpFusionPass Reduce_Fusion_Test_12 = .ok [[0], [1], [2]] ∧
    FusionMergePass Reduce_Fusion_Test_12 [[0], [1], [2]] =
      [[0, 1, 2]] := by
  refine ⟨?_, by decide⟩
  rw [OpFusionPass_eq _ (by decide) (by decide)]
  exact congrArg Except.ok (by decide)

/-- The graph of `Reduce_Fusion_Test_13`: the test counts 3 groups after the fusion pass and 1 group
after the fusion-merge pass. -/
theorem Reduce_Fusion_Test_13_groups :
    OpFusionPass Reduce_Fusion_Test_13 = .ok [[0], [1], [2]] ∧
    FusionMergePass Reduce_Fusion_Test_13 [[0], [1], [2]] =
      [[0, 1, 2]] := by
  refine ⟨?_, by decide⟩
  rw [OpFusionPass_eq _ (by decide) (by decide)]
  exact congrArg Except.ok (by decide)

/-- The graph of `Reduce_Fusion_Test_14`: the test counts 3 groups after the fusion pass and 1 group
after the fusion-merge pass. -/
theorem Reduce_Fusion_Test_14_groups :
    OpFusionPass Reduce_Fusion_Test_14 = .ok [[0], [1], [2]] ∧
    FusionMergePass Reduce_Fusion_Test_14 [[0], [1], [2]] =
      [[0, 1, 2]] := by
  refine ⟨?_, by decide⟩
  rw [OpFusionPass_eq _ (by decide) (by decide)]
  exact congrArg Except.ok (by decide)

/-- The graph of `Reduce_Fusion_Test_15`: the test counts 3 groups after the fusion pass and 1 group
after the fusion-merge pass. -/
theorem Reduce_Fusion_Test_15_groups :
    OpFusionPass Reduce_Fusion_Test_15 = .ok [[0], [1], [2]] ∧
    FusionMergePass Reduce_Fusion_Test_15 [[0], [1], [2]] =
      [[0, 1, 2]] := by
  refine ⟨?_, by decide⟩
  rw [OpFusionPass_eq _ (by decide) (by decide)]
  exact congrArg Except.ok (by decide)

/-- The graph of `Reduce_Fusion_Test_16`: the test counts 3 groups after the fusion pass and 1 group
after the fusion-merge pass. -/
theorem Reduce_Fusion_Test_16_groups :
    OpFusionPass Reduce_Fusion_Test_16 = .ok [[0], [1], [2]] ∧
    FusionMergePass Reduce_Fusion_Test_16 [[0], [1], [2]] =
      [[0, 1, 2]] := by
  refine ⟨?_, by decide⟩
  rw [OpFusionPass_eq _ (by decide) (by decide)]
  exact congrArg Except.ok (by decide)

/-- The graph of `Reduce_Fusion_Test_17`: the test counts 1 group after the fusion pass. -/
theorem Reduce_Fusion_Test_17_groups :
    OpFusionPass Reduce_Fusion_Test_17 = .ok [[0, 1, 2]] := by
  rw [OpFusionPass_eq _ (by decide) (by decide)]
  exact congrArg Except.ok (by decide)

/-- The graph of `Reduce_Fusion_Test_18`: the test counts 1 group after the fusion pass. -/
theorem Reduce_Fusion_Test_18_groups :
    OpFusionPass Reduce_Fusion_Test_18 = .ok [[0, 1, 2]] := by
  rw [OpFusionPass_eq _ (by decide) (by decide)]
  exact congrArg Except.ok (by decide)

/-- The graph of `Reduce_Fusion_Test_19`: the test counts 1 group after the fusion pass. -/
theorem Reduce_Fusion_Test_19_groups :
    OpFusionPass Reduce_Fusion_Test_19 = .ok [[0, 1, 2]] := by
  rw [OpFusionPass_eq _ (by decide) (by decide)]
  exact congrArg Except.ok (by decide)

/-- The graph of `Reduce_Test_21`: the test counts 9 groups after the fusion pass and 1 group
after the fusion-merge pass. -/
theorem Reduce_Test_21_groups :
    OpFusionPass Reduce_Test_21 = .ok [[0], [1], [2], [3], [4, 5, 6, 7, 8, 9, 10], [11], [12], [13], [14]] ∧
    FusionMergePass Reduce_Test_21 [[0], [1], [2], [3], [4, 5, 6, 7, 8, 9, 10], [11], [12], [13], [14]] =
      [[0, 1, 2, 3, 4, 5, 6, 7, 8, 9, 10, 11, 12, 13, 14]] := by
  refine ⟨?_, by decide⟩
  rw [OpFusionPass_eq _ (by decide) (by decide)]
  exact congrArg Except.ok (by decide)

/-- With last extent 1 the four reductions of `Reduce_Fusion_Test_20` reduce up to the last
dimension in the sense of `WithoutLastDimInReduce` and stay alone in the fusion pass, as the
reductions of `Reduce_Fusion_Test_7` do; the fusion-merge pass brings the groups together. -/
theorem Reduce_Fusion_Test_20_last_extent_one :
    OpFusionPass (Reduce_Fusion_Test_20 128 1) = .ok [[0], [1], [2], [3], [4, 5, 6]] ∧
    FusionMergePass (Reduce_Fusion_Test_20 128 1) [[0], [1], [2], [3], [4, 5, 6]] =
      [[0, 1, 2, 3, 4, 5, 6]] := by
  refine ⟨?_, by decide⟩
  rw [OpFusionPass_eq _ (by decide) (by decide)]
  exact congrArg Except.ok (by decide)

/-- A producer of a fan-out node does not join the group of that node: on
`chainFanOutGraph` the fusion pass leaves four singleton groups, which the fusion-merge pass
brings together. -/
theorem chainFanOutGraph_groups :
    OpFusionPass chainFanOutGraph = .ok [[0], [1], [2], [3]] ∧
    FusionMergePass chainFanOutGraph [[0], [1], [2], [3]] = [[0, 1, 2, 3]] := by
  refine ⟨?_, by decide⟩
  rw [OpFusionPass_eq _ (by decide) (by decide)]
  exact congrArg Except.ok (by decide)

/-- The add `X` of `opaqueBridgeGraph` feeds its consumer `Z` directly and through the opaque
node `Y`: a group of `X` and `Z` would both feed and be fed by the group of `Y`.  Neither
pass forms it; the three groups stay. -/
theorem opaqueBridgeGraph_groups :
    OpFusionPass opaqueBridgeGraph = .ok [[0], [1], [2]] ∧
    mergeRule opaqueBridgeGraph [[0], [1], [2]] [0] [2] = false ∧
    backEdge opaqueBridgeGraph [[0], [1], [2]] [0] [2] = true ∧
    FusionMergePass opaqueBridgeGraph [[0], [1], [2]] = [[0], [1], [2]] := by
  refine ⟨?_, by decide, by decide, by decide⟩
  rw [OpFusionPass_eq _ (by decide) (by decide)]
  exact congrArg Except.ok (by decide)

/-! ## The scenario of `Reduce_Fusion_Test_20` -/

end CINN
